import Mathlib

/-!
# CGSF packet protocol pipeline

A shallow embedding of the receive and send skeleton of the CGSF server framework:

* `SFConstant.h`: the size limits, error codes and option flags;
* `SFPacketProtocol.h`: the adapter `SFPacketProtocol<T>` (constructors, `Clone`, `OnReceive`,
  `SendRequest`, `DisposePacket`), generic in the strategy `T`;
* `SFCGSFPacketProtocol.cpp`: the binary strategy (`Initialize`, `GetPacket`,
  `AddTransferredData`, `SendRequest`, `DisposePacket`, `GetPacketData`);
* `SFCasualGameDispatcher.cpp`: `Dispatch` and the logic thread `BusinessThread`;
* `SFSendDBRequest.cpp`: `SendToLogic`;
* `MGServerReceiver.cpp`, `MGClientReceiver.cpp`: `notifyMessage`, `SendInternal` and
  `Disconnect` on the session map.

The classes the strategy calls into (`SFPacket`, `SFPacketIOBuffer`, the packet pool) and the
dispatch queue are not part of the sources at hand; they are modelled from the specification, and
every such definition says so in its documentation.

Bytes are natural numbers below 256. Machine integers are `Nat` or `Int` with the conversion
written out where the C++ converts.
-/

namespace CGSF

/-! ## SFConstant.h -/

/-- The largest I/O buffer the system allows (`#define MAX_IO_SIZE 16384`). -/
def MAX_IO_SIZE : Int := 16384

/-- The largest packet size the system allows (`#define MAX_PACKET_SIZE 8192`). -/
def MAX_PACKET_SIZE : Nat := 8192

/-- The fixed symmetric key (`#define ENCRYPTION_KEY 0xAFB7E3D9`). -/
def ENCRYPTION_KEY : Nat := 0xAFB7E3D9

def PACKETIO_ERROR_NONE : Int := 0
def PACKETIO_ERROR_HEADER : Int := -1
def PACKETIO_ERROR_DATA : Int := -2
def PACKETIO_ERROR_DATA_CRC : Int := -3
def PACKETIO_ERROR_DATA_COMPRESS : Int := -4
def PACKETIO_ERROR_DATA_ENCRYPTION : Int := -5

/-- Payloads of at most this many bytes are never compressed (`#define PACKET_COMPRESS_LIMIT 1024`). -/
def PACKET_COMPRESS_LIMIT : Nat := 1024

def PACKET_OPTION_DATACRC : Nat := 0x00000001
def PACKET_OPTION_COMPRESS : Nat := 0x00000002
def PACKET_OPTION_ENCRYPTION : Nat := 0x00000004
def PACKET_OPTION_CRC_DEFAULT : Nat := 0x00000008
def PACKET_OPTION_CRC_MD5 : Nat := 0x00000010

/-! ## Machine integers -/

/-- Conversion of an `int` to `USHORT` (unsigned 16 bit): reduction modulo `2^16`. -/
def toUSHORT (i : Int) : Nat := (i % 65536).toNat

/-! ## Outcome of a call -/

/-- What a call of the embedded code can do: return a value, dereference a null pointer
(undefined behaviour in the C++, the call does not return), or exhaust the iteration bound the
model puts on an unbounded loop. -/
inductive Outcome (α : Type) where
  | returns (a : α)
  | nullDeref
  | outOfFuel
  deriving DecidableEq, Repr

/-! ## BasePacket -/

/-- The packet category (`BasePacket::GetPacketType`). The enumeration is declared in a header that
is not among the sources; its members are the ones the sources and the specification name, and
`SFPACKET_NONE` stands for the value of a packet no category has been given to. -/
inductive ePacketType where
  | SFPACKET_NONE
  | SFPACKET_CONNECT
  | SFPACKET_DATA
  | SFPACKET_TIMER
  | SFPACKET_SHOUTER
  | SFPACKET_DISCONNECT
  | SFPACKET_DB
  | SFPACKET_SERVERSHUTDOWN
  deriving DecidableEq, Repr

/-- The base class of all packets (`BasePacket.h` is not among the sources): the category and the
owner connection, which the adapter sets through `SetPacketType` and `SetOwnerSerial`, and `body`,
what the concrete packet class adds (the adapter never looks at it). -/
structure BasePacket (β : Type) where
  m_packetType : ePacketType
  m_ownerSerial : Int
  body : β
  deriving DecidableEq, Repr

namespace BasePacket

variable {β : Type}

def SetPacketType (p : BasePacket β) (t : ePacketType) : BasePacket β :=
  { p with m_packetType := t }

def SetOwnerSerial (p : BasePacket β) (serial : Int) : BasePacket β :=
  { p with m_ownerSerial := serial }

def GetPacketType (p : BasePacket β) : ePacketType := p.m_packetType

def GetOwnerSerial (p : BasePacket β) : Int := p.m_ownerSerial

end BasePacket

/-- The logic layer as `OnReceive` sees it: the packets handed to `SendLogicLayer` so far, the
oldest first. `SendLogicLayer` is declared in `SFPacketProtocol.h` and defined elsewhere. -/
abbrev LogicLayer (β : Type) := List (BasePacket β)

/-- The call `SendLogicLayer(pPacket)`: the packet is handed over, behind the earlier ones. -/
def SendLogicLayer {β : Type} (logic : LogicLayer β) (pPacket : BasePacket β) : LogicLayer β :=
  logic ++ [pPacket]

/-! ## SFPacketProtocol.h: the adapter, generic in the strategy -/

/-- The strategy `T` of `SFPacketProtocol<T>`, as far as `OnReceive` uses it. `σ` is the state the
strategy's methods read and write (`m_Analyzer` and the process-wide objects it reaches).
`GetPacket(int& errorCode)` takes the current value of `errorCode` and gives back the packet
pointer (`none` for `NULL`), the value of `errorCode` after the call and the new state. -/
structure Analyzer (σ β : Type) where
  AddTransferredData : σ → List Nat → Bool × σ
  GetPacket : σ → Int → Outcome (Option (BasePacket β) × Int × σ)

namespace SFPacketProtocol

variable {σ β : Type}

/-- The two-argument constructor `SFPacketProtocol(int bufferIOSize, USHORT packetDataSize)`, up to
the call of `Initialize`: the pair `(m_ioSize, m_packetSize)` it stores and passes on.
`packetDataSize` is a `USHORT`; in `packetDataSize > bufferIOSize` it is promoted to `int`, and
the assignment `packetDataSize = bufferIOSize` converts the `int` back to `USHORT`. -/
def clampSizes (bufferIOSize : Int) (packetDataSize : Nat) : Int × Nat :=
  let bufferIOSize := if bufferIOSize > MAX_IO_SIZE then MAX_IO_SIZE else bufferIOSize
  let packetDataSize := if packetDataSize > MAX_PACKET_SIZE then MAX_PACKET_SIZE else packetDataSize
  let packetDataSize :=
    if (packetDataSize : Int) > bufferIOSize then toUSHORT bufferIOSize else packetDataSize
  (bufferIOSize, packetDataSize)

/-- What `OnReceive` does to a packet it got from the strategy before it hands it on:
`SetPacketType(SFPACKET_DATA)`, then `SetOwnerSerial(Serial)`. -/
def tag (Serial : Int) (pPacket : BasePacket β) : BasePacket β :=
  (pPacket.SetPacketType ePacketType.SFPACKET_DATA).SetOwnerSerial Serial

/-- The `do { ... } while(true)` loop of `OnReceive`. One unit of fuel is one call of `GetPacket`.
The result is the strategy state, the value of `iErrorCode` and the logic layer when the loop is
left through `break`. -/
def receiveLoop (A : Analyzer σ β) (Serial : Int) :
    Nat → σ → Int → LogicLayer β → Outcome (σ × Int × LogicLayer β)
  | 0, _, _, _ => Outcome.outOfFuel
  | fuel + 1, s, iErrorCode, logic =>
    match A.GetPacket s iErrorCode with
    | Outcome.returns (none, iErrorCode, s) => Outcome.returns (s, iErrorCode, logic)
    | Outcome.returns (some pPacket, iErrorCode, s) =>
      receiveLoop A Serial fuel s iErrorCode (SendLogicLayer logic (tag Serial pPacket))
    | Outcome.nullDeref => Outcome.nullDeref
    | Outcome.outOfFuel => Outcome.outOfFuel

/-- The method `OnReceive(int Serial, char* pBuffer, unsigned int dwTransferred)`; `pBuffer` is the
list of the `dwTransferred` bytes. The result is the returned `bool`, the strategy state and the
logic layer. `SFASSERT` (from `Macro.h`, not among the sources) is a diagnostic; the statement
after it, `return false`, is what the model keeps. -/
def OnReceive (A : Analyzer σ β) (fuel : Nat) (Serial : Int) (pBuffer : List Nat) (s : σ)
    (logic : LogicLayer β) : Outcome (Bool × σ × LogicLayer β) :=
  match A.AddTransferredData s pBuffer with
  | (false, s) => Outcome.returns (false, s, logic)
  | (true, s) =>
    match receiveLoop A Serial fuel s PACKETIO_ERROR_NONE logic with
    | Outcome.returns (s, iErrorCode, logic) =>
      if iErrorCode ≠ PACKETIO_ERROR_NONE then Outcome.returns (false, s, logic)
      else Outcome.returns (true, s, logic)
    | Outcome.nullDeref => Outcome.nullDeref
    | Outcome.outOfFuel => Outcome.outOfFuel

/-- The successive `GetPacket` calls starting from state `s` with error code `e`: the packets
`ps` are the non-null results, in call order, of the calls made before the first call that
returns `NULL`; that call leaves the state `s'` and the error code `e'`. -/
inductive GetPacketRun (A : Analyzer σ β) : σ → Int → List (BasePacket β) → σ → Int → Prop where
  | null {s : σ} {e : Int} {s' : σ} {e' : Int} :
      A.GetPacket s e = Outcome.returns (none, e', s') → GetPacketRun A s e [] s' e'
  | packet {s : σ} {e : Int} {p : BasePacket β} {s1 : σ} {e1 : Int} {ps : List (BasePacket β)}
      {s' : σ} {e' : Int} :
      A.GetPacket s e = Outcome.returns (some p, e1, s1) → GetPacketRun A s1 e1 ps s' e' →
      GetPacketRun A s e (p :: ps) s' e'

end SFPacketProtocol

/-! ## SFPacket: header, payload, wire form -/

/-- The packet header `SFPacketHeader`. Its declaration is not among the sources; the fields and
their widths are the ones the layout comment in `SFMsgPackPacket.h` gives: packet id (2 bytes),
packet option (4 bytes), CRC (4 bytes), data size (2 bytes), 12 bytes in all. -/
structure SFPacketHeader where
  packetID : Nat
  packetOption : Nat
  dataCRC : Nat
  dataSize : Nat
  deriving DecidableEq, Repr

/-- The size of `SFPacketHeader` in bytes. -/
def HEADER_SIZE : Nat := 12

/-- What `SFPacket` adds to `BasePacket`: `addr`, the identity of the instance (the value of the
pointer the pool hands out), the header and the payload bytes. -/
structure SFPacketBody where
  addr : Nat
  header : SFPacketHeader
  data : List Nat
  deriving DecidableEq, Repr

abbrev SFPacket := BasePacket SFPacketBody

/-- Modelled from the spec: the checksum, compression and encryption transforms (`SFChecksum`,
`SFCompressor`, `SFEncryption`, none of them among the sources). The specification names them
without saying what bytes they produce, so they are parameters. `checksum` receives the option
flags, whose sub-flags select the algorithm; the two inverse transforms can fail. -/
structure PacketTransforms where
  checksum : Nat → List Nat → Nat
  compress : List Nat → List Nat
  uncompress : List Nat → Option (List Nat)
  encrypt : List Nat → List Nat
  decrypt : List Nat → Option (List Nat)

/-- What "reverse compression" and "reverse encryption" of the specification (section 4.1) say
of the transforms: decompressing what was compressed, and decrypting what was encrypted, gives
the bytes back. Nothing is said of the lengths of what the transforms produce. -/
structure PacketTransforms.Inverse (T : PacketTransforms) : Prop where
  uncompress_compress : ∀ d, T.uncompress (T.compress d) = some d
  decrypt_encrypt : ∀ d, T.decrypt (T.encrypt d) = some d

/-- The option word with the given three transform flags set and no other bit. -/
def optionFlags (crc cmp enc : Bool) : Nat :=
  (if crc then PACKET_OPTION_DATACRC else 0) ||| (if cmp then PACKET_OPTION_COMPRESS else 0) |||
    (if enc then PACKET_OPTION_ENCRYPTION else 0)

namespace SFPacketHeader

/-- A header with every field zero. -/
def zero : SFPacketHeader := { packetID := 0, packetOption := 0, dataCRC := 0, dataSize := 0 }

/-- Modelled from the spec: the checksum flag of the option word is set. -/
def CheckDataCRC (h : SFPacketHeader) : Bool := h.packetOption &&& PACKET_OPTION_DATACRC ≠ 0

/-- Modelled from the spec: the compress flag of the option word is set. -/
def CheckCompressed (h : SFPacketHeader) : Bool := h.packetOption &&& PACKET_OPTION_COMPRESS ≠ 0

/-- Modelled from the spec: the encryption flag of the option word is set. -/
def CheckEncryption (h : SFPacketHeader) : Bool := h.packetOption &&& PACKET_OPTION_ENCRYPTION ≠ 0

/-- Modelled from the spec: the 12 bytes of a header on the wire, in the field order of the
layout comment (packet id, option, CRC, data size), each field least significant byte first. -/
def toBytes (h : SFPacketHeader) : List Nat :=
  [h.packetID % 256, h.packetID / 256 % 256,
   h.packetOption % 256, h.packetOption / 256 % 256, h.packetOption / 65536 % 256,
   h.packetOption / 16777216 % 256,
   h.dataCRC % 256, h.dataCRC / 256 % 256, h.dataCRC / 65536 % 256, h.dataCRC / 16777216 % 256,
   h.dataSize % 256, h.dataSize / 256 % 256]

/-- Modelled from the spec: reads a header off the front of a byte sequence; the result is the
header and the bytes after it, `none` when fewer than 12 bytes are there. -/
def ofBytes : List Nat → Option (SFPacketHeader × List Nat)
  | i0 :: i1 :: o0 :: o1 :: o2 :: o3 :: c0 :: c1 :: c2 :: c3 :: n0 :: n1 :: rest =>
    some ({ packetID := i0 + 256 * i1,
            packetOption := o0 + 256 * o1 + 65536 * o2 + 16777216 * o3,
            dataCRC := c0 + 256 * c1 + 65536 * c2 + 16777216 * c3,
            dataSize := n0 + 256 * n1 }, rest)
  | _ => none

end SFPacketHeader

namespace SFPacket

def GetHeader (p : SFPacket) : SFPacketHeader := p.body.header

def GetData (p : SFPacket) : List Nat := p.body.data

/-- The packet with header and payload replaced (what writing through `GetHeader()` and
`GetData()` does); the instance stays the same. -/
def setFrame (p : SFPacket) (header : SFPacketHeader) (data : List Nat) : SFPacket :=
  { p with body := { p.body with header := header, data := data } }

/-- Modelled from the spec: `SFPacket::Initialize()` readies a pooled instance for reuse: the
header is cleared and the payload emptied. -/
def Initialize (p : SFPacket) : SFPacket := p.setFrame SFPacketHeader.zero []

/-- Modelled from the spec: `SFPacket::GetPacketSize()`, the header plus `dataSize` payload
bytes. -/
def GetPacketSize (p : SFPacket) : Nat := HEADER_SIZE + p.body.header.dataSize

/-- Modelled from the spec: the bytes of the frame that starts at the packet header and is
`GetPacketSize()` long: the header, then the payload. -/
def frameBytes (p : SFPacket) : List Nat :=
  (p.body.header.toBytes ++ p.body.data).take p.GetPacketSize

/-- Modelled from the spec: `SFPacket::Encode()` (section 4.1). `packetOption` is the configured
option word (`SFBaseProtocol::SetPacketOption`). The payload is compressed when the compress flag
is set and it is longer than `PACKET_COMPRESS_LIMIT`, then encrypted when the encryption flag is
set; the header gets the option word, with the compress flag cleared when the payload was left
uncompressed, the checksum of the final bytes when the checksum flag is set, and the final payload
length. -/
def Encode (T : PacketTransforms) (packetOption : Nat) (p : SFPacket) : SFPacket :=
  let wantCompress : Bool := packetOption &&& PACKET_OPTION_COMPRESS ≠ 0
  let doCompress : Bool := wantCompress && decide (PACKET_COMPRESS_LIMIT < p.body.data.length)
  let d1 := if doCompress then T.compress p.body.data else p.body.data
  let d2 := if packetOption &&& PACKET_OPTION_ENCRYPTION ≠ 0 then T.encrypt d1 else d1
  let wireOption :=
    if wantCompress && !doCompress then packetOption ^^^ PACKET_OPTION_COMPRESS else packetOption
  let crc :=
    if packetOption &&& PACKET_OPTION_DATACRC ≠ 0 then T.checksum wireOption d2 % 4294967296
    else 0
  p.setFrame
    { packetID := p.body.header.packetID, packetOption := wireOption, dataCRC := crc,
      dataSize := d2.length } d2

/-- Modelled from the spec: `SFPacket::Decode(int& errorCode)` (section 4.1), on a packet whose
header and payload were read off the wire: the data length is checked against the maximum packet
size, the checksum is verified when flagged, encryption is undone when flagged, compression is
undone when flagged. A failure sets the error code of its kind and returns `FALSE`; success leaves
the error code as it was. -/
def Decode (T : PacketTransforms) (maxPacketSize : Nat) (p : SFPacket) (errorCode : Int) :
    Bool × SFPacket × Int :=
  let h := p.body.header
  if maxPacketSize < h.dataSize then (false, p, PACKETIO_ERROR_DATA)
  else if h.CheckDataCRC && decide (T.checksum h.packetOption p.body.data % 4294967296 ≠ h.dataCRC)
  then (false, p, PACKETIO_ERROR_DATA_CRC)
  else
    match (if h.CheckEncryption then T.decrypt p.body.data else some p.body.data) with
    | none => (false, p, PACKETIO_ERROR_DATA_ENCRYPTION)
    | some d1 =>
      match (if h.CheckCompressed then T.uncompress d1 else some d1) with
      | none => (false, p, PACKETIO_ERROR_DATA_COMPRESS)
      | some d0 => (true, p.setFrame { h with dataSize := d0.length } d0, errorCode)

end SFPacket

/-! ## SFPacketIOBuffer: the transfer buffer -/

/-- Modelled from the spec: the transfer buffer `SFPacketIOBuffer` (section 4.2, not among the
sources): a capacity and the bytes buffered and not yet consumed, the oldest first. -/
structure SFPacketIOBuffer where
  m_iBufSize : Nat
  buffered : List Nat
  deriving DecidableEq, Repr

namespace SFPacketIOBuffer

/-- Modelled from the spec: `AllocIOBuf(size)`: an empty buffer of the given capacity. -/
def AllocIOBuf (ioBufferSize : Int) : SFPacketIOBuffer :=
  { m_iBufSize := ioBufferSize.toNat, buffered := [] }

/-- Modelled from the spec: `InitIOBuf()`: the buffer is emptied, the capacity stays. -/
def InitIOBuf (b : SFPacketIOBuffer) : SFPacketIOBuffer := { b with buffered := [] }

/-- Modelled from the spec: `AppendData` copies the chunk behind the buffered bytes; when the
result would exceed the capacity it fails and leaves the buffer as it was. -/
def AppendData (b : SFPacketIOBuffer) (pBuffer : List Nat) : Bool × SFPacketIOBuffer :=
  if b.m_iBufSize < b.buffered.length + pBuffer.length then (false, b)
  else (true, { b with buffered := b.buffered ++ pBuffer })

/-- Modelled from the spec: `GetPacket(header, pData, errorCode)` takes one frame off the front:
with fewer bytes than a header, or fewer payload bytes than the header declares, it returns
`FALSE` without an error and consumes nothing; with a complete frame it fills in the header and
the payload, moves past the frame and returns `TRUE`. The error code is never changed here. -/
def GetPacket (b : SFPacketIOBuffer) (header : SFPacketHeader) (pData : List Nat)
    (errorCode : Int) : Bool × SFPacketHeader × List Nat × Int × SFPacketIOBuffer :=
  match SFPacketHeader.ofBytes b.buffered with
  | none => (false, header, pData, errorCode, b)
  | some (h, rest) =>
    if rest.length < h.dataSize then (false, header, pData, errorCode, b)
    else (true, h, rest.take h.dataSize, errorCode, { b with buffered := rest.drop h.dataSize })

end SFPacketIOBuffer

/-! ## The packet pool -/

/-- A call made on the packet pool: an `Alloc` that handed out the instance `addr`, an `Alloc`
that had nothing to hand out, a `Release` of the instance `addr`. -/
inductive PoolCall where
  | alloc (addr : Nat)
  | allocFailed
  | release (addr : Nat)
  deriving DecidableEq, Repr

/-- Modelled from the spec: the Packet Object Pool behind `PacketPoolSingleton` (not among the
sources): a bounded collection of reusable instances. `free` holds the instances available, each
with whatever content it was released with; `checkedOut` the identities of the instances handed
out and not yet returned; `calls` is the history of the calls made, the oldest first. The
capacity is the number of instances, free and checked out. -/
structure PacketPool where
  free : List SFPacket
  checkedOut : List Nat
  calls : List PoolCall
  deriving DecidableEq, Repr

namespace PacketPool

/-- The number of outstanding checkouts. -/
def outstanding (pool : PacketPool) : Nat := pool.checkedOut.length

/-- Modelled from the spec: `Alloc()` hands out a free instance, or nothing (`NULL`) when every
instance is checked out. -/
def Alloc (pool : PacketPool) : Option SFPacket × PacketPool :=
  match pool.free with
  | [] => (none, { pool with calls := pool.calls ++ [PoolCall.allocFailed] })
  | p :: rest =>
    (some p, { free := rest, checkedOut := p.body.addr :: pool.checkedOut,
               calls := pool.calls ++ [PoolCall.alloc p.body.addr] })

/-- Modelled from the spec: `Release(p)` returns a checked-out instance to the pool; releasing an
instance that is not checked out is refused. -/
def Release (pool : PacketPool) (p : SFPacket) : Bool × PacketPool :=
  if p.body.addr ∈ pool.checkedOut then
    (true, { free := p :: pool.free, checkedOut := pool.checkedOut.erase p.body.addr,
             calls := pool.calls ++ [PoolCall.release p.body.addr] })
  else (false, { pool with calls := pool.calls ++ [PoolCall.release p.body.addr] })

end PacketPool

/-! ## SFCGSFPacketProtocol.cpp: the binary strategy -/

/-- The state the methods of `SFCGSFPacketProtocol` work on: the member `m_pPacketIOBuffer` and
the process-wide objects they reach: the packet pool (`PacketPoolSingleton::instance()`), the
maximum packet size (`SFPacket::SetMaxPacketSize`), the configured option word
(`SFBaseProtocol::SetPacketOption`) and what was handed to the transport
(`SFEngine::GetInstance()->SendInternal(serial, buffer, size)`), the oldest first. -/
structure SFCGSFPacketProtocol where
  m_pPacketIOBuffer : SFPacketIOBuffer
  pool : PacketPool
  maxPacketSize : Nat
  packetOption : Nat
  transport : List (Int × List Nat)
  deriving DecidableEq, Repr

namespace SFCGSFPacketProtocol

/-- The method `Initialize(int ioBufferSize, USHORT packetSize)`: a fresh I/O buffer of the given
size is allocated and the maximum packet size is set. -/
def Initialize (st : SFCGSFPacketProtocol) (ioBufferSize : Int) (packetSize : Nat) :
    Bool × SFCGSFPacketProtocol :=
  (true, { st with m_pPacketIOBuffer := SFPacketIOBuffer.AllocIOBuf ioBufferSize,
                   maxPacketSize := packetSize })

/-- The method `GetPacket(int& errorCode)`. `Alloc` gives the packet pointer; the next statement,
`pPacket->Initialize()`, dereferences it without a test. -/
def GetPacket (T : PacketTransforms) (st : SFCGSFPacketProtocol) (errorCode : Int) :
    Outcome (Option SFPacket × Int × SFCGSFPacketProtocol) :=
  match st.pool.Alloc with
  | (none, _) => Outcome.nullDeref
  | (some pPacket, pool) =>
    let pPacket := pPacket.Initialize
    match st.m_pPacketIOBuffer.GetPacket pPacket.GetHeader pPacket.GetData errorCode with
    | (false, header, data, errorCode, buf) =>
      let pool := (pool.Release (pPacket.setFrame header data)).2
      Outcome.returns (none, errorCode, { st with m_pPacketIOBuffer := buf, pool := pool })
    | (true, header, data, errorCode, buf) =>
      match SFPacket.Decode T st.maxPacketSize (pPacket.setFrame header data) errorCode with
      | (false, pPacket, errorCode) =>
        let pool := (pool.Release pPacket).2
        Outcome.returns (none, errorCode, { st with m_pPacketIOBuffer := buf, pool := pool })
      | (true, pPacket, errorCode) =>
        Outcome.returns (some pPacket, errorCode, { st with m_pPacketIOBuffer := buf, pool := pool })

/-- The method `AddTransferredData(char* pBuffer, DWORD dwTransferred)`: the chunk is passed to
`AppendData`, whose result is dropped, and `true` is returned. -/
def AddTransferredData (st : SFCGSFPacketProtocol) (pBuffer : List Nat) :
    Bool × SFCGSFPacketProtocol :=
  let buf := (st.m_pPacketIOBuffer.AppendData pBuffer).2
  (true, { st with m_pPacketIOBuffer := buf })

/-- The method `Reset()`. -/
def Reset (st : SFCGSFPacketProtocol) : Bool × SFCGSFPacketProtocol :=
  (true, { st with m_pPacketIOBuffer := st.m_pPacketIOBuffer.InitIOBuf })

/-- The method `SendRequest(BasePacket* pPacket)`: the packet is encoded in place and the frame
that starts at its header, `GetPacketSize()` bytes long, is handed to the transport, addressed to
the packet owner. The result is the returned value, the packet after the call and the state. -/
def SendRequest (T : PacketTransforms) (st : SFCGSFPacketProtocol) (pPacket : SFPacket) :
    Bool × SFPacket × SFCGSFPacketProtocol :=
  let pSFPacket := SFPacket.Encode T st.packetOption pPacket
  (true, pSFPacket,
    { st with transport := st.transport ++ [(pSFPacket.GetOwnerSerial, pSFPacket.frameBytes)] })

/-- The strategy as the adapter `SFPacketProtocol<SFCGSFPacketProtocol>` uses it. -/
def analyzer (T : PacketTransforms) : Analyzer SFCGSFPacketProtocol SFPacketBody :=
  { AddTransferredData := AddTransferredData, GetPacket := GetPacket T }

/-- The adapter built by `SFPacketProtocol<SFCGSFPacketProtocol>(bufferIOSize, packetDataSize)`:
the sizes are clamped and handed to `Initialize`. `env` supplies the process-wide objects. -/
def construct (env : SFCGSFPacketProtocol) (bufferIOSize : Int) (packetDataSize : Nat) :
    SFCGSFPacketProtocol :=
  let sizes := SFPacketProtocol.clampSizes bufferIOSize packetDataSize
  (Initialize env sizes.1 sizes.2).2

end SFCGSFPacketProtocol

/-! ## Sample data -/

/-- A concrete set of transforms for evaluating the model: the checksum is the byte sum, the
compressor reverses the payload, the cipher xors every byte with the low byte of
`ENCRYPTION_KEY`. -/
def sampleTransforms : PacketTransforms :=
  { checksum := fun _ d => d.sum
    compress := List.reverse
    uncompress := fun d => some d.reverse
    encrypt := fun d => d.map (fun b => b ^^^ (ENCRYPTION_KEY % 256))
    decrypt := fun d => some (d.map (fun b => b ^^^ (ENCRYPTION_KEY % 256))) }

/-- The bytes of the text "hello world". -/
def helloWorld : List Nat := [104, 101, 108, 108, 111, 32, 119, 111, 114, 108, 100]

/-- The frame with header (packetId 1000, optionFlags 0, CRC 0, dataLength 11) and payload
"hello world". -/
def helloFrame : List Nat := [232, 3, 0, 0, 0, 0, 0, 0, 0, 0, 11, 0] ++ helloWorld

/-- A pooled instance that has not been used yet. -/
def SFPacket.blank (addr : Nat) : SFPacket :=
  { m_packetType := ePacketType.SFPACKET_NONE, m_ownerSerial := 0,
    body := { addr := addr, header := SFPacketHeader.zero, data := [] } }

/-- The process-wide objects before any adapter is built: a pool of `n` unused instances, option
word 0 (as `ProtocolServer.cpp` sets it), nothing sent. -/
def sampleEnv (n : Nat) : SFCGSFPacketProtocol :=
  { m_pPacketIOBuffer := SFPacketIOBuffer.AllocIOBuf 0
    pool := { free := (List.range n).map SFPacket.blank, checkedOut := [], calls := [] }
    maxPacketSize := 0, packetOption := 0, transport := [] }

/-- The adapter of `ProtocolServer.cpp`,
`SFPacketProtocol<SFCGSFPacketProtocol>(MAX_IO_SIZE, MAX_PACKET_SIZE)`, over a pool of two. -/
def sampleServer : SFCGSFPacketProtocol :=
  SFCGSFPacketProtocol.construct (sampleEnv 2) MAX_IO_SIZE MAX_PACKET_SIZE

/-- An adapter with a 16 byte I/O buffer, `SFPacketProtocol<SFCGSFPacketProtocol>(16, 4)`. -/
def smallServer : SFCGSFPacketProtocol := SFCGSFPacketProtocol.construct (sampleEnv 2) 16 4

/-- The adapter of `ProtocolServer.cpp` over a pool of a single instance. -/
def poolOfOneServer : SFCGSFPacketProtocol :=
  SFCGSFPacketProtocol.construct (sampleEnv 1) MAX_IO_SIZE MAX_PACKET_SIZE

/-- The adapter of `ProtocolServer.cpp` over a pool none of whose instances is free, with a
complete frame buffered. -/
def exhaustedServer : SFCGSFPacketProtocol :=
  { m_pPacketIOBuffer := { m_iBufSize := 16384, buffered := helloFrame }
    pool := { free := [], checkedOut := [0], calls := [PoolCall.alloc 0] }
    maxPacketSize := 8192, packetOption := 0, transport := [] }

/-- The packet the "hello world" frame decodes to, in the first instance of the pool. -/
def helloPacket : SFPacket :=
  (SFPacket.blank 0).setFrame
    { packetID := 1000, packetOption := 0, dataCRC := 0, dataSize := 11 } helloWorld

/-- The state of `sampleServer` once the "hello world" frame has been extracted: the buffer is
empty again and the first instance of the pool is checked out. -/
def sampleServerHelloOut : SFCGSFPacketProtocol :=
  { sampleServer with
    pool := { free := [SFPacket.blank 1], checkedOut := [0], calls := [PoolCall.alloc 0] } }

/-- The state of `sampleServer` after `OnReceive` of the "hello world" frame: the last
`GetPacket` call took the second instance and released it again. -/
def sampleServerAfterHello : SFCGSFPacketProtocol :=
  { sampleServer with
    pool := { free := [SFPacket.blank 1], checkedOut := [0],
              calls := [PoolCall.alloc 0, PoolCall.alloc 1, PoolCall.release 1] } }

/-- The state of `sampleServer` after `OnReceive` of the first 13 bytes of the "hello world"
frame: the bytes are buffered, the one instance taken was released again. -/
def sampleServerIncomplete : SFCGSFPacketProtocol :=
  { sampleServer with
    m_pPacketIOBuffer := { m_iBufSize := 16384, buffered := helloFrame.take 13 }
    pool := { free := [SFPacket.blank 0, SFPacket.blank 1], checkedOut := [],
              calls := [PoolCall.alloc 0, PoolCall.release 0] } }

/-- The state of `poolOfOneServer` once the "hello world" frame has been appended and
extracted: the only instance of the pool is checked out. -/
def poolOfOneHelloOut : SFCGSFPacketProtocol :=
  { poolOfOneServer with
    pool := { free := [], checkedOut := [0], calls := [PoolCall.alloc 0] } }

/-! ## Auxiliary definitions for the statements -/

/-- The packet `p` is what extracting one complete frame from some I/O buffer and decoding it
successfully gives. -/
def Decoded (T : PacketTransforms) (p : SFPacket) : Prop :=
  ∃ (buf buf' : SFPacketIOBuffer) (p0 : SFPacket) (header : SFPacketHeader) (data : List Nat)
    (maxPacketSize : Nat) (e0 e1 e2 : Int),
    buf.GetPacket p0.GetHeader p0.GetData e0 = (true, header, data, e1, buf')
      ∧ SFPacket.Decode T maxPacketSize (p0.setFrame header data) e1 = (true, p, e2)

/-- The payload `Encode` puts on the wire for the payload `d` under the given flags. -/
def wirePayload (T : PacketTransforms) (cmp enc : Bool) (d : List Nat) : List Nat :=
  let d1 := if cmp && decide (PACKET_COMPRESS_LIMIT < d.length) then T.compress d else d
  if enc then T.encrypt d1 else d1

/-- The header `Encode` puts on the wire. -/
def wireHeader (T : PacketTransforms) (crc cmp enc : Bool) (packetID : Nat) (d : List Nat) :
    SFPacketHeader :=
  let wireOption := optionFlags crc (cmp && decide (PACKET_COMPRESS_LIMIT < d.length)) enc
  { packetID := packetID
    packetOption := wireOption
    dataCRC := if crc then T.checksum wireOption (wirePayload T cmp enc d) % 4294967296 else 0
    dataSize := (wirePayload T cmp enc d).length }

/-- The buffer holds no complete frame: whatever the caller passes, `GetPacket` returns `FALSE`,
writes nothing and consumes nothing. -/
def NoCompleteFrame (b : SFPacketIOBuffer) : Prop :=
  ∀ (header : SFPacketHeader) (pData : List Nat) (errorCode : Int),
    b.GetPacket header pData errorCode = (false, header, pData, errorCode, b)

/-- The packet decoding gives in the pooled instance `p0` for the frame of a packet with the
given id and payload. -/
def decodedPacket (T : PacketTransforms) (crc cmp enc : Bool) (p0 : SFPacket) (packetID : Nat)
    (d : List Nat) : SFPacket :=
  p0.Initialize.setFrame { wireHeader T crc cmp enc packetID d with dataSize := d.length } d

/-- Feeding a list of chunks that arrive on one connection to the adapter, one `OnReceive` call
per chunk, in order: the results are the values the calls returned, the final strategy state and
the logic layer. -/
def feedChunks {σ β : Type} (A : Analyzer σ β) (fuel : Nat) (Serial : Int) :
    List (List Nat) → σ → LogicLayer β → Outcome (List Bool × σ × LogicLayer β)
  | [], s, logic => Outcome.returns ([], s, logic)
  | c :: cs, s, logic =>
    match SFPacketProtocol.OnReceive A fuel Serial c s logic with
    | Outcome.returns (ret, s, logic) =>
      match feedChunks A fuel Serial cs s logic with
      | Outcome.returns (rets, s, logic) => Outcome.returns (ret :: rets, s, logic)
      | Outcome.nullDeref => Outcome.nullDeref
      | Outcome.outOfFuel => Outcome.outOfFuel
    | Outcome.nullDeref => Outcome.nullDeref
    | Outcome.outOfFuel => Outcome.outOfFuel

/-- A malformed frame: the "hello world" frame with the checksum flag set and the CRC field left
at 0, which is not the checksum `sampleTransforms` computes for the payload. -/
def badCrcFrame : List Nat := [232, 3, 1, 0, 0, 0, 0, 0, 0, 0, 11, 0] ++ helloWorld

/-! ## SFCasualGameDispatcher.cpp: the dispatch queue and the logic thread -/

/-- Modelled from the spec: the dispatch queue behind `LogicGatewaySingleton` (not among the
sources): a FIFO of packets, the oldest first. -/
structure LogicGateway (β : Type) where
  packets : List (BasePacket β)
  deriving DecidableEq, Repr

namespace LogicGateway

variable {β : Type}

/-- Modelled from the spec: `PushPacket` puts the packet behind the ones queued. -/
def PushPacket (q : LogicGateway β) (pPacket : BasePacket β) : LogicGateway β :=
  { packets := q.packets ++ [pPacket] }

/-- Modelled from the spec: `PopPacket` takes the oldest packet off the queue; on an empty queue
the caller waits (`none`). -/
def PopPacket (q : LogicGateway β) : Option (BasePacket β × LogicGateway β) :=
  match q.packets with
  | [] => none
  | pPacket :: rest => some (pPacket, { packets := rest })

end LogicGateway

/-- What the logic thread does that others can observe, one event per call: `PopPacket` gave the
packet, the packet was passed to `ProcessPacket`, to the engine's `ReleasePacket`, to `delete`,
to `SFDatabase::RecallDBMsg`, or `SFASSERT(0)` was reached. -/
inductive LogicEvent (β : Type) where
  | PopPacket (pPacket : BasePacket β)
  | ProcessPacket (pPacket : BasePacket β)
  | ReleasePacket (pPacket : BasePacket β)
  | deletePacket (pPacket : BasePacket β)
  | RecallDBMsg (pPacket : BasePacket β)
  | SFASSERT
  deriving DecidableEq, Repr

/-- What the logic thread gets from outside (none of it is among the sources).
`ServerTerminated k` is what `SFEngine::GetInstance()->ServerTerminated()` returns at the loop
test number `k` of the thread (a `true` stands for any value other than `FALSE`).
`ProcessPacket` is the application's handler, `LogicEntrySingleton::instance()->ProcessPacket`,
working on its own state `α`; the model takes it to leave the packet as it is. `assertAborts`
says what a failed `SFASSERT` does (`Macro.h`): end the process, as an `assert` in a debug
build, or nothing, as an `assert` that is compiled out. -/
structure LogicEnv (α β : Type) where
  ServerTerminated : Nat → Bool
  ProcessPacket : α → BasePacket β → Bool × α
  assertAborts : Bool

/-- The state the logic thread works on: the dispatch queue, the state of the application's
handler and the events so far, the oldest first. -/
structure LogicState (α β : Type) where
  gateway : LogicGateway β
  logic : α
  events : List (LogicEvent β)
  deriving DecidableEq, Repr

/-- How a run of the logic thread ends: it returned on the shutdown packet; it left the loop at
the loop test; the process was ended by a failed assertion; it is waiting in `PopPacket` on the
empty queue (it has not ended); or the iteration bound of the model was reached. -/
inductive ThreadStop where
  | shutdown
  | serverTerminated
  | aborted
  | waiting
  | outOfFuel
  deriving DecidableEq, Repr

namespace SFCasualGameDispatcher

variable {α β : Type}

/-- The method `Dispatch(BasePacket* pPacket)`: the packet is pushed onto the dispatch queue. -/
def Dispatch (s : LogicState α β) (pPacket : BasePacket β) : LogicState α β :=
  { s with gateway := s.gateway.PushPacket pPacket }

/-- The function `BusinessThread(void* Args)`, run against the dispatch queue as it stands. One
unit of fuel is one loop test; `k` numbers the loop tests. Each iteration pops a packet, passes it
to `ProcessPacket` and disposes of it by its type; the `default` branch is taken by
`SFPACKET_NONE`, the one value that is none of the seven categories. -/
def BusinessThread (env : LogicEnv α β) :
    Nat → Nat → LogicState α β → ThreadStop × LogicState α β
  | 0, _, s => (ThreadStop.outOfFuel, s)
  | fuel + 1, k, s =>
    if env.ServerTerminated k = false then
      match s.gateway.PopPacket with
      | none => (ThreadStop.waiting, s)
      | some (pPacket, gateway) =>
        let s : LogicState α β :=
          { gateway := gateway
            logic := (env.ProcessPacket s.logic pPacket).2
            events := s.events
              ++ [LogicEvent.PopPacket pPacket, LogicEvent.ProcessPacket pPacket] }
        match pPacket.GetPacketType with
        | ePacketType.SFPACKET_DATA =>
          BusinessThread env fuel (k + 1)
            { s with events := s.events ++ [LogicEvent.ReleasePacket pPacket] }
        | ePacketType.SFPACKET_CONNECT
        | ePacketType.SFPACKET_DISCONNECT
        | ePacketType.SFPACKET_TIMER
        | ePacketType.SFPACKET_SHOUTER =>
          BusinessThread env fuel (k + 1)
            { s with events := s.events ++ [LogicEvent.deletePacket pPacket] }
        | ePacketType.SFPACKET_DB =>
          BusinessThread env fuel (k + 1)
            { s with events := s.events ++ [LogicEvent.RecallDBMsg pPacket] }
        | ePacketType.SFPACKET_SERVERSHUTDOWN => (ThreadStop.shutdown, s)
        | ePacketType.SFPACKET_NONE =>
          let s : LogicState α β := { s with events := s.events ++ [LogicEvent.SFASSERT] }
          if env.assertAborts then (ThreadStop.aborted, s)
          else BusinessThread env fuel (k + 1) s
    else (ThreadStop.serverTerminated, s)

end SFCasualGameDispatcher

/-- The disposal the specification (section 4.5) gives for a packet, by category, as events:
`Data` goes back to the pool, `Connect`, `Disconnect`, `Timer` and `Shouter` are freed,
`DBResult` goes to the database callback, `ServerShutdown` is not disposed of, and an
unrecognised category meets the assertion. -/
def specDisposal {β : Type} (pPacket : BasePacket β) : List (LogicEvent β) :=
  match pPacket.GetPacketType with
  | ePacketType.SFPACKET_DATA => [LogicEvent.ReleasePacket pPacket]
  | ePacketType.SFPACKET_CONNECT => [LogicEvent.deletePacket pPacket]
  | ePacketType.SFPACKET_DISCONNECT => [LogicEvent.deletePacket pPacket]
  | ePacketType.SFPACKET_TIMER => [LogicEvent.deletePacket pPacket]
  | ePacketType.SFPACKET_SHOUTER => [LogicEvent.deletePacket pPacket]
  | ePacketType.SFPACKET_DB => [LogicEvent.RecallDBMsg pPacket]
  | ePacketType.SFPACKET_SERVERSHUTDOWN => []
  | ePacketType.SFPACKET_NONE => [LogicEvent.SFASSERT]

/-- The events of one whole loop iteration on a packet: popped, processed, disposed of. -/
def iterationEvents {β : Type} (pPacket : BasePacket β) : List (LogicEvent β) :=
  [LogicEvent.PopPacket pPacket, LogicEvent.ProcessPacket pPacket] ++ specDisposal pPacket

/-- The packets passed to `ProcessPacket`, in call order, read off the events. -/
def processCalls {β : Type} : List (LogicEvent β) → List (BasePacket β)
  | [] => []
  | LogicEvent.ProcessPacket p :: es => p :: processCalls es
  | _ :: es => processCalls es

/-- The packets popped off the dispatch queue, in order, read off the events. -/
def popCalls {β : Type} : List (LogicEvent β) → List (BasePacket β)
  | [] => []
  | LogicEvent.PopPacket p :: es => p :: popCalls es
  | _ :: es => popCalls es

/-- The packets disposed of (released to the pool, deleted or handed to the database callback),
in order, read off the events. -/
def disposedPackets {β : Type} : List (LogicEvent β) → List (BasePacket β)
  | [] => []
  | LogicEvent.ReleasePacket p :: es => p :: disposedPackets es
  | LogicEvent.deletePacket p :: es => p :: disposedPackets es
  | LogicEvent.RecallDBMsg p :: es => p :: disposedPackets es
  | _ :: es => disposedPackets es

/-- A regular packet: its category is recognised and is not `ServerShutdown`. -/
def isRegular {β : Type} (pPacket : BasePacket β) : Bool :=
  pPacket.GetPacketType != ePacketType.SFPACKET_SERVERSHUTDOWN
    && pPacket.GetPacketType != ePacketType.SFPACKET_NONE

/-- The initial part of a packet sequence up to and including its first `ServerShutdown`
packet; the whole sequence when it has none. -/
def uptoFirstShutdown {β : Type} : List (BasePacket β) → List (BasePacket β)
  | [] => []
  | p :: ps =>
    if p.GetPacketType = ePacketType.SFPACKET_SERVERSHUTDOWN then [p] else p :: uptoFirstShutdown ps

/-- The application's state after its handler has been called on the packets, in order. -/
def processAll {α β : Type} (env : LogicEnv α β) (logic : α) (ps : List (BasePacket β)) : α :=
  ps.foldl (fun a p => (env.ProcessPacket a p).2) logic

/-- A packet of the given category in the pooled instance `addr`, with nothing in it. -/
def samplePacket (t : ePacketType) (addr : Nat) : SFPacket :=
  (SFPacket.blank addr).SetPacketType t

/-- An environment of the logic thread in which `ServerTerminated()` always returns `FALSE`; the
handler counts the packets it is given. -/
def sampleLogicEnv (assertAborts : Bool) : LogicEnv Nat SFPacketBody :=
  { ServerTerminated := fun _ => false
    ProcessPacket := fun n _ => (true, n + 1)
    assertAborts := assertAborts }

/-- An environment of the logic thread in which `ServerTerminated()` returns `FALSE` at the first
loop test and `TRUE` from the second on. -/
def stoppingLogicEnv : LogicEnv Nat SFPacketBody :=
  { ServerTerminated := fun k => decide (1 ≤ k)
    ProcessPacket := fun n _ => (true, n + 1)
    assertAborts := false }

/-- The logic thread's state before it has done anything, with the given packets queued. -/
def sampleLogic (ps : List SFPacket) : LogicState Nat SFPacketBody :=
  { gateway := { packets := ps }, logic := 0, events := [] }

/-! ## Error codes and option flags as collections -/

/-- The kinds of frame-level failure the specification names (section 7): bad header, payload
length violation, checksum mismatch, decompression failure, decryption failure. -/
inductive FrameFailure where
  | header
  | data
  | dataCrc
  | dataCompress
  | dataEncryption
  deriving DecidableEq, Repr

/-- The error code of `SFConstant.h` for each kind of frame-level failure. -/
def FrameFailure.errorCode : FrameFailure → Int
  | FrameFailure.header => PACKETIO_ERROR_HEADER
  | FrameFailure.data => PACKETIO_ERROR_DATA
  | FrameFailure.dataCrc => PACKETIO_ERROR_DATA_CRC
  | FrameFailure.dataCompress => PACKETIO_ERROR_DATA_COMPRESS
  | FrameFailure.dataEncryption => PACKETIO_ERROR_DATA_ENCRYPTION

/-- The five option flags of `SFConstant.h`, in the order they are defined. -/
def packetOptionFlags : List Nat :=
  [PACKET_OPTION_DATACRC, PACKET_OPTION_COMPRESS, PACKET_OPTION_ENCRYPTION,
   PACKET_OPTION_CRC_DEFAULT, PACKET_OPTION_CRC_MD5]

/-- The bitwise OR of a collection of flags. -/
def orFlags (S : List Nat) : Nat := S.foldr (fun f acc => f ||| acc) 0

/-! ## SFPacketProtocol.h: construction, Clone and the delegating methods -/

/-- The strategy `T` of `SFPacketProtocol<T>` with the further methods the adapter calls:
`Initialize(ioBufferSize, packetSize)`, `SendRequest(pPacket)` (the result is the returned value,
the packet after the call and the state) and `DisposePacket(pPacket)`. -/
structure Strategy (σ β : Type) extends Analyzer σ β where
  Initialize : σ → Int → Nat → Bool × σ
  SendRequest : σ → BasePacket β → Bool × BasePacket β × σ
  DisposePacket : σ → BasePacket β → Bool × σ

/-- An object of class `SFPacketProtocol<T>`: the members `m_ioSize` and `m_packetSize` it
inherits from `SFBaseProtocol` and the strategy object `m_Analyzer` (with the process-wide
objects the strategy reaches). -/
structure Adapter (σ : Type) where
  m_ioSize : Int
  m_packetSize : Nat
  m_Analyzer : σ
  deriving DecidableEq, Repr

namespace SFPacketProtocol

variable {σ β : Type}

/-- The two-argument constructor `SFPacketProtocol(int bufferIOSize, USHORT packetDataSize)`:
the sizes are clamped, stored and handed to the strategy's `Initialize`. `env` is the strategy
object as newly constructed. -/
def construct2 (S : Strategy σ β) (env : σ) (bufferIOSize : Int) (packetDataSize : Nat) :
    Adapter σ :=
  let sizes := clampSizes bufferIOSize packetDataSize
  { m_ioSize := sizes.1, m_packetSize := sizes.2,
    m_Analyzer := (S.Initialize env sizes.1 sizes.2).2 }

/-- The default constructor `SFPacketProtocol()`: `m_Analyzer.Initialize(m_ioSize,
m_packetSize)` with what the two members hold in the new object. `SFBaseProtocol`, which declares
the two members and decides what they hold in a new object, is not among the sources: `base` is
the pair of values they hold when the constructor body starts, be it what the constructor of
`SFBaseProtocol` gives them or, if they are shared by all adapters, what was last stored in
them. -/
def construct0 (S : Strategy σ β) (env : σ) (base : Int × Nat) : Adapter σ :=
  { m_ioSize := base.1, m_packetSize := base.2,
    m_Analyzer := (S.Initialize env base.1 base.2).2 }

/-- The method `Clone()`: `return new SFPacketProtocol<T>()`. The object it is called on is not
read. -/
def Clone (S : Strategy σ β) (_this : Adapter σ) (env : σ) (base : Int × Nat) : Adapter σ :=
  construct0 S env base

/-- The method `DisposePacket(BasePacket* pPacket)`: `return m_Analyzer.DisposePacket(pPacket)`. -/
def DisposePacket (S : Strategy σ β) (this : Adapter σ) (pPacket : BasePacket β) :
    Bool × Adapter σ :=
  let r := S.DisposePacket this.m_Analyzer pPacket
  (r.1, { this with m_Analyzer := r.2 })

/-- The method `SendRequest(BasePacket* pPacket)`: `return m_Analyzer.SendRequest(pPacket)`. -/
def SendRequest (S : Strategy σ β) (this : Adapter σ) (pPacket : BasePacket β) :
    Bool × BasePacket β × Adapter σ :=
  let r := S.SendRequest this.m_Analyzer pPacket
  (r.1, r.2.1, { this with m_Analyzer := r.2.2 })

end SFPacketProtocol

/-! ## SFCGSFPacketProtocol.cpp: DisposePacket and GetPacketData -/

/-- The methods of `SFPacket` that `GetPacketData` calls, none of them among the sources, as
parameters: `GetPacketSize()` and `Encode()` (which works with the configured option word). -/
structure SFPacketOps where
  GetPacketSize : SFPacket → Nat
  Encode : SFPacket → SFPacket

/-- Modelled from the spec: the `n` bytes of memory that start at the packet header: the header,
then the payload, then bytes that are zero. -/
def SFPacket.memoryAt (p : SFPacket) (n : Nat) : List Nat :=
  (List.range n).map fun i => (p.body.header.toBytes ++ p.body.data).getD i 0

/-- The call `memcpy(buffer, source, n)` on a caller's buffer given as the list of its bytes:
the bytes that fall inside the buffer replace what was there; those past its end are written
outside it and are not part of the result. -/
def memcpy (buffer source : List Nat) : List Nat :=
  source.take buffer.length ++ buffer.drop source.length

/-- What a call of `GetPacketData` leaves: the returned value, the packet, the caller's buffer,
`writtenSize`, and the number of bytes `memcpy` wrote from the start of the buffer (0 when the
call did not reach it). -/
structure GetPacketDataResult where
  ret : Bool
  pPacket : SFPacket
  buffer : List Nat
  writtenSize : Nat
  copied : Nat
  deriving DecidableEq, Repr

namespace SFCGSFPacketProtocol

/-- The method `DisposePacket(BasePacket* pPacket)`: the packet, which is not null, is passed to
the pool's `Release`, whose result is returned. -/
def DisposePacket (st : SFCGSFPacketProtocol) (pPacket : SFPacket) :
    Bool × SFCGSFPacketProtocol :=
  let r := st.pool.Release pPacket
  (r.1, { st with pool := r.2 })

/-- The method `GetPacketData(BasePacket* pPacket, char* buffer, const int bufferSize,
unsigned int& writtenSize)`; `buffer` is the list of the bytes of the caller's buffer. The packet
size is compared with `bufferSize` as an `int`. `SFASSERT(0)` is a diagnostic, as in
`OnReceive`; the `return false` after it is what the model keeps. -/
def GetPacketData (ops : SFPacketOps) (pPacket : SFPacket) (buffer : List Nat)
    (bufferSize : Int) : GetPacketDataResult :=
  if ops.GetPacketSize pPacket = 0 then
    { ret := true, pPacket := pPacket, buffer := buffer, writtenSize := 0, copied := 0 }
  else if (ops.GetPacketSize pPacket : Int) > bufferSize then
    { ret := false, pPacket := pPacket, buffer := buffer, writtenSize := 0, copied := 0 }
  else
    let pSFPacket := ops.Encode pPacket
    { ret := true, pPacket := pSFPacket,
      buffer := memcpy buffer (pSFPacket.memoryAt (ops.GetPacketSize pSFPacket)),
      writtenSize := ops.GetPacketSize pSFPacket,
      copied := ops.GetPacketSize pSFPacket }

/-- The methods of `SFPacket` as modelled from the specification, for the given transforms and
configured option word. -/
def specOps (T : PacketTransforms) (packetOption : Nat) : SFPacketOps :=
  { GetPacketSize := SFPacket.GetPacketSize, Encode := SFPacket.Encode T packetOption }

/-- The binary strategy with all the methods the adapter calls. -/
def strategy (T : PacketTransforms) : Strategy SFCGSFPacketProtocol SFPacketBody :=
  { toAnalyzer := analyzer T
    Initialize := Initialize
    SendRequest := SendRequest T
    DisposePacket := DisposePacket }

end SFCGSFPacketProtocol

/-! ## SFSendDBRequest.cpp -/

namespace SFSendDBRequest

/-- The function `SendToLogic(BasePacket* pMessage)`: the packet type is set to `SFPACKET_DB` and
the packet is pushed onto the dispatch queue of `LogicGatewaySingleton`. -/
def SendToLogic {α β : Type} (s : LogicState α β) (pMessage : BasePacket β) : LogicState α β :=
  { s with gateway := s.gateway.PushPacket (pMessage.SetPacketType ePacketType.SFPACKET_DB) }

end SFSendDBRequest

/-! ## MGServerReceiver.cpp and MGClientReceiver.cpp: the session map -/

/-- The socket descriptor `ASSOCKDESCEX` of the MGNet library (not among the sources), as far as
the receivers use it: the socket's unique id and its sender. -/
structure ASSOCKDESCEX where
  assockUid : Int
  psender : Nat
  deriving DecidableEq, Repr

/-- The session map `SessionMap`, a `std::map<int, ASSOCKDESCEX>`, as the list of its entries;
a key has at most one entry. -/
abbrev SessionMap := List (Int × ASSOCKDESCEX)

namespace SessionMap

/-- The call `m_SessionMap.find(key)`: the entry of the key, `none` for `end()`. -/
def find (m : SessionMap) (key : Int) : Option ASSOCKDESCEX :=
  match m with
  | [] => none
  | (k, d) :: rest => if k = key then some d else find rest key

/-- The call `m_SessionMap.erase(key)`: the entry of the key is removed, the others stay. -/
def erase (m : SessionMap) (key : Int) : SessionMap :=
  m.filter fun e => decide (e.1 ≠ key)

/-- The call `m_SessionMap.insert(std::make_pair(key, desc))`: a key that has an entry keeps
it. -/
def insert (m : SessionMap) (key : Int) (desc : ASSOCKDESCEX) : SessionMap :=
  match find m key with
  | some _ => m
  | none => m ++ [(key, desc)]

end SessionMap

/-- The state of a receiver (`MGServerReceiver` or `MGClientReceiver`): the session map, and
what it has asked of the senders, the oldest first: `releaseSocketUniqueId(uid)` as the pair of
sender and id, `postingSend(desc, size, buffer)` as the triple. -/
structure MGReceiver where
  m_SessionMap : SessionMap
  released : List (Nat × Int)
  posted : List (ASSOCKDESCEX × Int × List Nat)
  deriving DecidableEq, Repr

namespace MGServerReceiver

/-- The method `notifyMessage(sockdesc, length, data)`. `onReceive` is what
`ISession::OnReceive(data, length)` returned (`ISession` is not among the sources). -/
def notifyMessage (onReceive : Bool) (r : MGReceiver) (sockdesc : ASSOCKDESCEX) : MGReceiver :=
  if onReceive = false then
    { r with m_SessionMap := r.m_SessionMap.erase sockdesc.assockUid
             released := r.released ++ [(sockdesc.psender, sockdesc.assockUid)] }
  else r

/-- The method `SendInternal(char* pBuffer, int BufferSize, int ownerSerial)`. -/
def SendInternal (r : MGReceiver) (pBuffer : List Nat) (BufferSize : Int) (ownerSerial : Int) :
    MGReceiver :=
  match r.m_SessionMap.find ownerSerial with
  | none => r
  | some desc => { r with posted := r.posted ++ [(desc, BufferSize, pBuffer)] }

/-- The method `Disconnect(int Serial)`. -/
def Disconnect (r : MGReceiver) (Serial : Int) : Bool × MGReceiver :=
  match r.m_SessionMap.find Serial with
  | none => (false, r)
  | some desc =>
    (true, { r with released := r.released ++ [(desc.psender, Serial)]
                    m_SessionMap := r.m_SessionMap.erase Serial })

end MGServerReceiver

namespace MGClientReceiver

/-- The method `notifyMessage(sockdesc, length, data)`. `onReceive` is what
`ISession::OnReceive(data, length)` returned. -/
def notifyMessage (onReceive : Bool) (r : MGReceiver) (sockdesc : ASSOCKDESCEX) : MGReceiver :=
  if onReceive = false then
    { r with m_SessionMap := r.m_SessionMap.erase sockdesc.assockUid
             released := r.released ++ [(sockdesc.psender, sockdesc.assockUid)] }
  else r

/-- The method `SendInternal(char* pBuffer, int BufferSize, int ownerSerial)`. -/
def SendInternal (r : MGReceiver) (pBuffer : List Nat) (BufferSize : Int) (ownerSerial : Int) :
    MGReceiver :=
  match r.m_SessionMap.find ownerSerial with
  | none => r
  | some desc => { r with posted := r.posted ++ [(desc, BufferSize, pBuffer)] }

/-- The method `Disconnect(int Serial)`. -/
def Disconnect (r : MGReceiver) (Serial : Int) : Bool × MGReceiver :=
  match r.m_SessionMap.find Serial with
  | none => (false, r)
  | some desc =>
    (true, { r with released := r.released ++ [(desc.psender, Serial)]
                    m_SessionMap := r.m_SessionMap.erase Serial })

end MGClientReceiver

/-! ## Sample data for the adapter methods and the receivers -/

/-- Methods of a packet whose `GetPacketSize()` counts the payload bytes alone, so that it is 0
for a packet without payload, and whose `Encode()` leaves the packet as it is. -/
def payloadOps : SFPacketOps :=
  { GetPacketSize := fun p => p.body.header.dataSize, Encode := fun p => p }

/-- The adapter `SFPacketProtocol<SFCGSFPacketProtocol>(100, 50)`. -/
def smallAdapter : Adapter SFCGSFPacketProtocol :=
  SFPacketProtocol.construct2 (SFCGSFPacketProtocol.strategy sampleTransforms) (sampleEnv 2) 100 50

/-- The adapter `SFPacketProtocol<SFCGSFPacketProtocol>(200, 60)`. -/
def largeAdapter : Adapter SFCGSFPacketProtocol :=
  SFPacketProtocol.construct2 (SFCGSFPacketProtocol.strategy sampleTransforms) (sampleEnv 2) 200 60

/-- The adapter of `ProtocolServer.cpp` as an object of the adapter class. -/
def sampleAdapter : Adapter SFCGSFPacketProtocol :=
  SFPacketProtocol.construct2 (SFCGSFPacketProtocol.strategy sampleTransforms) (sampleEnv 2)
    MAX_IO_SIZE MAX_PACKET_SIZE

/-- A receiver with the three sessions 1, 2 and 3 that has asked nothing of the senders yet. -/
def sampleSessions : MGReceiver :=
  { m_SessionMap :=
      [(1, { assockUid := 1, psender := 10 }), (2, { assockUid := 2, psender := 10 }),
       (3, { assockUid := 3, psender := 11 })]
    released := [], posted := [] }

/-- The state of `sampleServer` once the "hello world" frame has been extracted while the frame
with the wrong checksum is still buffered behind it. -/
def sampleServerBadCrcLeft : SFCGSFPacketProtocol :=
  { sampleServerHelloOut with
    m_pPacketIOBuffer := { m_iBufSize := 16384, buffered := badCrcFrame } }

/-- The state of `sampleServer` after `OnReceive` of the "hello world" frame followed by the
frame with the wrong checksum: the second instance of the pool was taken for the second frame and
released again, with the frame in it. -/
def sampleServerAfterBadCrc : SFCGSFPacketProtocol :=
  { sampleServer with
    pool :=
      { free := [(SFPacket.blank 1).setFrame
          { packetID := 1000, packetOption := 1, dataCRC := 0, dataSize := 11 } helloWorld]
        checkedOut := [0]
        calls := [PoolCall.alloc 0, PoolCall.alloc 1, PoolCall.release 1] } }

/-! ## The receive loop of the adapter -/

namespace SFPacketProtocol

variable {σ β : Type}

theorem tag_type (Serial : Int) (p : BasePacket β) :
    (tag Serial p).GetPacketType = ePacketType.SFPACKET_DATA := rfl

theorem tag_owner (Serial : Int) (p : BasePacket β) : (tag Serial p).GetOwnerSerial = Serial := rfl

theorem tag_body (Serial : Int) (p : BasePacket β) : (tag Serial p).body = p.body := rfl

/-- The sequence of `GetPacket` calls from a given state is determined by that state. -/
theorem GetPacketRun.unique {A : Analyzer σ β} {s : σ} {e : Int} {ps qs : List (BasePacket β)}
    {s1 s2 : σ} {e1 e2 : Int} (h1 : GetPacketRun A s e ps s1 e1)
    (h2 : GetPacketRun A s e qs s2 e2) : ps = qs ∧ s1 = s2 ∧ e1 = e2 := by
  induction h1 generalizing qs s2 e2 with
  | null h =>
    cases h2 with
    | null h' =>
      rw [h] at h'
      simp only [Outcome.returns.injEq, Prod.mk.injEq, true_and] at h'
      exact ⟨rfl, h'.2, h'.1⟩
    | packet h' _ =>
      rw [h] at h'
      simp at h'
  | packet h _ ih =>
    cases h2 with
    | null h' =>
      rw [h] at h'
      simp at h'
    | packet h' hrest =>
      rw [h] at h'
      simp only [Outcome.returns.injEq, Prod.mk.injEq, Option.some.injEq] at h'
      obtain ⟨hp, he, hs⟩ := h'
      subst hp he hs
      obtain ⟨hps, hs', he'⟩ := ih hrest
      exact ⟨by rw [hps], hs', he'⟩

/-- With more fuel than packets to extract, the loop runs the whole sequence of `GetPacket` calls
and hands every packet on, tagged. -/
theorem receiveLoop_of_run {A : Analyzer σ β} (Serial : Int) {s : σ} {e : Int}
    {ps : List (BasePacket β)} {s' : σ} {e' : Int} (h : GetPacketRun A s e ps s' e') :
    ∀ (fuel : Nat) (logic : LogicLayer β), ps.length < fuel →
      receiveLoop A Serial fuel s e logic
        = Outcome.returns (s', e', logic ++ ps.map (tag Serial)) := by
  induction h with
  | null h =>
    intro fuel logic hf
    cases fuel with
    | zero => simp at hf
    | succ n => simp [receiveLoop, h]
  | packet h _ ih =>
    intro fuel logic hf
    cases fuel with
    | zero => simp at hf
    | succ n =>
      have hn : _ < n := Nat.lt_of_succ_lt_succ hf
      simp [receiveLoop, h, ih n _ hn, SendLogicLayer]

/-- A loop that is left has run a sequence of `GetPacket` calls ending in `NULL`. -/
theorem run_of_receiveLoop {A : Analyzer σ β} (Serial : Int) :
    ∀ (fuel : Nat) (s : σ) (e : Int) (logic : LogicLayer β) (s' : σ) (e' : Int)
      (logic' : LogicLayer β),
      receiveLoop A Serial fuel s e logic = Outcome.returns (s', e', logic') →
      ∃ ps, GetPacketRun A s e ps s' e' ∧ logic' = logic ++ ps.map (tag Serial)
        ∧ ps.length < fuel := by
  intro fuel
  induction fuel with
  | zero =>
    intro s e logic s' e' logic' h
    simp [receiveLoop] at h
  | succ n ih =>
    intro s e logic s' e' logic' h
    unfold receiveLoop at h
    cases hg : A.GetPacket s e with
    | nullDeref => rw [hg] at h; simp at h
    | outOfFuel => rw [hg] at h; simp at h
    | returns r =>
      obtain ⟨op, e1, s1⟩ := r
      rw [hg] at h
      cases op with
      | none =>
        simp only [Outcome.returns.injEq, Prod.mk.injEq] at h
        obtain ⟨hs, he, hl⟩ := h
        subst hs he hl
        exact ⟨[], GetPacketRun.null hg, by simp, by simp⟩
      | some p =>
        simp only at h
        obtain ⟨ps, hrun, hl, hlen⟩ := ih _ _ _ _ _ _ h
        refine ⟨p :: ps, GetPacketRun.packet hg hrun, ?_, by simpa using hlen⟩
        simp [hl, SendLogicLayer]

/-- What a returning `OnReceive` has done: either `AddTransferredData` failed and nothing else
happened, or it succeeded and the loop ran a sequence of `GetPacket` calls to its `NULL`. -/
theorem OnReceive_inv {A : Analyzer σ β} {fuel : Nat} {Serial : Int} {pBuffer : List Nat}
    {s : σ} {logic : LogicLayer β} {ret : Bool} {s' : σ} {logic' : LogicLayer β}
    (h : OnReceive A fuel Serial pBuffer s logic = Outcome.returns (ret, s', logic')) :
    (A.AddTransferredData s pBuffer = (false, s') ∧ ret = false ∧ logic' = logic)
    ∨ ∃ s1 ps e', A.AddTransferredData s pBuffer = (true, s1)
        ∧ GetPacketRun A s1 PACKETIO_ERROR_NONE ps s' e'
        ∧ logic' = logic ++ ps.map (tag Serial)
        ∧ ret = decide (e' = PACKETIO_ERROR_NONE) ∧ ps.length < fuel := by
  cases hadd : A.AddTransferredData s pBuffer with
  | mk b s1 =>
    cases b with
    | false =>
      simp only [OnReceive, hadd, Outcome.returns.injEq, Prod.mk.injEq] at h
      obtain ⟨hr, hs, hl⟩ := h
      subst hr hs hl
      exact Or.inl ⟨rfl, rfl, rfl⟩
    | true =>
      simp only [OnReceive, hadd] at h
      cases hl : receiveLoop A Serial fuel s1 PACKETIO_ERROR_NONE logic with
      | nullDeref => rw [hl] at h; simp at h
      | outOfFuel => rw [hl] at h; simp at h
      | returns r =>
        obtain ⟨s2, e2, l2⟩ := r
        rw [hl] at h
        obtain ⟨ps, hrun, hlog, hlen⟩ := run_of_receiveLoop Serial _ _ _ _ _ _ _ hl
        refine Or.inr ⟨s1, ps, e2, rfl, ?_, ?_, ?_, hlen⟩
        · by_cases he : e2 = PACKETIO_ERROR_NONE
          · simp only [he, ne_eq, not_true_eq_false, ↓reduceIte, Outcome.returns.injEq,
              Prod.mk.injEq] at h
            rw [← h.2.1]; exact hrun
          · simp only [ne_eq, he, not_false_eq_true, ↓reduceIte, Outcome.returns.injEq,
              Prod.mk.injEq] at h
            rw [← h.2.1]; exact hrun
        · by_cases he : e2 = PACKETIO_ERROR_NONE
          · simp only [he, ne_eq, not_true_eq_false, ↓reduceIte, Outcome.returns.injEq,
              Prod.mk.injEq] at h
            rw [← h.2.2]; exact hlog
          · simp only [ne_eq, he, not_false_eq_true, ↓reduceIte, Outcome.returns.injEq,
              Prod.mk.injEq] at h
            rw [← h.2.2]; exact hlog
        · by_cases he : e2 = PACKETIO_ERROR_NONE
          · simp only [he, ne_eq, not_true_eq_false, ↓reduceIte, Outcome.returns.injEq,
              Prod.mk.injEq] at h
            simp [← h.1, he]
          · simp only [ne_eq, he, not_false_eq_true, ↓reduceIte, Outcome.returns.injEq,
              Prod.mk.injEq] at h
            simp [← h.1, he]

/-- With one unit of fuel per `GetPacket` call, `OnReceive` returns. -/
theorem OnReceive_of_run {A : Analyzer σ β} (Serial : Int) {pBuffer : List Nat} {s s1 : σ}
    (logic : LogicLayer β) {ps : List (BasePacket β)} {s' : σ} {e' : Int}
    (hadd : A.AddTransferredData s pBuffer = (true, s1))
    (hrun : GetPacketRun A s1 PACKETIO_ERROR_NONE ps s' e') {fuel : Nat}
    (hf : ps.length < fuel) :
    OnReceive A fuel Serial pBuffer s logic
      = Outcome.returns (decide (e' = PACKETIO_ERROR_NONE), s', logic ++ ps.map (tag Serial)) := by
  simp only [OnReceive, hadd, receiveLoop_of_run Serial hrun fuel logic hf]
  by_cases he : e' = PACKETIO_ERROR_NONE <;> simp [he]

/-- C1. For every strategy, connection id and byte chunk: when `AddTransferredData` fails,
`OnReceive` forwards nothing; otherwise, whenever `OnReceive` returns, the packets it has handed
to `SendLogicLayer` are exactly the non-null results of the successive `GetPacket` calls made
before the first `NULL`, in that order, and with one unit of fuel per call it does return; every
forwarded packet has type `SFPACKET_DATA` and the connection id as owner, and is otherwise the
packet `GetPacket` returned. -/
theorem OnReceive_forwards_extracted (A : Analyzer σ β) (Serial : Int) (pBuffer : List Nat)
    (s : σ) (logic : LogicLayer β) :
    (∀ s1, A.AddTransferredData s pBuffer = (false, s1) →
      ∀ fuel, OnReceive A fuel Serial pBuffer s logic = Outcome.returns (false, s1, logic))
    ∧ (∀ s1, A.AddTransferredData s pBuffer = (true, s1) →
        (∀ fuel ret s' logic',
          OnReceive A fuel Serial pBuffer s logic = Outcome.returns (ret, s', logic') →
          ∃ ps e', GetPacketRun A s1 PACKETIO_ERROR_NONE ps s' e'
            ∧ logic' = logic ++ ps.map (tag Serial))
        ∧ (∀ ps s' e', GetPacketRun A s1 PACKETIO_ERROR_NONE ps s' e' →
            ∀ fuel, ps.length < fuel →
            ∃ ret, OnReceive A fuel Serial pBuffer s logic
              = Outcome.returns (ret, s', logic ++ ps.map (tag Serial))))
    ∧ (∀ p : BasePacket β, (tag Serial p).GetPacketType = ePacketType.SFPACKET_DATA
        ∧ (tag Serial p).GetOwnerSerial = Serial ∧ (tag Serial p).body = p.body) := by
  refine ⟨?_, ?_, fun p => ⟨rfl, rfl, rfl⟩⟩
  · intro s1 hadd fuel
    simp [OnReceive, hadd]
  · intro s1 hadd
    constructor
    · intro fuel ret s' logic' h
      rcases OnReceive_inv h with ⟨hf, _, _⟩ | ⟨s2, ps, e', hadd2, hrun, hlog, _, _⟩
      · rw [hadd] at hf; simp at hf
      · rw [hadd] at hadd2
        simp only [Prod.mk.injEq, true_and] at hadd2
        subst hadd2
        exact ⟨ps, e', hrun, hlog⟩
    · intro ps s' e' hrun fuel hf
      exact ⟨_, OnReceive_of_run Serial logic hadd hrun hf⟩

/-- C2. For every strategy, connection id and byte chunk: `OnReceive` returns `false` when
`AddTransferredData` fails; when it succeeds and the `GetPacket` call that ends the loop leaves
the error code `e`, `OnReceive` returns `true` if `e` is `PACKETIO_ERROR_NONE` (also when no
packet was extracted) and `false` otherwise; so a returning `OnReceive` returns `false` exactly
when `AddTransferredData` failed or the last `GetPacket` left an error code other than
`PACKETIO_ERROR_NONE`. -/
theorem OnReceive_returns_false_iff_error (A : Analyzer σ β) (Serial : Int)
    (pBuffer : List Nat) (s : σ) (logic : LogicLayer β) :
    (∀ s1, A.AddTransferredData s pBuffer = (false, s1) →
      ∀ fuel, ∃ r, OnReceive A fuel Serial pBuffer s logic = Outcome.returns (false, r))
    ∧ (∀ s1 ps s' e', A.AddTransferredData s pBuffer = (true, s1) →
        GetPacketRun A s1 PACKETIO_ERROR_NONE ps s' e' → ∀ fuel, ps.length < fuel →
        ∃ logic', OnReceive A fuel Serial pBuffer s logic
          = Outcome.returns (decide (e' = PACKETIO_ERROR_NONE), s', logic'))
    ∧ (∀ fuel ret s' logic',
        OnReceive A fuel Serial pBuffer s logic = Outcome.returns (ret, s', logic') →
        (ret = false ↔
          ((A.AddTransferredData s pBuffer).1 = false
            ∨ ∃ ps e', GetPacketRun A (A.AddTransferredData s pBuffer).2 PACKETIO_ERROR_NONE
                ps s' e' ∧ e' ≠ PACKETIO_ERROR_NONE))) := by
  refine ⟨?_, ?_, ?_⟩
  · intro s1 hadd fuel
    exact ⟨(s1, logic), by simp [OnReceive, hadd]⟩
  · intro s1 ps s' e' hadd hrun fuel hf
    exact ⟨_, OnReceive_of_run Serial logic hadd hrun hf⟩
  · intro fuel ret s' logic' h
    rcases OnReceive_inv h with ⟨hf, hr, _⟩ | ⟨s2, ps, e', hadd, hrun, _, hr, _⟩
    · simp [hf, hr]
    · subst hr
      simp only [hadd, Bool.true_eq_false, false_or, decide_eq_false_iff_not]
      constructor
      · intro he
        exact ⟨ps, e', hrun, he⟩
      · rintro ⟨qs, e2, hq, he2⟩
        rw [(GetPacketRun.unique hrun hq).2.2]
        exact he2

end SFPacketProtocol

/-- Witness of C1: the adapter of `ProtocolServer.cpp` receives the "hello world" frame on
connection 7 and forwards the one decoded packet, tagged. -/
theorem OnReceive_forwards_extracted_witness :
    ∃ ret,
      SFPacketProtocol.OnReceive (SFCGSFPacketProtocol.analyzer sampleTransforms) 2 7 helloFrame
          sampleServer []
        = Outcome.returns (ret, sampleServerAfterHello,
            [] ++ [helloPacket].map (SFPacketProtocol.tag 7)) :=
  ((SFPacketProtocol.OnReceive_forwards_extracted
    (SFCGSFPacketProtocol.analyzer sampleTransforms) 7 helloFrame sampleServer []).2.1
    (SFCGSFPacketProtocol.AddTransferredData sampleServer helloFrame).2 (by decide)).2
    [helloPacket] sampleServerAfterHello PACKETIO_ERROR_NONE
    (@SFPacketProtocol.GetPacketRun.packet _ _ _ _ _ helloPacket sampleServerHelloOut
      PACKETIO_ERROR_NONE [] _ _ (by decide)
      (@SFPacketProtocol.GetPacketRun.null _ _ _ sampleServerHelloOut PACKETIO_ERROR_NONE
        sampleServerAfterHello PACKETIO_ERROR_NONE (by decide)))
    2 (by decide)

/-- Witness of C2: on a partial frame (13 of the 23 bytes) the adapter extracts nothing and
returns `true`. -/
theorem OnReceive_returns_false_iff_error_witness :
    ∃ logic',
      SFPacketProtocol.OnReceive (SFCGSFPacketProtocol.analyzer sampleTransforms) 1 7
          (helloFrame.take 13) sampleServer []
        = Outcome.returns (decide (PACKETIO_ERROR_NONE = PACKETIO_ERROR_NONE),
            sampleServerIncomplete, logic') :=
  (SFPacketProtocol.OnReceive_returns_false_iff_error
    (SFCGSFPacketProtocol.analyzer sampleTransforms) 7 (helloFrame.take 13) sampleServer []).2.1
    (SFCGSFPacketProtocol.AddTransferredData sampleServer (helloFrame.take 13)).2 []
    sampleServerIncomplete PACKETIO_ERROR_NONE (by decide)
    (@SFPacketProtocol.GetPacketRun.null _ _ _ _ PACKETIO_ERROR_NONE sampleServerIncomplete
      PACKETIO_ERROR_NONE (by decide)) 1 (by decide)

/-! ## The binary strategy -/

namespace SFPacketProtocol

variable {σ β : Type}

/-- Every packet of a sequence of `GetPacket` calls was returned by one of the calls. -/
theorem GetPacketRun.mem_returned {A : Analyzer σ β} {s : σ} {e : Int}
    {ps : List (BasePacket β)} {s' : σ} {e' : Int} (h : GetPacketRun A s e ps s' e') :
    ∀ p ∈ ps, ∃ s1 e1 e2 s2, A.GetPacket s1 e1 = Outcome.returns (some p, e2, s2) := by
  induction h with
  | null _ => intro p hp; simp at hp
  | packet hg _ ih =>
    intro q hq
    rcases List.mem_cons.mp hq with hq | hq
    · subst hq
      exact ⟨_, _, _, _, hg⟩
    · exact ih q hq

end SFPacketProtocol

namespace SFCGSFPacketProtocol

theorem GetPacket_some_decoded (T : PacketTransforms) (st : SFCGSFPacketProtocol)
    (errorCode : Int) (p : SFPacket) (e' : Int) (st' : SFCGSFPacketProtocol)
    (h : GetPacket T st errorCode = Outcome.returns (some p, e', st')) :
    ∃ p0 pool1 header data e1 buf,
      st.pool.Alloc = (some p0, pool1)
      ∧ st.m_pPacketIOBuffer.GetPacket p0.Initialize.GetHeader p0.Initialize.GetData errorCode
          = (true, header, data, e1, buf)
      ∧ SFPacket.Decode T st.maxPacketSize (p0.Initialize.setFrame header data) e1
          = (true, p, e') := by
  unfold GetPacket at h
  cases ha : st.pool.Alloc with
  | mk op pool1 =>
    rw [ha] at h
    cases op with
    | none => simp at h
    | some p0 =>
      simp only at h
      cases hb : st.m_pPacketIOBuffer.GetPacket p0.Initialize.GetHeader p0.Initialize.GetData
        errorCode with
      | mk ok rest =>
        obtain ⟨header, data, e1, buf⟩ := rest
        rw [hb] at h
        cases ok with
        | false => simp at h
        | true =>
          simp only at h
          cases hd : SFPacket.Decode T st.maxPacketSize (p0.Initialize.setFrame header data)
            e1 with
          | mk ok2 rest2 =>
            obtain ⟨q, e2⟩ := rest2
            rw [hd] at h
            cases ok2 with
            | false => simp at h
            | true =>
              simp only [Outcome.returns.injEq, Prod.mk.injEq, Option.some.injEq] at h
              obtain ⟨hq, he, _⟩ := h
              subst hq he
              refine ⟨p0, pool1, header, data, e1, buf, ?_, ?_, ?_⟩ <;> first | rfl | assumption

/-- C3. With the binary strategy, `GetPacket` returns a packet only when the frame extraction
from the I/O buffer and the packet's `Decode` both succeeded, the packet being the decoded one;
when the extraction fails, or the extraction succeeds and `Decode` fails, it returns `NULL` with
the error code the failing step left; and every packet `OnReceive` forwards is a successfully
extracted and decoded one, so nothing is forwarded for a frame that fails. -/
theorem GetPacket_never_returns_malformed (T : PacketTransforms) (st : SFCGSFPacketProtocol)
    (errorCode : Int) :
    (∀ p e' st', GetPacket T st errorCode = Outcome.returns (some p, e', st') →
      ∃ p0 pool1 header data e1 buf,
        st.pool.Alloc = (some p0, pool1)
        ∧ st.m_pPacketIOBuffer.GetPacket p0.Initialize.GetHeader p0.Initialize.GetData errorCode
            = (true, header, data, e1, buf)
        ∧ SFPacket.Decode T st.maxPacketSize (p0.Initialize.setFrame header data) e1
            = (true, p, e'))
    ∧ (∀ p0 pool1 header data e1 buf, st.pool.Alloc = (some p0, pool1) →
        st.m_pPacketIOBuffer.GetPacket p0.Initialize.GetHeader p0.Initialize.GetData errorCode
          = (false, header, data, e1, buf) →
        ∃ st', GetPacket T st errorCode = Outcome.returns (none, e1, st'))
    ∧ (∀ p0 pool1 header data e1 buf q e2, st.pool.Alloc = (some p0, pool1) →
        st.m_pPacketIOBuffer.GetPacket p0.Initialize.GetHeader p0.Initialize.GetData errorCode
          = (true, header, data, e1, buf) →
        SFPacket.Decode T st.maxPacketSize (p0.Initialize.setFrame header data) e1
          = (false, q, e2) →
        ∃ st', GetPacket T st errorCode = Outcome.returns (none, e2, st'))
    ∧ (∀ fuel Serial pBuffer logic ret st' logic',
        SFPacketProtocol.OnReceive (analyzer T) fuel Serial pBuffer st logic
          = Outcome.returns (ret, st', logic') →
        ∃ ps : List SFPacket, logic' = logic ++ ps.map (SFPacketProtocol.tag Serial)
          ∧ ∀ p ∈ ps, Decoded T p) := by
  refine ⟨GetPacket_some_decoded T st errorCode, ?_, ?_, ?_⟩
  · intro p0 pool1 header data e1 buf ha hb
    simp [GetPacket, ha, hb]
  · intro p0 pool1 header data e1 buf q e2 ha hb hd
    simp [GetPacket, ha, hb, hd]
  · intro fuel Serial pBuffer logic ret st' logic' h
    rcases SFPacketProtocol.OnReceive_inv h with ⟨_, _, hl⟩ | ⟨s1, ps, e', _, hrun, hlog, _, _⟩
    · subst hl
      exact ⟨[], by simp, by simp⟩
    · refine ⟨ps, hlog, ?_⟩
      intro p hp
      obtain ⟨s2, e1, e2, s3, hg⟩ := SFPacketProtocol.GetPacketRun.mem_returned hrun p hp
      obtain ⟨p0, pool1, header, data, e3, buf, _, hb, hd⟩ :=
        GetPacket_some_decoded T s2 e1 p e2 s3 hg
      exact ⟨_, _, _, _, _, _, _, _, _, hb, hd⟩

/-- Witness of C3: the adapter of `ProtocolServer.cpp` receives a frame whose checksum does not
match. The extraction succeeds and `Decode` fails, so `GetPacket` returns `NULL` with the error
code `PACKETIO_ERROR_DATA_CRC`; `OnReceive` returns `false` and forwards nothing. -/
theorem GetPacket_never_returns_malformed_witness :
    (∃ st', GetPacket sampleTransforms (AddTransferredData sampleServer badCrcFrame).2
        PACKETIO_ERROR_NONE = Outcome.returns (none, PACKETIO_ERROR_DATA_CRC, st'))
    ∧ ∃ st', SFPacketProtocol.OnReceive (analyzer sampleTransforms) 2 7 badCrcFrame
        sampleServer [] = Outcome.returns (false, st', []) :=
  ⟨(GetPacket_never_returns_malformed sampleTransforms
      (AddTransferredData sampleServer badCrcFrame).2 PACKETIO_ERROR_NONE).2.2.1
      (SFPacket.blank 0)
      { free := [SFPacket.blank 1], checkedOut := [0], calls := [PoolCall.alloc 0] }
      { packetID := 1000, packetOption := 1, dataCRC := 0, dataSize := 11 } helloWorld
      PACKETIO_ERROR_NONE { m_iBufSize := 16384, buffered := [] }
      ((SFPacket.blank 0).setFrame
        { packetID := 1000, packetOption := 1, dataCRC := 0, dataSize := 11 } helloWorld)
      PACKETIO_ERROR_DATA_CRC (by decide) (by decide) (by decide),
    ⟨{ sampleServer with
        pool := { free := [(SFPacket.blank 0).setFrame
                    { packetID := 1000, packetOption := 1, dataCRC := 0, dataSize := 11 }
                    helloWorld, SFPacket.blank 1],
                  checkedOut := [],
                  calls := [PoolCall.alloc 0, PoolCall.release 0] } }, by decide⟩⟩

/-- C4, evaluated: `AddTransferredData` returns `true` whatever `AppendData` reports. On the
adapter with a 16 byte I/O buffer, a chunk of 17 bytes is refused by `AppendData`, yet
`AddTransferredData` returns `true`, and `OnReceive` returns `true` for that chunk, with nothing
buffered and nothing forwarded. -/
theorem AddTransferredData_drops_overflow :
    (∀ (st : SFCGSFPacketProtocol) (pBuffer : List Nat), (AddTransferredData st pBuffer).1 = true)
    ∧ smallServer.m_pPacketIOBuffer.m_iBufSize = 16
    ∧ (helloFrame.take 17).length = 17
    ∧ smallServer.m_pPacketIOBuffer.AppendData (helloFrame.take 17)
        = (false, smallServer.m_pPacketIOBuffer)
    ∧ AddTransferredData smallServer (helloFrame.take 17) = (true, smallServer)
    ∧ SFPacketProtocol.OnReceive (analyzer sampleTransforms) 1 7 (helloFrame.take 17)
        smallServer []
        = Outcome.returns (true,
            { smallServer with
              pool := { smallServer.pool with
                        calls := [PoolCall.alloc 0, PoolCall.release 0] } }, []) := by
  refine ⟨fun _ _ => rfl, ?_, ?_, ?_, ?_, ?_⟩ <;> decide

/-- C5, evaluated: the two-argument constructor called with I/O buffer size -1 and packet data
size 0 stores I/O size -1 and packet size 65535: the packet size exceeds both the I/O size and
`MAX_PACKET_SIZE`. -/
theorem clampSizes_negative_ioSize :
    SFPacketProtocol.clampSizes (-1) 0 = (-1, 65535)
    ∧ ¬ (((SFPacketProtocol.clampSizes (-1) 0).2 : Int) ≤ (SFPacketProtocol.clampSizes (-1) 0).1)
    ∧ ¬ ((SFPacketProtocol.clampSizes (-1) 0).2 ≤ MAX_PACKET_SIZE)
    ∧ (construct (sampleEnv 2) (-1) 0).maxPacketSize = 65535 := by
  decide

theorem Alloc_some {pool pool1 : PacketPool} {p0 : SFPacket}
    (h : pool.Alloc = (some p0, pool1)) :
    pool1.checkedOut = p0.body.addr :: pool.checkedOut
    ∧ pool1.calls = pool.calls ++ [PoolCall.alloc p0.body.addr] := by
  unfold PacketPool.Alloc at h
  cases hf : pool.free with
  | nil => rw [hf] at h; simp at h
  | cons q rest =>
    rw [hf] at h
    simp only [Prod.mk.injEq, Option.some.injEq] at h
    obtain ⟨hq, hp⟩ := h
    subst hq hp
    exact ⟨rfl, rfl⟩

theorem Release_checkedOut {pool1 : PacketPool} {p : SFPacket} {addr : Nat} {out : List Nat}
    {calls : List PoolCall} (haddr : p.body.addr = addr) (hout : pool1.checkedOut = addr :: out)
    (hcalls : pool1.calls = calls ++ [PoolCall.alloc addr]) :
    (pool1.Release p).1 = true ∧ (pool1.Release p).2.checkedOut = out
    ∧ (pool1.Release p).2.calls = calls ++ [PoolCall.alloc addr, PoolCall.release addr] := by
  unfold PacketPool.Release
  simp [haddr, hout, hcalls]

theorem Decode_addr (T : PacketTransforms) (maxPacketSize : Nat) (p : SFPacket) (e : Int) :
    (SFPacket.Decode T maxPacketSize p e).2.1.body.addr = p.body.addr := by
  unfold SFPacket.Decode
  simp only
  split
  · rfl
  · split
    · rfl
    · split
      · rfl
      · split <;> rfl

/-- C9, as amended. Whenever the pool supplies a packet, `GetPacket` returns; its `Alloc` is the
one checkout the call makes; when it returns `NULL` it has released that same instance once,
after the checkout, and the outstanding checkouts are what they were; when it returns a packet,
this is the instance checked out, it has not been released and is among the outstanding
checkouts, which have grown by one. -/
theorem GetPacket_pool_balance (T : PacketTransforms) (st : SFCGSFPacketProtocol)
    (errorCode : Int) (p0 : SFPacket) (pool1 : PacketPool)
    (halloc : st.pool.Alloc = (some p0, pool1)) :
    ∃ res e' st', GetPacket T st errorCode = Outcome.returns (res, e', st')
      ∧ (res = none →
          st'.pool.calls = st.pool.calls
              ++ [PoolCall.alloc p0.body.addr, PoolCall.release p0.body.addr]
          ∧ st'.pool.checkedOut = st.pool.checkedOut
          ∧ st'.pool.outstanding = st.pool.outstanding)
      ∧ (∀ p, res = some p →
          p.body.addr = p0.body.addr
          ∧ st'.pool.calls = st.pool.calls ++ [PoolCall.alloc p0.body.addr]
          ∧ st'.pool.checkedOut = p0.body.addr :: st.pool.checkedOut
          ∧ st'.pool.outstanding = st.pool.outstanding + 1) := by
  obtain ⟨hout, hcalls⟩ := Alloc_some halloc
  unfold GetPacket
  rw [halloc]
  simp only
  cases hb : st.m_pPacketIOBuffer.GetPacket p0.Initialize.GetHeader p0.Initialize.GetData
    errorCode with
  | mk ok rest =>
    obtain ⟨header, data, e1, buf⟩ := rest
    cases ok with
    | false =>
      obtain ⟨_, h2, h3⟩ := Release_checkedOut
        (show (p0.Initialize.setFrame header data).body.addr = p0.body.addr from rfl) hout hcalls
      refine ⟨none, e1, _, rfl, fun _ => ⟨h3, h2, ?_⟩, fun p hp => by simp at hp⟩
      simp [PacketPool.outstanding, h2]
    | true =>
      simp only
      have haddr := Decode_addr T st.maxPacketSize (p0.Initialize.setFrame header data) e1
      cases hd : SFPacket.Decode T st.maxPacketSize (p0.Initialize.setFrame header data) e1 with
      | mk ok2 rest2 =>
        obtain ⟨q, e2⟩ := rest2
        rw [hd] at haddr
        cases ok2 with
        | false =>
          obtain ⟨_, h2, h3⟩ := Release_checkedOut
            (show q.body.addr = p0.body.addr from haddr) hout hcalls
          refine ⟨none, e2, _, rfl, fun _ => ⟨h3, h2, ?_⟩, fun p hp => by simp at hp⟩
          simp [PacketPool.outstanding, h2]
        | true =>
          refine ⟨some q, e2, _, rfl, fun h => by simp at h, fun p hp => ?_⟩
          simp only [Option.some.injEq] at hp
          subst hp
          exact ⟨haddr, hcalls, hout, by simp [PacketPool.outstanding, hout]⟩

/-- Witness of C9: the pool of the adapter of `ProtocolServer.cpp` supplies the instance 0, so
its `GetPacket` returns and the pool is balanced as stated. -/
theorem GetPacket_pool_balance_witness :
    sampleServer.pool.Alloc
        = (some (SFPacket.blank 0),
            { free := [SFPacket.blank 1], checkedOut := [0], calls := [PoolCall.alloc 0] })
    ∧ ∃ res e' st',
        GetPacket sampleTransforms sampleServer PACKETIO_ERROR_NONE
          = Outcome.returns (res, e', st')
        ∧ (res = none →
            st'.pool.calls = sampleServer.pool.calls
                ++ [PoolCall.alloc (SFPacket.blank 0).body.addr,
                    PoolCall.release (SFPacket.blank 0).body.addr]
            ∧ st'.pool.checkedOut = sampleServer.pool.checkedOut
            ∧ st'.pool.outstanding = sampleServer.pool.outstanding)
        ∧ (∀ p, res = some p →
            p.body.addr = (SFPacket.blank 0).body.addr
            ∧ st'.pool.calls = sampleServer.pool.calls
                ++ [PoolCall.alloc (SFPacket.blank 0).body.addr]
            ∧ st'.pool.checkedOut = (SFPacket.blank 0).body.addr :: sampleServer.pool.checkedOut
            ∧ st'.pool.outstanding = sampleServer.pool.outstanding + 1) :=
  ⟨by decide,
    GetPacket_pool_balance sampleTransforms sampleServer PACKETIO_ERROR_NONE (SFPacket.blank 0)
      { free := [SFPacket.blank 1], checkedOut := [0], calls := [PoolCall.alloc 0] } (by decide)⟩

/-- Counterexample to C9 as stated: on the adapter of `ProtocolServer.cpp` over a pool of one
instance, the `GetPacket` call that extracts the "hello world" frame checks the instance out; the
next call, which `OnReceive` always makes, finds the pool empty: it checks out no packet and
does not return, and neither does `OnReceive`. -/
theorem GetPacket_pool_balance_counterexample :
    GetPacket sampleTransforms (AddTransferredData poolOfOneServer helloFrame).2
        PACKETIO_ERROR_NONE
      = Outcome.returns (some helloPacket, PACKETIO_ERROR_NONE, poolOfOneHelloOut)
    ∧ poolOfOneHelloOut.pool.Alloc.1 = none
    ∧ GetPacket sampleTransforms poolOfOneHelloOut PACKETIO_ERROR_NONE = Outcome.nullDeref
    ∧ SFPacketProtocol.OnReceive (analyzer sampleTransforms) 5 7 helloFrame poolOfOneServer []
        = Outcome.nullDeref := by
  decide

/-- C10, evaluated: with no free instance in the pool, `Alloc` yields no packet and `GetPacket`
dereferences the null pointer: it neither returns `NULL` nor reports an error code. -/
theorem GetPacket_exhausted_pool_nullDeref :
    exhaustedServer.pool.Alloc.1 = none
    ∧ GetPacket sampleTransforms exhaustedServer PACKETIO_ERROR_NONE = Outcome.nullDeref
    ∧ ¬ ∃ e st', GetPacket sampleTransforms exhaustedServer PACKETIO_ERROR_NONE
          = Outcome.returns (none, e, st') := by
  refine ⟨by decide, by decide, ?_⟩
  rintro ⟨e, st', h⟩
  have h2 : GetPacket sampleTransforms exhaustedServer PACKETIO_ERROR_NONE
      = Outcome.nullDeref := by decide
  rw [h2] at h
  exact Outcome.noConfusion h

end SFCGSFPacketProtocol

open SFCGSFPacketProtocol

/-! ## The wire form: encode, extract, decode -/

theorem optionFlags_crc (crc cmp enc : Bool) :
    (optionFlags crc cmp enc &&& PACKET_OPTION_DATACRC ≠ 0) ↔ crc = true := by
  cases crc <;> cases cmp <;> cases enc <;> decide

theorem optionFlags_cmp (crc cmp enc : Bool) :
    (optionFlags crc cmp enc &&& PACKET_OPTION_COMPRESS ≠ 0) ↔ cmp = true := by
  cases crc <;> cases cmp <;> cases enc <;> decide

theorem optionFlags_enc (crc cmp enc : Bool) :
    (optionFlags crc cmp enc &&& PACKET_OPTION_ENCRYPTION ≠ 0) ↔ enc = true := by
  cases crc <;> cases cmp <;> cases enc <;> decide

theorem optionFlags_clear_cmp (crc enc : Bool) :
    optionFlags crc true enc ^^^ PACKET_OPTION_COMPRESS = optionFlags crc false enc := by
  cases crc <;> cases enc <;> decide

theorem optionFlags_lt (crc cmp enc : Bool) : optionFlags crc cmp enc < 4294967296 := by
  cases crc <;> cases cmp <;> cases enc <;> decide

/-- Reading a header back from its 12 bytes gives the header, when each field fits its width. -/
theorem ofBytes_toBytes (h : SFPacketHeader) (rest : List Nat) (hid : h.packetID < 65536)
    (hopt : h.packetOption < 4294967296) (hcrc : h.dataCRC < 4294967296)
    (hsz : h.dataSize < 65536) :
    SFPacketHeader.ofBytes (h.toBytes ++ rest) = some (h, rest) := by
  obtain ⟨i, o, c, n⟩ := h
  simp only at hid hopt hcrc hsz
  simp only [SFPacketHeader.toBytes, SFPacketHeader.ofBytes, List.cons_append, List.nil_append,
    Option.some.injEq, Prod.mk.injEq, SFPacketHeader.mk.injEq, and_true]
  refine ⟨?_, ?_, ?_, ?_⟩ <;> omega

theorem toBytes_length (h : SFPacketHeader) : h.toBytes.length = HEADER_SIZE := rfl

theorem Encode_eq (T : PacketTransforms) (crc cmp enc : Bool) (p : SFPacket) :
    SFPacket.Encode T (optionFlags crc cmp enc) p
      = p.setFrame (wireHeader T crc cmp enc p.body.header.packetID p.body.data)
          (wirePayload T cmp enc p.body.data) := by
  unfold SFPacket.Encode wireHeader wirePayload
  simp only [optionFlags_crc, optionFlags_cmp, optionFlags_enc, decide_eq_true_eq]
  by_cases hlen : PACKET_COMPRESS_LIMIT < p.body.data.length
  · cases crc <;> cases cmp <;> cases enc <;> simp [hlen]
  · cases crc <;> cases cmp <;> cases enc <;> simp [hlen, optionFlags_clear_cmp]

theorem frameBytes_Encode (T : PacketTransforms) (crc cmp enc : Bool) (p : SFPacket) :
    (SFPacket.Encode T (optionFlags crc cmp enc) p).frameBytes
      = (wireHeader T crc cmp enc p.body.header.packetID p.body.data).toBytes
          ++ wirePayload T cmp enc p.body.data := by
  rw [Encode_eq]
  simp only [SFPacket.frameBytes, SFPacket.GetPacketSize, SFPacket.setFrame]
  have h : (wireHeader T crc cmp enc p.body.header.packetID p.body.data).dataSize
      = (wirePayload T cmp enc p.body.data).length := rfl
  rw [h, ← toBytes_length (wireHeader T crc cmp enc p.body.header.packetID p.body.data),
    ← List.length_append]
  exact List.take_length _

/-- Decoding what `Encode` put on the wire gives the payload back, with no error, when the
payload as put on the wire is within the maximum packet size. -/
theorem Decode_wire (T : PacketTransforms) (hT : T.Inverse) (crc cmp enc : Bool)
    (maxPacketSize packetID : Nat) (d : List Nat) (p0 : SFPacket) (errorCode : Int)
    (hsize : (wirePayload T cmp enc d).length ≤ maxPacketSize) :
    SFPacket.Decode T maxPacketSize
        (p0.setFrame (wireHeader T crc cmp enc packetID d) (wirePayload T cmp enc d)) errorCode
      = (true,
          p0.setFrame { wireHeader T crc cmp enc packetID d with dataSize := d.length } d,
          errorCode) := by
  unfold SFPacket.Decode
  have hds : (wireHeader T crc cmp enc packetID d).dataSize = (wirePayload T cmp enc d).length :=
    rfl
  have hno : ¬ maxPacketSize < (wirePayload T cmp enc d).length := by omega
  simp only [SFPacket.setFrame, hds, hno, ↓reduceIte]
  simp only [SFPacketHeader.CheckDataCRC, SFPacketHeader.CheckEncryption,
    SFPacketHeader.CheckCompressed, wireHeader, optionFlags_crc, optionFlags_cmp,
    optionFlags_enc, wirePayload]
  by_cases hl : PACKET_COMPRESS_LIMIT < d.length <;>
    cases crc <;> cases cmp <;> cases enc <;>
    simp [hl, hT.decrypt_encrypt, hT.uncompress_compress]

theorem ofBytes_short (l : List Nat) (h : l.length < HEADER_SIZE) :
    SFPacketHeader.ofBytes l = none := by
  unfold SFPacketHeader.ofBytes
  split
  · simp only [List.length_cons, HEADER_SIZE] at h
    omega
  · rfl

theorem noCompleteFrame_nil (b : SFPacketIOBuffer) (h : b.buffered = []) : NoCompleteFrame b := by
  intro header pData errorCode
  simp [SFPacketIOBuffer.GetPacket, h, SFPacketHeader.ofBytes]

/-- A buffer holding a proper initial part of a frame holds no complete frame. -/
theorem noCompleteFrame_of_incomplete (b : SFPacketIOBuffer) (h : SFPacketHeader) (d suf : List Nat)
    (hid : h.packetID < 65536) (hopt : h.packetOption < 4294967296)
    (hcrc : h.dataCRC < 4294967296) (hsz : h.dataSize < 65536) (hlen : h.dataSize = d.length)
    (hsuf : suf ≠ []) (hb : b.buffered ++ suf = h.toBytes ++ d) : NoCompleteFrame b := by
  intro header pData errorCode
  unfold SFPacketIOBuffer.GetPacket
  by_cases hshort : b.buffered.length < HEADER_SIZE
  · simp [ofBytes_short _ hshort]
  · have hsplit := List.append_eq_append_iff.mp hb
    have hpre : ∃ c, b.buffered = h.toBytes ++ c ∧ d = c ++ suf := by
      rcases hsplit with ⟨a, ha, hs⟩ | ⟨c, hc, hd⟩
      · have hl := congrArg List.length ha
        rw [List.length_append, toBytes_length] at hl
        have ha0 : a = [] := List.length_eq_zero.mp (by omega)
        subst ha0
        exact ⟨[], by simpa using ha.symm, by simpa using hs.symm⟩
      · exact ⟨c, hc, hd⟩
    obtain ⟨c, hc, hd⟩ := hpre
    have hsl : 0 < suf.length := List.length_pos.mpr hsuf
    have hcl : c.length < h.dataSize := by
      rw [hlen, hd, List.length_append]
      omega
    rw [hc, ofBytes_toBytes h c hid hopt hcrc hsz]
    simp [hcl]

/-- A buffer that starts with a whole frame gives it up: header and payload are filled in and the
bytes after the frame stay. -/
theorem IOGetPacket_frame (b : SFPacketIOBuffer) (h : SFPacketHeader) (d more : List Nat)
    (header : SFPacketHeader) (pData : List Nat) (errorCode : Int)
    (hid : h.packetID < 65536) (hopt : h.packetOption < 4294967296)
    (hcrc : h.dataCRC < 4294967296) (hsz : h.dataSize < 65536) (hlen : h.dataSize = d.length)
    (hb : b.buffered = h.toBytes ++ (d ++ more)) :
    b.GetPacket header pData errorCode = (true, h, d, errorCode, { b with buffered := more }) := by
  unfold SFPacketIOBuffer.GetPacket
  rw [hb, ofBytes_toBytes h (d ++ more) hid hopt hcrc hsz]
  simp [hlen]

theorem wireHeader_ranges (T : PacketTransforms) (crc cmp enc : Bool)
    (packetID : Nat) (d : List Nat) (hid : packetID < 65536)
    (hd : (wirePayload T cmp enc d).length < 65536) :
    (wireHeader T crc cmp enc packetID d).packetID < 65536
    ∧ (wireHeader T crc cmp enc packetID d).packetOption < 4294967296
    ∧ (wireHeader T crc cmp enc packetID d).dataCRC < 4294967296
    ∧ (wireHeader T crc cmp enc packetID d).dataSize < 65536
    ∧ (wireHeader T crc cmp enc packetID d).dataSize = (wirePayload T cmp enc d).length := by
  refine ⟨hid, optionFlags_lt _ _ _, ?_, hd, rfl⟩
  simp only [wireHeader]
  split
  · exact Nat.mod_lt _ (by decide)
  · decide

theorem Initialize_Initialize (p : SFPacket) : p.Initialize.Initialize = p.Initialize := rfl

theorem decodedPacket_Initialize (T : PacketTransforms) (crc cmp enc : Bool) (p0 : SFPacket)
    (packetID : Nat) (d : List Nat) :
    decodedPacket T crc cmp enc p0.Initialize packetID d = decodedPacket T crc cmp enc p0 packetID d :=
  rfl

/-- `GetPacket` on a buffer without a complete frame: `NULL`, no error, the instance taken from
the pool goes back to its place, initialized. -/
theorem GetPacket_noCompleteFrame (T : PacketTransforms) (st : SFCGSFPacketProtocol)
    (errorCode : Int) (x : SFPacket) (fr : List SFPacket) (hfree : st.pool.free = x :: fr)
    (hno : NoCompleteFrame st.m_pPacketIOBuffer) :
    ∃ st', GetPacket T st errorCode = Outcome.returns (none, errorCode, st')
      ∧ st'.m_pPacketIOBuffer = st.m_pPacketIOBuffer ∧ st'.pool.free = x.Initialize :: fr
      ∧ st'.maxPacketSize = st.maxPacketSize := by
  have hio := hno x.Initialize.GetHeader x.Initialize.GetData errorCode
  unfold GetPacket
  simp only [PacketPool.Alloc, hfree, hio]
  refine ⟨_, rfl, rfl, ?_, rfl⟩
  simp [PacketPool.Release, SFPacket.setFrame, SFPacket.Initialize, SFPacket.GetHeader,
    SFPacket.GetData]

/-- `GetPacket` on a buffer that starts with the frame `Encode` made of a packet, the payload as
put on the wire within the maximum packet size: the packet comes back, in the instance the pool
supplied, with no error; the frame is consumed. -/
theorem GetPacket_frame (T : PacketTransforms) (hT : T.Inverse) (crc cmp enc : Bool)
    (st : SFCGSFPacketProtocol) (errorCode : Int) (x : SFPacket) (fr : List SFPacket)
    (packetID : Nat) (d more : List Nat) (hfree : st.pool.free = x :: fr)
    (hid : packetID < 65536) (hsize : (wirePayload T cmp enc d).length ≤ st.maxPacketSize)
    (hmax : st.maxPacketSize < 65536)
    (hb : st.m_pPacketIOBuffer.buffered
      = (wireHeader T crc cmp enc packetID d).toBytes ++ (wirePayload T cmp enc d ++ more)) :
    ∃ st', GetPacket T st errorCode
        = Outcome.returns (some (decodedPacket T crc cmp enc x packetID d), errorCode, st')
      ∧ st'.m_pPacketIOBuffer = { st.m_pPacketIOBuffer with buffered := more }
      ∧ st'.pool.free = fr ∧ st'.maxPacketSize = st.maxPacketSize := by
  obtain ⟨h1, h2, h3, h4, h5⟩ :=
    wireHeader_ranges T crc cmp enc packetID d hid (by omega)
  unfold GetPacket
  simp only [PacketPool.Alloc, hfree,
    IOGetPacket_frame st.m_pPacketIOBuffer _ _ more _ _ errorCode h1 h2 h3 h4 h5 hb,
    Decode_wire T hT crc cmp enc st.maxPacketSize packetID d x.Initialize errorCode hsize]
  exact ⟨_, rfl, rfl, rfl, rfl⟩

theorem AddTransferredData_fits (st : SFCGSFPacketProtocol) (c : List Nat)
    (hfit : st.m_pPacketIOBuffer.buffered.length + c.length ≤ st.m_pPacketIOBuffer.m_iBufSize) :
    AddTransferredData st c
      = (true, { st with m_pPacketIOBuffer :=
          { st.m_pPacketIOBuffer with buffered := st.m_pPacketIOBuffer.buffered ++ c } }) := by
  have h : ¬ st.m_pPacketIOBuffer.m_iBufSize < st.m_pPacketIOBuffer.buffered.length + c.length :=
    by omega
  simp [AddTransferredData, SFPacketIOBuffer.AppendData, h]

/-- One `OnReceive` call whose chunk does not complete a frame: it returns `true`, forwards
nothing and keeps the bytes. -/
theorem OnReceive_incomplete (T : PacketTransforms) (st : SFCGSFPacketProtocol) (c : List Nat)
    (Serial : Int) (logic : LogicLayer SFPacketBody) (x : SFPacket) (fr : List SFPacket)
    (fuel : Nat) (hfuel : 0 < fuel) (hfree : st.pool.free = x :: fr)
    (hfit : st.m_pPacketIOBuffer.buffered.length + c.length ≤ st.m_pPacketIOBuffer.m_iBufSize)
    (hno : NoCompleteFrame
      { st.m_pPacketIOBuffer with buffered := st.m_pPacketIOBuffer.buffered ++ c }) :
    ∃ st', SFPacketProtocol.OnReceive (analyzer T) fuel Serial c st logic
        = Outcome.returns (true, st', logic)
      ∧ st'.m_pPacketIOBuffer
          = { st.m_pPacketIOBuffer with buffered := st.m_pPacketIOBuffer.buffered ++ c }
      ∧ st'.pool.free = x.Initialize :: fr ∧ st'.maxPacketSize = st.maxPacketSize := by
  have hadd := AddTransferredData_fits st c hfit
  obtain ⟨st', hg, hbuf, hpool, hmax⟩ := GetPacket_noCompleteFrame T
    { st with m_pPacketIOBuffer :=
        { st.m_pPacketIOBuffer with buffered := st.m_pPacketIOBuffer.buffered ++ c } }
    PACKETIO_ERROR_NONE x fr hfree hno
  have hrun : SFPacketProtocol.GetPacketRun (analyzer T) _ PACKETIO_ERROR_NONE [] st'
      PACKETIO_ERROR_NONE := SFPacketProtocol.GetPacketRun.null hg
  have h := SFPacketProtocol.OnReceive_of_run Serial logic
    (show (analyzer T).AddTransferredData st c = _ from hadd) hrun
    (show ([] : List SFPacket).length < fuel from hfuel)
  exact ⟨st', by simpa using h, hbuf, hpool, hmax⟩

/-- One `OnReceive` call whose chunk completes the frame `Encode` made of a packet, with nothing
behind it: it returns `true` and forwards the decoded packet, tagged. -/
theorem OnReceive_complete (T : PacketTransforms) (hT : T.Inverse) (crc cmp enc : Bool)
    (st : SFCGSFPacketProtocol) (c : List Nat) (Serial : Int) (logic : LogicLayer SFPacketBody)
    (x y : SFPacket) (fr : List SFPacket) (packetID : Nat) (d : List Nat) (fuel : Nat)
    (hfuel : 1 < fuel) (hfree : st.pool.free = x :: y :: fr)
    (hfit : st.m_pPacketIOBuffer.buffered.length + c.length ≤ st.m_pPacketIOBuffer.m_iBufSize)
    (hid : packetID < 65536) (hsize : (wirePayload T cmp enc d).length ≤ st.maxPacketSize)
    (hmax : st.maxPacketSize < 65536)
    (hb : st.m_pPacketIOBuffer.buffered ++ c
      = (wireHeader T crc cmp enc packetID d).toBytes ++ wirePayload T cmp enc d) :
    ∃ st', SFPacketProtocol.OnReceive (analyzer T) fuel Serial c st logic
        = Outcome.returns (true, st',
            logic ++ [SFPacketProtocol.tag Serial (decodedPacket T crc cmp enc x packetID d)]) := by
  have hadd := AddTransferredData_fits st c hfit
  obtain ⟨st1, hg1, hbuf1, hpool1, hmax1⟩ := GetPacket_frame T hT crc cmp enc
    { st with m_pPacketIOBuffer :=
        { st.m_pPacketIOBuffer with buffered := st.m_pPacketIOBuffer.buffered ++ c } }
    PACKETIO_ERROR_NONE x (y :: fr) packetID d [] hfree hid hsize hmax (by simpa using hb)
  obtain ⟨st2, hg2, _, _, _⟩ := GetPacket_noCompleteFrame T st1 PACKETIO_ERROR_NONE y fr hpool1
    (noCompleteFrame_nil _ (by rw [hbuf1]))
  have hrun : SFPacketProtocol.GetPacketRun (analyzer T) _ PACKETIO_ERROR_NONE
      [decodedPacket T crc cmp enc x packetID d] st2 PACKETIO_ERROR_NONE :=
    SFPacketProtocol.GetPacketRun.packet hg1 (SFPacketProtocol.GetPacketRun.null hg2)
  have h := SFPacketProtocol.OnReceive_of_run Serial logic
    (show (analyzer T).AddTransferredData st c = _ from hadd) hrun
    (show [decodedPacket T crc cmp enc x packetID d].length < fuel from hfuel)
  exact ⟨st2, by simpa using h⟩

/-- Feeding the frame of a packet chunk by chunk, to a buffer that already holds the part of the
frame before the chunks: every call returns `true` and the decoded packet is forwarded once. -/
theorem feedChunks_frame (T : PacketTransforms) (hT : T.Inverse) (crc cmp enc : Bool)
    (Serial : Int) (y : SFPacket) (fr : List SFPacket) (packetID : Nat) (d : List Nat)
    (fuel : Nat) (hfuel : 1 < fuel) (hid : packetID < 65536) :
    ∀ (chunks : List (List Nat)) (st : SFCGSFPacketProtocol) (logic : LogicLayer SFPacketBody)
      (x : SFPacket),
      (∀ c ∈ chunks, c ≠ []) → chunks ≠ [] →
      st.m_pPacketIOBuffer.buffered ++ chunks.flatten
        = (wireHeader T crc cmp enc packetID d).toBytes ++ wirePayload T cmp enc d →
      st.pool.free = x :: y :: fr →
      ((wireHeader T crc cmp enc packetID d).toBytes ++ wirePayload T cmp enc d).length
        ≤ st.m_pPacketIOBuffer.m_iBufSize →
      (wirePayload T cmp enc d).length ≤ st.maxPacketSize → st.maxPacketSize < 65536 →
      ∃ st', feedChunks (analyzer T) fuel Serial chunks st logic
        = Outcome.returns (List.replicate chunks.length true, st',
            logic ++ [SFPacketProtocol.tag Serial (decodedPacket T crc cmp enc x packetID d)]) := by
  intro chunks
  induction chunks with
  | nil => intro st logic x _ hne; exact absurd rfl hne
  | cons c cs ih =>
    intro st logic x hall _ hjoin hfree hcap hsize hmax
    have hc : c ≠ [] := hall c (List.mem_cons_self _ _)
    have hcs : ∀ c' ∈ cs, c' ≠ [] := fun c' h => hall c' (List.mem_cons_of_mem _ h)
    have hlen := congrArg List.length hjoin
    simp only [List.flatten_cons, List.length_append] at hlen
    have hfit : st.m_pPacketIOBuffer.buffered.length + c.length
        ≤ st.m_pPacketIOBuffer.m_iBufSize := by
      simp only [List.length_append] at hcap
      omega
    obtain ⟨h1, h2, h3, h4, h5⟩ :=
      wireHeader_ranges T crc cmp enc packetID d hid (by omega)
    cases cs with
    | nil =>
      obtain ⟨st', h⟩ := OnReceive_complete T hT crc cmp enc st c Serial logic x y fr packetID d
        fuel hfuel hfree hfit hid hsize hmax (by simpa using hjoin)
      exact ⟨st', by simp [feedChunks, h]⟩
    | cons c2 cs2 =>
      have hc2 : c2 ≠ [] := hcs c2 (List.mem_cons_self _ _)
      have hsuf : (c2 :: cs2).flatten ≠ [] := by
        simp only [List.flatten_cons, ne_eq, List.append_eq_nil, not_and]
        intro h
        exact absurd h hc2
      obtain ⟨st1, hr, hbuf, hpool, hmax1⟩ := OnReceive_incomplete T st c Serial logic x
        (y :: fr) fuel (by omega) hfree hfit
        (noCompleteFrame_of_incomplete _ (wireHeader T crc cmp enc packetID d)
          (wirePayload T cmp enc d) (c2 :: cs2).flatten h1 h2 h3 h4 h5 hsuf
          (by simpa [List.append_assoc] using hjoin))
      obtain ⟨st2, h2⟩ := ih st1 logic x.Initialize hcs (by simp)
        (by rw [hbuf]; simpa [List.append_assoc] using hjoin) hpool
        (by rw [hbuf]; exact hcap) (by rw [hmax1]; exact hsize) (by rw [hmax1]; exact hmax)
      refine ⟨st2, ?_⟩
      rw [feedChunks, hr]
      simp only
      rw [h2]
      simp [decodedPacket_Initialize, List.replicate_succ]

theorem xor_key_twice (d : List Nat) :
    (d.map (fun b => b ^^^ (ENCRYPTION_KEY % 256))).map (fun b => b ^^^ (ENCRYPTION_KEY % 256))
      = d := by
  simp only [List.map_map]
  conv_rhs => rw [← List.map_id d]
  apply List.map_congr_left
  intro a _
  simp [Function.comp, Nat.xor_assoc]

theorem sampleTransforms_inverse : sampleTransforms.Inverse where
  uncompress_compress := by intro d; simp [sampleTransforms]
  decrypt_encrypt := by
    intro d
    simp only [sampleTransforms, Option.some.injEq]
    exact xor_key_twice d

/-- What `SendRequest` leaves in the packet, for a sender configured with the given flags: the
packet as `Encode` makes it, whose payload is the payload as put on the wire. -/
theorem SendRequest_data (T : PacketTransforms) (crc cmp enc : Bool)
    (sender : SFCGSFPacketProtocol) (p : SFPacket)
    (hopt : sender.packetOption = optionFlags crc cmp enc) :
    (SendRequest T sender p).2.1 = SFPacket.Encode T (optionFlags crc cmp enc) p
    ∧ (SendRequest T sender p).2.1.body.data = wirePayload T cmp enc p.body.data := by
  have hsend : (SendRequest T sender p).2.1 = SFPacket.Encode T (optionFlags crc cmp enc) p := by
    rw [← hopt]; rfl
  refine ⟨hsend, ?_⟩
  rw [hsend, Encode_eq]
  rfl

/-- Partial delivery with pool headroom. For transforms whose inverses undo them, every flag
combination and every packet whose frame fits the empty I/O buffer, its payload as encoded
within the maximum packet size, and a pool with two free instances: however the bytes of the
frame are split into consecutive non-empty chunks, feeding the chunks to `OnReceive` one call at
a time makes every call return `true` and forwards the same single decoded packet as feeding the
whole frame in one call, which also returns `true`. -/
theorem partial_delivery_idempotent (T : PacketTransforms) (hT : T.Inverse) (crc cmp enc : Bool)
    (sender receiver : SFCGSFPacketProtocol) (p x y : SFPacket) (fr : List SFPacket)
    (Serial : Int) (logic : LogicLayer SFPacketBody) (chunks : List (List Nat)) (fuel : Nat)
    (hopt : sender.packetOption = optionFlags crc cmp enc)
    (hid : p.body.header.packetID < 65536)
    (hsize : (SendRequest T sender p).2.1.body.data.length ≤ receiver.maxPacketSize)
    (hmax : receiver.maxPacketSize < 65536)
    (hempty : receiver.m_pPacketIOBuffer.buffered = [])
    (hcap : (SendRequest T sender p).2.1.frameBytes.length
      ≤ receiver.m_pPacketIOBuffer.m_iBufSize)
    (hfree : receiver.pool.free = x :: y :: fr)
    (hne : ∀ c ∈ chunks, c ≠ [])
    (hjoin : chunks.flatten = (SendRequest T sender p).2.1.frameBytes)
    (hfuel : 2 ≤ fuel) :
    ∃ q st1 st2,
      SFPacketProtocol.OnReceive (analyzer T) fuel Serial (SendRequest T sender p).2.1.frameBytes
          receiver logic
        = Outcome.returns (true, st1, logic ++ [SFPacketProtocol.tag Serial q])
      ∧ feedChunks (analyzer T) fuel Serial chunks receiver logic
        = Outcome.returns (List.replicate chunks.length true, st2,
            logic ++ [SFPacketProtocol.tag Serial q])
      ∧ q.body.header.packetID = p.body.header.packetID
      ∧ q.body.data = p.body.data := by
  obtain ⟨hsend, hdata⟩ := SendRequest_data T crc cmp enc sender p hopt
  rw [hdata] at hsize
  rw [hsend, frameBytes_Encode] at hcap hjoin
  rw [hsend, frameBytes_Encode]
  have hchunks : chunks ≠ [] := by
    intro h
    rw [h] at hjoin
    have hl := congrArg List.length hjoin
    simp [toBytes_length, HEADER_SIZE] at hl
    omega
  obtain ⟨st1, h1⟩ := OnReceive_complete T hT crc cmp enc receiver
    ((wireHeader T crc cmp enc p.body.header.packetID p.body.data).toBytes
      ++ wirePayload T cmp enc p.body.data) Serial logic x y fr
    p.body.header.packetID p.body.data fuel (by omega) hfree
    (by rw [hempty]; simpa using hcap) hid hsize hmax (by rw [hempty]; rfl)
  obtain ⟨st2, h2⟩ := feedChunks_frame T hT crc cmp enc Serial y fr p.body.header.packetID
    p.body.data fuel (by omega) hid chunks receiver logic x hne hchunks
    (by rw [hempty]; simpa using hjoin) hfree hcap hsize hmax
  exact ⟨_, st1, st2, h1, h2, rfl, rfl⟩

/-- Witness of the partial delivery: the "hello world" frame fed to the adapter of
`ProtocolServer.cpp` one byte at a time and in one call. -/
theorem partial_delivery_idempotent_witness :
    ∃ q st1 st2,
      SFPacketProtocol.OnReceive (analyzer sampleTransforms) 2 7
          (SendRequest sampleTransforms sampleServer helloPacket).2.1.frameBytes sampleServer []
        = Outcome.returns (true, st1, [] ++ [SFPacketProtocol.tag 7 q])
      ∧ feedChunks (analyzer sampleTransforms) 2 7 (helloFrame.map fun b => [b]) sampleServer []
        = Outcome.returns (List.replicate (helloFrame.map fun b => [b]).length true, st2,
            [] ++ [SFPacketProtocol.tag 7 q])
      ∧ q.body.header.packetID = helloPacket.body.header.packetID
      ∧ q.body.data = helloPacket.body.data :=
  partial_delivery_idempotent sampleTransforms sampleTransforms_inverse false false false
    sampleServer sampleServer helloPacket (SFPacket.blank 0) (SFPacket.blank 1) [] 7 []
    (helloFrame.map fun b => [b]) 2 (by decide) (by decide) (by decide) (by decide) (by decide)
    (by decide) (by decide) (by decide) (by decide) (by decide)

/-- C7, evaluated: over a pool with a single free instance the adapter of `ProtocolServer.cpp`
is given the "hello world" frame, for any transforms. Fed in one call, the first `GetPacket`
takes the instance and returns the packet, and the `GetPacket` call that `OnReceive` makes next
gets no instance from `Alloc` and dereferences the null pointer: the call does not return. Fed
one byte at a time, or in two chunks, the calls before the last return `true` and the last one
ends in the same way. -/
theorem partial_delivery_pool_of_one (T : PacketTransforms) :
    poolOfOneServer.pool.free = [SFPacket.blank 0]
    ∧ poolOfOneServer.pool.checkedOut = []
    ∧ SFPacketProtocol.OnReceive (analyzer T) 2 7 helloFrame poolOfOneServer []
        = Outcome.nullDeref
    ∧ feedChunks (analyzer T) 2 7 (helloFrame.map fun b => [b]) poolOfOneServer []
        = Outcome.nullDeref
    ∧ (∃ st', feedChunks (analyzer T) 2 7 [helloFrame.take 13] poolOfOneServer []
        = Outcome.returns ([true], st', []))
    ∧ feedChunks (analyzer T) 2 7 [helloFrame.take 13, helloFrame.drop 13] poolOfOneServer []
        = Outcome.nullDeref := by
  refine ⟨rfl, rfl, rfl, rfl, ⟨_, rfl⟩, rfl⟩

/-- C8. The concrete frame. The 23 bytes of `helloFrame` are the 12 byte header (packet id 1000
in 2 bytes, option flags 0 in 4, CRC in 4, data size 11 in 2) followed by the 11 bytes of
"hello world"; the adapter of `ProtocolServer.cpp` decodes them to one packet of type
`SFPACKET_DATA` with packet id 1000 and payload "hello world"; `SendRequest` of that packet hands
the transport the identical 23 bytes; and every header takes 12 bytes. -/
theorem helloWorld_frame (T : PacketTransforms) :
    helloFrame
        = SFPacketHeader.toBytes
            { packetID := 1000, packetOption := 0, dataCRC := 0, dataSize := 11 } ++ helloWorld
    ∧ helloFrame.length = 23 ∧ helloWorld.length = 11
    ∧ SFPacketProtocol.OnReceive (analyzer T) 2 7 helloFrame sampleServer []
        = Outcome.returns (true, sampleServerAfterHello, [SFPacketProtocol.tag 7 helloPacket])
    ∧ (SFPacketProtocol.tag 7 helloPacket).GetPacketType = ePacketType.SFPACKET_DATA
    ∧ (SFPacketProtocol.tag 7 helloPacket).body.header.packetID = 1000
    ∧ (SFPacketProtocol.tag 7 helloPacket).body.data = helloWorld
    ∧ (SendRequest T sampleServerAfterHello (SFPacketProtocol.tag 7 helloPacket)).2.2.transport
        = [(7, helloFrame)]
    ∧ (∀ h : SFPacketHeader, h.toBytes.length = 12) ∧ HEADER_SIZE = 2 + 4 + 4 + 2 := by
  refine ⟨by decide, by decide, by decide, rfl, rfl, rfl, rfl, ?_, fun _ => rfl, rfl⟩
  simp [SendRequest, SFPacket.Encode, sampleServerAfterHello, sampleServer, construct, Initialize,
    sampleEnv]
  decide

/-! ## Termination of the receive loop with the binary strategy -/

theorem ofBytes_length {l : List Nat} {h : SFPacketHeader} {rest : List Nat}
    (hl : SFPacketHeader.ofBytes l = some (h, rest)) : l.length = rest.length + HEADER_SIZE := by
  unfold SFPacketHeader.ofBytes at hl
  split at hl
  · simp only [Option.some.injEq, Prod.mk.injEq] at hl
    rw [← hl.2]
    simp [HEADER_SIZE]
  · simp at hl

/-- A `GetPacket` call that returns a packet has taken at least a header off the buffer. -/
theorem GetPacket_consumes (T : PacketTransforms) (st : SFCGSFPacketProtocol) (errorCode : Int)
    (p : SFPacket) (e' : Int) (st' : SFCGSFPacketProtocol)
    (h : GetPacket T st errorCode = Outcome.returns (some p, e', st')) :
    st'.m_pPacketIOBuffer.buffered.length + HEADER_SIZE
      ≤ st.m_pPacketIOBuffer.buffered.length := by
  unfold GetPacket at h
  cases ha : st.pool.Alloc with
  | mk op pool1 =>
    rw [ha] at h
    cases op with
    | none => simp at h
    | some p0 =>
      simp only at h
      unfold SFPacketIOBuffer.GetPacket at h
      cases ho : SFPacketHeader.ofBytes st.m_pPacketIOBuffer.buffered with
      | none => rw [ho] at h; simp at h
      | some hr =>
        obtain ⟨hd, rest⟩ := hr
        rw [ho] at h
        have hlen := ofBytes_length ho
        by_cases hc : rest.length < hd.dataSize
        · simp [hc] at h
        · simp only [hc, ↓reduceIte] at h
          cases hdec : SFPacket.Decode T st.maxPacketSize
              (p0.Initialize.setFrame hd (List.take hd.dataSize rest)) errorCode with
          | mk ok r2 =>
            obtain ⟨q, e2⟩ := r2
            rw [hdec] at h
            cases ok with
            | false => simp at h
            | true =>
              simp only [Outcome.returns.injEq, Prod.mk.injEq, Option.some.injEq] at h
              rw [← h.2.2, hlen]
              simp

theorem GetPacket_ne_outOfFuel (T : PacketTransforms) (st : SFCGSFPacketProtocol)
    (errorCode : Int) : GetPacket T st errorCode ≠ Outcome.outOfFuel := by
  unfold GetPacket
  cases st.pool.Alloc with
  | mk op pool1 =>
    cases op with
    | none => simp
    | some p0 =>
      simp only
      cases st.m_pPacketIOBuffer.GetPacket p0.Initialize.GetHeader p0.Initialize.GetData
        errorCode with
      | mk ok rest =>
        obtain ⟨header, data, e1, buf⟩ := rest
        cases ok with
        | false => simp
        | true =>
          simp only
          cases SFPacket.Decode T st.maxPacketSize (p0.Initialize.setFrame header data) e1 with
          | mk ok2 rest2 =>
            obtain ⟨q, e2⟩ := rest2
            cases ok2 <;> simp

/-- With the binary strategy the loop of `OnReceive` is bounded by the bytes buffered: given more
fuel than that, it does not run out of fuel. -/
theorem receiveLoop_terminates (T : PacketTransforms) (Serial : Int) :
    ∀ (fuel : Nat) (st : SFCGSFPacketProtocol) (e : Int) (logic : LogicLayer SFPacketBody),
      st.m_pPacketIOBuffer.buffered.length < fuel →
      SFPacketProtocol.receiveLoop (analyzer T) Serial fuel st e logic ≠ Outcome.outOfFuel := by
  intro fuel
  induction fuel with
  | zero => intro st e logic h; simp at h
  | succ n ih =>
    intro st e logic hlt
    unfold SFPacketProtocol.receiveLoop
    cases hg : (analyzer T).GetPacket st e with
    | nullDeref => simp
    | outOfFuel => exact absurd hg (GetPacket_ne_outOfFuel T st e)
    | returns r =>
      obtain ⟨op, e1, s1⟩ := r
      cases op with
      | none => simp
      | some p =>
        simp only
        have hc := GetPacket_consumes T st e p e1 s1 hg
        apply ih
        simp only [HEADER_SIZE] at hc
        omega

/-- With the binary strategy `OnReceive` is bounded: for every state, connection id and chunk,
given more fuel than the bytes buffered after the chunk was added it returns, unless the pool is
exhausted and the null packet is dereferenced. -/
theorem OnReceive_terminates (T : PacketTransforms) (Serial : Int) (pBuffer : List Nat)
    (st : SFCGSFPacketProtocol) (logic : LogicLayer SFPacketBody) (fuel : Nat)
    (hfuel : (AddTransferredData st pBuffer).2.m_pPacketIOBuffer.buffered.length < fuel) :
    SFPacketProtocol.OnReceive (analyzer T) fuel Serial pBuffer st logic ≠ Outcome.outOfFuel := by
  have hl := receiveLoop_terminates T Serial fuel (AddTransferredData st pBuffer).2
    PACKETIO_ERROR_NONE logic hfuel
  have hadd : (analyzer T).AddTransferredData st pBuffer
      = (true, (AddTransferredData st pBuffer).2) := rfl
  simp only [SFPacketProtocol.OnReceive, hadd]
  cases hr : SFPacketProtocol.receiveLoop (analyzer T) Serial fuel
      (AddTransferredData st pBuffer).2 PACKETIO_ERROR_NONE logic with
  | outOfFuel => exact absurd hr hl
  | nullDeref => simp
  | returns r =>
    obtain ⟨s2, e2, l2⟩ := r
    simp only
    split <;> simp

/-- Witness of the bound: the "hello world" frame on the adapter of `ProtocolServer.cpp`, whose
buffer then holds 23 bytes, with fuel 24. -/
theorem OnReceive_terminates_witness :
    SFPacketProtocol.OnReceive (analyzer sampleTransforms) 24 7 helloFrame sampleServer []
      ≠ Outcome.outOfFuel :=
  OnReceive_terminates sampleTransforms 7 helloFrame sampleServer [] 24 (by decide)

/-! ## The logic thread -/

namespace SFCasualGameDispatcher

variable {α β : Type}

theorem PopPacket_some {q gw : LogicGateway β} {p : BasePacket β}
    (h : q.PopPacket = some (p, gw)) : q.packets = p :: gw.packets := by
  unfold LogicGateway.PopPacket at h
  cases hq : q.packets with
  | nil => rw [hq] at h; simp at h
  | cons a rest =>
    rw [hq] at h
    simp only [Option.some.injEq, Prod.mk.injEq] at h
    rw [← h.1, ← h.2]

theorem PopPacket_cons {q : LogicGateway β} {p : BasePacket β} {rest : List (BasePacket β)}
    (h : q.packets = p :: rest) : q.PopPacket = some (p, { packets := rest }) := by
  simp [LogicGateway.PopPacket, h]

/-- One loop iteration: when the loop test passes and `PopPacket` gives a packet, the thread
appends the events of the iteration; it returns on a shutdown packet, is ended by the assertion on
an unrecognised packet when assertions abort, and goes on with the next loop test otherwise. -/
theorem BusinessThread_step (env : LogicEnv α β) (fuel k : Nat) (s : LogicState α β)
    (p : BasePacket β) (gw : LogicGateway β) (htest : env.ServerTerminated k = false)
    (hpop : s.gateway.PopPacket = some (p, gw)) :
    BusinessThread env (fuel + 1) k s
      = if p.GetPacketType = ePacketType.SFPACKET_SERVERSHUTDOWN then
          (ThreadStop.shutdown,
            { gateway := gw, logic := (env.ProcessPacket s.logic p).2,
              events := s.events ++ iterationEvents p })
        else if p.GetPacketType = ePacketType.SFPACKET_NONE ∧ env.assertAborts = true then
          (ThreadStop.aborted,
            { gateway := gw, logic := (env.ProcessPacket s.logic p).2,
              events := s.events ++ iterationEvents p })
        else BusinessThread env fuel (k + 1)
            { gateway := gw, logic := (env.ProcessPacket s.logic p).2,
              events := s.events ++ iterationEvents p } := by
  rw [BusinessThread]
  simp only [htest, hpop, ↓reduceIte]
  cases hty : p.GetPacketType <;>
    simp [iterationEvents, specDisposal, hty, List.append_assoc]

theorem BusinessThread_test (env : LogicEnv α β) (fuel k : Nat) (s : LogicState α β)
    (htest : env.ServerTerminated k = true) :
    BusinessThread env (fuel + 1) k s = (ThreadStop.serverTerminated, s) := by
  rw [BusinessThread]
  simp [htest]

theorem BusinessThread_waiting (env : LogicEnv α β) (fuel k : Nat) (s : LogicState α β)
    (htest : env.ServerTerminated k = false) (hq : s.gateway.packets = []) :
    BusinessThread env (fuel + 1) k s = (ThreadStop.waiting, s) := by
  rw [BusinessThread]
  simp [htest, LogicGateway.PopPacket, hq]

theorem PopPacket_none {q : LogicGateway β} (h : q.PopPacket = none) : q.packets = [] := by
  unfold LogicGateway.PopPacket at h
  cases hq : q.packets with
  | nil => rfl
  | cons a rest => rw [hq] at h; simp at h

/-- The shape of every run of the logic thread: it has processed an initial part of the queue,
one whole iteration per packet, every loop test before a pop read `FALSE`, and the way it ended
says what came last. -/
theorem BusinessThread_run (env : LogicEnv α β) :
    ∀ (fuel k : Nat) (s : LogicState α β) (stop : ThreadStop) (s' : LogicState α β),
      BusinessThread env fuel k s = (stop, s') →
      ∃ processed : List (BasePacket β),
        s.gateway.packets = processed ++ s'.gateway.packets
        ∧ s'.events = s.events ++ processed.flatMap iterationEvents
        ∧ s'.logic = processAll env s.logic processed
        ∧ (∀ i, i < processed.length → env.ServerTerminated (k + i) = false)
        ∧ (stop = ThreadStop.shutdown →
            ∃ init last, processed = init ++ [last]
              ∧ last.GetPacketType = ePacketType.SFPACKET_SERVERSHUTDOWN)
        ∧ (stop = ThreadStop.serverTerminated →
            env.ServerTerminated (k + processed.length) = true)
        ∧ (stop = ThreadStop.aborted →
            env.assertAborts = true
              ∧ ∃ init last, processed = init ++ [last]
                ∧ last.GetPacketType = ePacketType.SFPACKET_NONE)
        ∧ (stop = ThreadStop.waiting →
            s'.gateway.packets = [] ∧ env.ServerTerminated (k + processed.length) = false)
        ∧ (stop = ThreadStop.outOfFuel → processed.length = fuel) := by
  intro fuel
  induction fuel with
  | zero =>
    intro k s stop s' h
    simp only [BusinessThread, Prod.mk.injEq] at h
    obtain ⟨h1, h2⟩ := h
    subst h1 h2
    exact ⟨[], by simp, by simp, rfl, by simp, by simp, by simp, by simp, by simp, by simp⟩
  | succ n ih =>
    intro k s stop s' h
    cases htest : env.ServerTerminated k with
    | true =>
      rw [BusinessThread_test env n k s htest] at h
      simp only [Prod.mk.injEq] at h
      obtain ⟨h1, h2⟩ := h
      subst h1 h2
      exact ⟨[], by simp, by simp, rfl, by simp, by simp, by simpa using htest, by simp, by simp,
        by simp⟩
    | false =>
      cases hpop : s.gateway.PopPacket with
      | none =>
        have hq := PopPacket_none hpop
        rw [BusinessThread_waiting env n k s htest hq] at h
        simp only [Prod.mk.injEq] at h
        obtain ⟨h1, h2⟩ := h
        subst h1 h2
        exact ⟨[], by simp [hq], by simp, rfl, by simp, by simp, by simp, by simp,
          by simpa using ⟨hq, htest⟩, by simp⟩
      | some pg =>
        obtain ⟨p, gw⟩ := pg
        have hq := PopPacket_some hpop
        rw [BusinessThread_step env n k s p gw htest hpop] at h
        by_cases hsd : p.GetPacketType = ePacketType.SFPACKET_SERVERSHUTDOWN
        · rw [if_pos hsd] at h
          simp only [Prod.mk.injEq] at h
          obtain ⟨h1, h2⟩ := h
          subst h1 h2
          refine ⟨[p], by simp [hq], by simp, rfl, ?_, ?_, by simp, by simp, by simp, by simp⟩
          · intro i hi
            simp only [List.length_singleton, Nat.lt_one_iff] at hi
            subst hi
            simpa using htest
          · intro _
            exact ⟨[], p, rfl, hsd⟩
        · by_cases hab : p.GetPacketType = ePacketType.SFPACKET_NONE ∧ env.assertAborts = true
          · rw [if_neg hsd, if_pos hab] at h
            simp only [Prod.mk.injEq] at h
            obtain ⟨h1, h2⟩ := h
            subst h1 h2
            refine ⟨[p], by simp [hq], by simp, rfl, ?_, by simp, by simp, ?_, by simp, by simp⟩
            · intro i hi
              simp only [List.length_singleton, Nat.lt_one_iff] at hi
              subst hi
              simpa using htest
            · intro _
              exact ⟨hab.2, [], p, rfl, hab.1⟩
          · rw [if_neg hsd, if_neg hab] at h
            obtain ⟨processed, h1, h2, h3, h4, h5, h6, h7, h8, h9⟩ := ih _ _ _ _ h
            simp only at h1 h2 h3
            refine ⟨p :: processed, by simp [hq, h1], by simp [h2], by simp [h3, processAll],
              ?_, ?_, ?_, ?_, ?_, ?_⟩
            · intro i hi
              cases i with
              | zero => simpa using htest
              | succ j =>
                have := h4 j (by simpa using hi)
                rw [← this]
                congr 1
                omega
            · intro hs
              obtain ⟨init, last, hp, hl⟩ := h5 hs
              exact ⟨p :: init, last, by simp [hp], hl⟩
            · intro hs
              have := h6 hs
              rw [← this]
              congr 1
              simp only [List.length_cons]
              omega
            · intro hs
              obtain ⟨ha, init, last, hp, hl⟩ := h7 hs
              exact ⟨ha, p :: init, last, by simp [hp], hl⟩
            · intro hs
              obtain ⟨hg, ht⟩ := h8 hs
              refine ⟨hg, ?_⟩
              rw [← ht]
              congr 1
              simp only [List.length_cons]
              omega
            · intro hs
              simp [h9 hs]

end SFCasualGameDispatcher

/-! ## Disposal by category -/

namespace SFCasualGameDispatcher

variable {α β : Type}

/-- Every event of a loop iteration on the packet `q` is a call on `q`, or the assertion. -/
theorem mem_iterationEvents {e : LogicEvent β} {q : BasePacket β} (h : e ∈ iterationEvents q) :
    e = LogicEvent.PopPacket q ∨ e = LogicEvent.ProcessPacket q ∨ e = LogicEvent.ReleasePacket q
      ∨ e = LogicEvent.deletePacket q ∨ e = LogicEvent.RecallDBMsg q
      ∨ e = LogicEvent.SFASSERT := by
  unfold iterationEvents specDisposal at h
  split at h <;> simp at h <;> tauto

/-- What a run of the logic thread adds to the events are events of iterations on packets that
were queued when it started. -/
theorem BusinessThread_later_events (env : LogicEnv α β) (fuel k : Nat) (s : LogicState α β) :
    ∃ rest, (BusinessThread env fuel k s).2.events = s.events ++ rest
      ∧ ∀ e ∈ rest, ∃ q ∈ s.gateway.packets, e ∈ iterationEvents q := by
  obtain ⟨processed, hq, hev, -⟩ := BusinessThread_run env fuel k s
    (BusinessThread env fuel k s).1 (BusinessThread env fuel k s).2 rfl
  refine ⟨processed.flatMap iterationEvents, hev, ?_⟩
  intro e he
  obtain ⟨q, hqm, heq⟩ := List.mem_flatMap.1 he
  exact ⟨q, by rw [hq]; exact List.mem_append_left _ hqm, heq⟩

/-- One iteration on a packet that is neither the shutdown packet nor unrecognised: with one
unit of fuel the run ends after the iteration, in the state given; with more, what the run adds
to the events starts with the events of this iteration, and the events behind them belong to
iterations on the packets that were queued behind the packet. -/
theorem BusinessThread_iteration (env : LogicEnv α β) (fuel k : Nat) (s : LogicState α β)
    (p : BasePacket β) (gw : LogicGateway β) (htest : env.ServerTerminated k = false)
    (hpop : s.gateway.PopPacket = some (p, gw))
    (hsd : p.GetPacketType ≠ ePacketType.SFPACKET_SERVERSHUTDOWN)
    (hnone : p.GetPacketType ≠ ePacketType.SFPACKET_NONE) :
    BusinessThread env 1 k s
      = (ThreadStop.outOfFuel,
          { gateway := gw, logic := (env.ProcessPacket s.logic p).2,
            events := s.events ++ iterationEvents p })
    ∧ ∃ rest,
        (BusinessThread env (fuel + 1) k s).2.events = s.events ++ iterationEvents p ++ rest
        ∧ ∀ e ∈ rest, ∃ q ∈ gw.packets, e ∈ iterationEvents q := by
  constructor
  · rw [BusinessThread_step env 0 k s p gw htest hpop, if_neg hsd, if_neg (fun h => hnone h.1)]
    rfl
  · rw [BusinessThread_step env fuel k s p gw htest hpop, if_neg hsd,
      if_neg (fun h => hnone h.1)]
    exact BusinessThread_later_events env fuel (k + 1) _

/-- Events behind an iteration do not concern a packet that is not queued any more. -/
theorem later_events_not_of {rest : List (LogicEvent β)} {gw : LogicGateway β}
    (h : ∀ e ∈ rest, ∃ q ∈ gw.packets, e ∈ iterationEvents q) {p : BasePacket β}
    (hp : p ∉ gw.packets) :
    LogicEvent.ProcessPacket p ∉ rest ∧ LogicEvent.ReleasePacket p ∉ rest
      ∧ LogicEvent.deletePacket p ∉ rest ∧ LogicEvent.RecallDBMsg p ∉ rest := by
  refine ⟨?_, ?_, ?_, ?_⟩ <;>
  · intro hmem
    obtain ⟨q, hq, he⟩ := h _ hmem
    rcases mem_iterationEvents he with h1 | h1 | h1 | h1 | h1 | h1 <;> simp at h1
    subst h1
    exact hp hq

/-- C11. When the loop test has passed and the popped packet has category `SFPACKET_DATA`: with
one unit of fuel the thread's run is this one iteration and ends in the state in which the
packet has been popped, passed to `ProcessPacket` and passed to the engine's `ReleasePacket`,
these three events and no other; with more fuel the events the run adds start with these three,
and when the packet is not queued a second time none of the events behind them releases,
deletes, processes or hands to the database callback this packet: it is released exactly once
and neither deleted nor handed to the database callback. -/
theorem BusinessThread_data_released (env : LogicEnv α β) (fuel k : Nat) (s : LogicState α β)
    (p : BasePacket β) (gw : LogicGateway β) (htest : env.ServerTerminated k = false)
    (hpop : s.gateway.PopPacket = some (p, gw))
    (hty : p.GetPacketType = ePacketType.SFPACKET_DATA) :
    BusinessThread env 1 k s
      = (ThreadStop.outOfFuel,
          { gateway := gw, logic := (env.ProcessPacket s.logic p).2,
            events := s.events ++ [LogicEvent.PopPacket p, LogicEvent.ProcessPacket p,
              LogicEvent.ReleasePacket p] })
    ∧ ∃ rest,
        (BusinessThread env (fuel + 1) k s).2.events
          = s.events ++ [LogicEvent.PopPacket p, LogicEvent.ProcessPacket p,
              LogicEvent.ReleasePacket p] ++ rest
        ∧ (p ∉ gw.packets →
            LogicEvent.ProcessPacket p ∉ rest ∧ LogicEvent.ReleasePacket p ∉ rest
            ∧ LogicEvent.deletePacket p ∉ rest ∧ LogicEvent.RecallDBMsg p ∉ rest) := by
  have hit : iterationEvents p = [LogicEvent.PopPacket p, LogicEvent.ProcessPacket p,
      LogicEvent.ReleasePacket p] := by simp [iterationEvents, specDisposal, hty]
  obtain ⟨h1, rest, h2, h3⟩ := BusinessThread_iteration env fuel k s p gw htest hpop
    (by rw [hty]; decide) (by rw [hty]; decide)
  rw [hit] at h1 h2
  exact ⟨h1, rest, h2, later_events_not_of h3⟩

/-- Witness of C11: one `Data` packet queued; the run of one iteration ends with the packet
popped, processed and released. -/
theorem BusinessThread_data_released_witness :
    BusinessThread (sampleLogicEnv false) 1 0
        (sampleLogic [samplePacket ePacketType.SFPACKET_DATA 0])
      = (ThreadStop.outOfFuel,
          { gateway := { packets := [] }, logic := 1,
            events := [] ++ [LogicEvent.PopPacket (samplePacket ePacketType.SFPACKET_DATA 0),
              LogicEvent.ProcessPacket (samplePacket ePacketType.SFPACKET_DATA 0),
              LogicEvent.ReleasePacket (samplePacket ePacketType.SFPACKET_DATA 0)] }) :=
  (BusinessThread_data_released (sampleLogicEnv false) 1 0
    (sampleLogic [samplePacket ePacketType.SFPACKET_DATA 0])
    (samplePacket ePacketType.SFPACKET_DATA 0) { packets := [] } rfl rfl rfl).1

/-- C12. When the loop test has passed and the popped packet has category `SFPACKET_CONNECT`,
`SFPACKET_DISCONNECT`, `SFPACKET_TIMER` or `SFPACKET_SHOUTER`: with one unit of fuel the thread's
run is this one iteration and ends in the state in which the packet has been popped, passed to
`ProcessPacket` and deleted, these three events and no other; with more fuel the events the run
adds start with these three, and when the packet is not queued a second time none of the events
behind them deletes, releases, processes or hands to the database callback this packet: it is
deleted exactly once and not passed to `ReleasePacket`. -/
theorem BusinessThread_control_deleted (env : LogicEnv α β) (fuel k : Nat)
    (s : LogicState α β) (p : BasePacket β) (gw : LogicGateway β)
    (htest : env.ServerTerminated k = false) (hpop : s.gateway.PopPacket = some (p, gw))
    (hty : p.GetPacketType = ePacketType.SFPACKET_CONNECT
      ∨ p.GetPacketType = ePacketType.SFPACKET_DISCONNECT
      ∨ p.GetPacketType = ePacketType.SFPACKET_TIMER
      ∨ p.GetPacketType = ePacketType.SFPACKET_SHOUTER) :
    BusinessThread env 1 k s
      = (ThreadStop.outOfFuel,
          { gateway := gw, logic := (env.ProcessPacket s.logic p).2,
            events := s.events ++ [LogicEvent.PopPacket p, LogicEvent.ProcessPacket p,
              LogicEvent.deletePacket p] })
    ∧ ∃ rest,
        (BusinessThread env (fuel + 1) k s).2.events
          = s.events ++ [LogicEvent.PopPacket p, LogicEvent.ProcessPacket p,
              LogicEvent.deletePacket p] ++ rest
        ∧ (p ∉ gw.packets →
            LogicEvent.ProcessPacket p ∉ rest ∧ LogicEvent.ReleasePacket p ∉ rest
            ∧ LogicEvent.deletePacket p ∉ rest ∧ LogicEvent.RecallDBMsg p ∉ rest) := by
  have hit : iterationEvents p = [LogicEvent.PopPacket p, LogicEvent.ProcessPacket p,
      LogicEvent.deletePacket p] := by
    rcases hty with h | h | h | h <;> simp [iterationEvents, specDisposal, h]
  obtain ⟨h1, rest, h2, h3⟩ := BusinessThread_iteration env fuel k s p gw htest hpop
    (by rcases hty with h | h | h | h <;> rw [h] <;> decide)
    (by rcases hty with h | h | h | h <;> rw [h] <;> decide)
  rw [hit] at h1 h2
  exact ⟨h1, rest, h2, later_events_not_of h3⟩

/-- Witness of C12: one `Timer` packet queued; the run of one iteration ends with the packet
popped, processed and deleted. -/
theorem BusinessThread_control_deleted_witness :
    BusinessThread (sampleLogicEnv false) 1 0
        (sampleLogic [samplePacket ePacketType.SFPACKET_TIMER 0])
      = (ThreadStop.outOfFuel,
          { gateway := { packets := [] }, logic := 1,
            events := [] ++ [LogicEvent.PopPacket (samplePacket ePacketType.SFPACKET_TIMER 0),
              LogicEvent.ProcessPacket (samplePacket ePacketType.SFPACKET_TIMER 0),
              LogicEvent.deletePacket (samplePacket ePacketType.SFPACKET_TIMER 0)] }) :=
  (BusinessThread_control_deleted (sampleLogicEnv false) 1 0
    (sampleLogic [samplePacket ePacketType.SFPACKET_TIMER 0])
    (samplePacket ePacketType.SFPACKET_TIMER 0) { packets := [] } rfl rfl
    (Or.inr (Or.inr (Or.inl rfl)))).1

/-- C13. When the loop test has passed and the popped packet has category `SFPACKET_DB`: with one
unit of fuel the thread's run is this one iteration and ends in the state in which the packet
has been popped, passed to `ProcessPacket` and passed to `SFDatabase::RecallDBMsg`, these three
events and no other; with more fuel the events the run adds start with these three, and when the
packet is not queued a second time none of the events behind them deletes, releases, processes
or hands to the database callback this packet: the thread neither deletes it nor passes it to
`ReleasePacket`. -/
theorem BusinessThread_db_recalled (env : LogicEnv α β) (fuel k : Nat) (s : LogicState α β)
    (p : BasePacket β) (gw : LogicGateway β) (htest : env.ServerTerminated k = false)
    (hpop : s.gateway.PopPacket = some (p, gw))
    (hty : p.GetPacketType = ePacketType.SFPACKET_DB) :
    BusinessThread env 1 k s
      = (ThreadStop.outOfFuel,
          { gateway := gw, logic := (env.ProcessPacket s.logic p).2,
            events := s.events ++ [LogicEvent.PopPacket p, LogicEvent.ProcessPacket p,
              LogicEvent.RecallDBMsg p] })
    ∧ ∃ rest,
        (BusinessThread env (fuel + 1) k s).2.events
          = s.events ++ [LogicEvent.PopPacket p, LogicEvent.ProcessPacket p,
              LogicEvent.RecallDBMsg p] ++ rest
        ∧ (p ∉ gw.packets →
            LogicEvent.ProcessPacket p ∉ rest ∧ LogicEvent.ReleasePacket p ∉ rest
            ∧ LogicEvent.deletePacket p ∉ rest ∧ LogicEvent.RecallDBMsg p ∉ rest) := by
  have hit : iterationEvents p = [LogicEvent.PopPacket p, LogicEvent.ProcessPacket p,
      LogicEvent.RecallDBMsg p] := by simp [iterationEvents, specDisposal, hty]
  obtain ⟨h1, rest, h2, h3⟩ := BusinessThread_iteration env fuel k s p gw htest hpop
    (by rw [hty]; decide) (by rw [hty]; decide)
  rw [hit] at h1 h2
  exact ⟨h1, rest, h2, later_events_not_of h3⟩

/-- Witness of C13: one `DBResult` packet queued; the run of one iteration ends with the packet
popped, processed and handed to `RecallDBMsg`. -/
theorem BusinessThread_db_recalled_witness :
    BusinessThread (sampleLogicEnv false) 1 0
        (sampleLogic [samplePacket ePacketType.SFPACKET_DB 0])
      = (ThreadStop.outOfFuel,
          { gateway := { packets := [] }, logic := 1,
            events := [] ++ [LogicEvent.PopPacket (samplePacket ePacketType.SFPACKET_DB 0),
              LogicEvent.ProcessPacket (samplePacket ePacketType.SFPACKET_DB 0),
              LogicEvent.RecallDBMsg (samplePacket ePacketType.SFPACKET_DB 0)] }) :=
  (BusinessThread_db_recalled (sampleLogicEnv false) 1 0
    (sampleLogic [samplePacket ePacketType.SFPACKET_DB 0])
    (samplePacket ePacketType.SFPACKET_DB 0) { packets := [] } rfl rfl rfl).1

/-- C14. When the loop test has passed and the popped packet has category
`SFPACKET_SERVERSHUTDOWN`, the thread passes it to `ProcessPacket` and returns, whatever fuel is
left: the queue stays as the pop left it, so no further packet is popped, and the events of the
iteration are the pop and the `ProcessPacket` call only: the sentinel is neither deleted nor
released nor handed to the database callback. -/
theorem BusinessThread_shutdown_returns (env : LogicEnv α β) (fuel k : Nat)
    (s : LogicState α β) (p : BasePacket β) (gw : LogicGateway β)
    (htest : env.ServerTerminated k = false) (hpop : s.gateway.PopPacket = some (p, gw))
    (hty : p.GetPacketType = ePacketType.SFPACKET_SERVERSHUTDOWN) :
    BusinessThread env (fuel + 1) k s
      = (ThreadStop.shutdown,
          { gateway := gw, logic := (env.ProcessPacket s.logic p).2,
            events := s.events ++ [LogicEvent.PopPacket p, LogicEvent.ProcessPacket p] })
    ∧ popCalls [LogicEvent.PopPacket p, LogicEvent.ProcessPacket p] = [p]
    ∧ disposedPackets [LogicEvent.PopPacket p, LogicEvent.ProcessPacket p] = [] := by
  refine ⟨?_, rfl, rfl⟩
  rw [BusinessThread_step env fuel k s p gw htest hpop]
  simp [hty, iterationEvents, specDisposal]

/-- Witness of C14: a shutdown packet queued before a `Data` packet, which stays queued. -/
theorem BusinessThread_shutdown_returns_witness :
    BusinessThread (sampleLogicEnv false) (4 + 1) 0
        (sampleLogic [samplePacket ePacketType.SFPACKET_SERVERSHUTDOWN 0,
          samplePacket ePacketType.SFPACKET_DATA 1])
      = (ThreadStop.shutdown,
          { gateway := { packets := [samplePacket ePacketType.SFPACKET_DATA 1] }, logic := 1,
            events := [] ++ [LogicEvent.PopPacket (samplePacket ePacketType.SFPACKET_SERVERSHUTDOWN 0),
              LogicEvent.ProcessPacket (samplePacket ePacketType.SFPACKET_SERVERSHUTDOWN 0)] }) :=
  (BusinessThread_shutdown_returns (sampleLogicEnv false) 4 0
    (sampleLogic [samplePacket ePacketType.SFPACKET_SERVERSHUTDOWN 0,
      samplePacket ePacketType.SFPACKET_DATA 1])
    (samplePacket ePacketType.SFPACKET_SERVERSHUTDOWN 0)
    { packets := [samplePacket ePacketType.SFPACKET_DATA 1] } rfl rfl rfl).1

end SFCasualGameDispatcher

/-! ## Runs of the logic thread -/

theorem processCalls_append {β : Type} (a b : List (LogicEvent β)) :
    processCalls (a ++ b) = processCalls a ++ processCalls b := by
  induction a with
  | nil => rfl
  | cons e es ih => cases e <;> simp [processCalls, ih]

theorem disposedPackets_append {β : Type} (a b : List (LogicEvent β)) :
    disposedPackets (a ++ b) = disposedPackets a ++ disposedPackets b := by
  induction a with
  | nil => rfl
  | cons e es ih => cases e <;> simp [disposedPackets, ih]

theorem popCalls_append {β : Type} (a b : List (LogicEvent β)) :
    popCalls (a ++ b) = popCalls a ++ popCalls b := by
  induction a with
  | nil => rfl
  | cons e es ih => cases e <;> simp [popCalls, ih]

theorem processCalls_iterationEvents {β : Type} (p : BasePacket β) :
    processCalls (iterationEvents p) = [p] := by
  unfold iterationEvents specDisposal
  cases p.GetPacketType <;> simp [processCalls]

theorem popCalls_iterationEvents {β : Type} (p : BasePacket β) :
    popCalls (iterationEvents p) = [p] := by
  unfold iterationEvents specDisposal
  cases p.GetPacketType <;> simp [popCalls]

theorem disposedPackets_iterationEvents {β : Type} (p : BasePacket β)
    (h : isRegular p = true) : disposedPackets (iterationEvents p) = [p] := by
  unfold isRegular at h
  unfold iterationEvents specDisposal
  cases hty : p.GetPacketType <;> simp [disposedPackets, hty] at h ⊢

theorem processCalls_flatMap {β : Type} (ps : List (BasePacket β)) :
    processCalls (ps.flatMap iterationEvents) = ps := by
  induction ps with
  | nil => rfl
  | cons p ps ih =>
    simp [List.flatMap_cons, processCalls_append, processCalls_iterationEvents, ih]

theorem popCalls_flatMap {β : Type} (ps : List (BasePacket β)) :
    popCalls (ps.flatMap iterationEvents) = ps := by
  induction ps with
  | nil => rfl
  | cons p ps ih =>
    simp [List.flatMap_cons, popCalls_append, popCalls_iterationEvents, ih]

theorem disposedPackets_flatMap {β : Type} (ps : List (BasePacket β))
    (h : ∀ p ∈ ps, isRegular p = true) : disposedPackets (ps.flatMap iterationEvents) = ps := by
  induction ps with
  | nil => rfl
  | cons p ps ih =>
    simp only [List.flatMap_cons, disposedPackets_append]
    rw [disposedPackets_iterationEvents p (h p (List.mem_cons_self _ _)),
      ih (fun q hq => h q (List.mem_cons_of_mem _ hq))]
    rfl

theorem iterationEvents_shutdown {β : Type} (p : BasePacket β)
    (h : p.GetPacketType = ePacketType.SFPACKET_SERVERSHUTDOWN) :
    iterationEvents p = [LogicEvent.PopPacket p, LogicEvent.ProcessPacket p] := by
  simp [iterationEvents, specDisposal, h]

theorem iterationEvents_none {β : Type} (p : BasePacket β)
    (h : p.GetPacketType = ePacketType.SFPACKET_NONE) :
    iterationEvents p
      = [LogicEvent.PopPacket p, LogicEvent.ProcessPacket p, LogicEvent.SFASSERT] := by
  simp [iterationEvents, specDisposal, h]

namespace SFCasualGameDispatcher

variable {α β : Type}

theorem foldl_Dispatch (ps : List (BasePacket β)) :
    ∀ s : LogicState α β,
      (ps.foldl Dispatch s).gateway.packets = s.gateway.packets ++ ps
      ∧ (ps.foldl Dispatch s).events = s.events ∧ (ps.foldl Dispatch s).logic = s.logic := by
  induction ps with
  | nil => intro s; simp
  | cons p ps ih =>
    intro s
    obtain ⟨h1, h2, h3⟩ := ih (Dispatch s p)
    simp only [List.foldl_cons, h1, h2, h3]
    simp [Dispatch, LogicGateway.PushPacket]

/-- With regular packets queued in front of a shutdown packet and `ServerTerminated()` reading
`FALSE` at the loop tests it takes, the thread runs one whole iteration per packet and returns
on the shutdown packet. -/
theorem BusinessThread_regular_then_shutdown (env : LogicEnv α β) (sd : BasePacket β)
    (more : List (BasePacket β))
    (hsd : sd.GetPacketType = ePacketType.SFPACKET_SERVERSHUTDOWN) :
    ∀ (regs : List (BasePacket β)) (fuel k : Nat) (s : LogicState α β),
      s.gateway.packets = regs ++ sd :: more → (∀ p ∈ regs, isRegular p = true) →
      (∀ i, i ≤ regs.length → env.ServerTerminated (k + i) = false) → regs.length < fuel →
      BusinessThread env fuel k s
        = (ThreadStop.shutdown,
            { gateway := { packets := more }
              logic := processAll env s.logic (regs ++ [sd])
              events := s.events ++ (regs ++ [sd]).flatMap iterationEvents }) := by
  intro regs
  induction regs with
  | nil =>
    intro fuel k s hq _ htest hfuel
    cases fuel with
    | zero => simp at hfuel
    | succ n =>
      rw [BusinessThread_step env n k s sd { packets := more } (by simpa using htest 0)
        (PopPacket_cons (by simpa using hq)), if_pos hsd]
      simp [processAll]
  | cons p regs ih =>
    intro fuel k s hq hreg htest hfuel
    cases fuel with
    | zero => simp at hfuel
    | succ n =>
      have hp := hreg p (List.mem_cons_self _ _)
      unfold isRegular at hp
      simp only [bne_iff_ne, ne_eq, Bool.and_eq_true] at hp
      rw [BusinessThread_step env n k s p { packets := regs ++ sd :: more }
        (by simpa using htest 0 (Nat.zero_le _)) (PopPacket_cons (by simpa using hq)),
        if_neg hp.1, if_neg (fun h => hp.2 h.1),
        ih n (k + 1) _ rfl (fun q hq => hreg q (List.mem_cons_of_mem _ hq))
          (fun i hi => by
            have := htest (i + 1) (by simpa using hi)
            rw [← this]; congr 1; omega)
          (by simpa using hfuel)]
      simp [processAll, List.append_assoc]

/-- With `ServerTerminated()` reading `FALSE` at every loop test and no assertion ending the
process, the thread works through the queue up to and including the first shutdown packet, and
then has returned, or it has worked through the whole queue and waits. -/
theorem BusinessThread_upto (env : LogicEnv α β) :
    ∀ (ps : List (BasePacket β)) (fuel k : Nat) (s : LogicState α β),
      s.gateway.packets = ps → (∀ i, i ≤ ps.length → env.ServerTerminated (k + i) = false) →
      (env.assertAborts = false ∨ ∀ p ∈ ps, p.GetPacketType ≠ ePacketType.SFPACKET_NONE) →
      ps.length < fuel →
      ∃ stop s', BusinessThread env fuel k s = (stop, s')
        ∧ (stop = ThreadStop.shutdown ∨ stop = ThreadStop.waiting)
        ∧ s'.events = s.events ++ (uptoFirstShutdown ps).flatMap iterationEvents := by
  intro ps
  induction ps with
  | nil =>
    intro fuel k s hq htest _ hfuel
    cases fuel with
    | zero => simp at hfuel
    | succ n =>
      exact ⟨_, _, BusinessThread_waiting env n k s (by simpa using htest 0) hq, Or.inr rfl,
        by simp [uptoFirstShutdown]⟩
  | cons p ps ih =>
    intro fuel k s hq htest hab hfuel
    cases fuel with
    | zero => simp at hfuel
    | succ n =>
      have hstep := BusinessThread_step env n k s p { packets := ps }
        (by simpa using htest 0 (Nat.zero_le _)) (PopPacket_cons hq)
      by_cases hsd : p.GetPacketType = ePacketType.SFPACKET_SERVERSHUTDOWN
      · rw [if_pos hsd] at hstep
        exact ⟨_, _, hstep, Or.inl rfl, by simp [uptoFirstShutdown, hsd]⟩
      · have hno : ¬ (p.GetPacketType = ePacketType.SFPACKET_NONE ∧ env.assertAborts = true) := by
          rintro ⟨h1, h2⟩
          rcases hab with h | h
          · rw [h] at h2; simp at h2
          · exact h p (List.mem_cons_self _ _) h1
        rw [if_neg hsd, if_neg hno] at hstep
        obtain ⟨stop, s', hrun, hstop, hev⟩ := ih n (k + 1)
          { gateway := { packets := ps }, logic := (env.ProcessPacket s.logic p).2,
            events := s.events ++ iterationEvents p } rfl
          (fun i hi => by
            have := htest (i + 1) (by simpa using hi)
            rw [← this]; congr 1; omega)
          (hab.imp id (fun h q hq => h q (List.mem_cons_of_mem _ hq)))
          (by simpa using hfuel)
        refine ⟨stop, s', by rw [hstep, hrun], hstop, ?_⟩
        simp [hev, uptoFirstShutdown, hsd, List.append_assoc]

end SFCasualGameDispatcher

namespace SFCasualGameDispatcher

variable {α β : Type}

/-- C15, as amended. In every run of `BusinessThread`: when the thread has returned on a
shutdown packet, the last thing it did was to pop and process a packet of category
`SFPACKET_SERVERSHUTDOWN`; when it has left the loop at the loop test, `ServerTerminated()` did
not return `FALSE` at that test, and did at every test before; a failed assertion ends the run
only when assertions abort, right after an unrecognised packet; a waiting thread has an empty
queue. So when `ServerTerminated()` returns `FALSE` throughout and assertions do not abort,
popping a shutdown packet is the only way the thread terminates. -/
theorem BusinessThread_leaves_loop (env : LogicEnv α β) (fuel k : Nat) (s : LogicState α β)
    (stop : ThreadStop) (s' : LogicState α β)
    (h : BusinessThread env fuel k s = (stop, s')) :
    (stop = ThreadStop.shutdown →
      ∃ evs p, s'.events = evs ++ [LogicEvent.PopPacket p, LogicEvent.ProcessPacket p]
        ∧ p.GetPacketType = ePacketType.SFPACKET_SERVERSHUTDOWN)
    ∧ (stop = ThreadStop.serverTerminated →
        ∃ j, k ≤ j ∧ env.ServerTerminated j = true
          ∧ ∀ i, k ≤ i → i < j → env.ServerTerminated i = false)
    ∧ (stop = ThreadStop.aborted →
        env.assertAborts = true
          ∧ ∃ evs p, s'.events = evs ++ [LogicEvent.PopPacket p, LogicEvent.ProcessPacket p,
              LogicEvent.SFASSERT]
            ∧ p.GetPacketType = ePacketType.SFPACKET_NONE)
    ∧ (stop = ThreadStop.waiting → s'.gateway.packets = [])
    ∧ ((∀ j, env.ServerTerminated j = false) → env.assertAborts = false →
        stop = ThreadStop.shutdown ∨ stop = ThreadStop.waiting ∨ stop = ThreadStop.outOfFuel) := by
  obtain ⟨processed, _, hev, _, htests, hsd, hst, hab, hw, _⟩ :=
    BusinessThread_run env fuel k s stop s' h
  refine ⟨?_, ?_, ?_, fun hs => (hw hs).1, ?_⟩
  · intro hs
    obtain ⟨init, last, hp, hl⟩ := hsd hs
    refine ⟨s.events ++ init.flatMap iterationEvents, last, ?_, hl⟩
    rw [hev, hp]
    simp [iterationEvents_shutdown last hl, List.append_assoc]
  · intro hs
    refine ⟨k + processed.length, Nat.le_add_right _ _, hst hs, ?_⟩
    intro i hki hij
    have := htests (i - k) (by omega)
    rw [← this]
    congr 1
    omega
  · intro hs
    obtain ⟨ha, init, last, hp, hl⟩ := hab hs
    refine ⟨ha, s.events ++ init.flatMap iterationEvents, last, ?_, hl⟩
    rw [hev, hp]
    simp [iterationEvents_none last hl, List.append_assoc]
  · intro hall hno
    cases stop with
    | shutdown => exact Or.inl rfl
    | waiting => exact Or.inr (Or.inl rfl)
    | outOfFuel => exact Or.inr (Or.inr rfl)
    | serverTerminated =>
      have := hst rfl
      rw [hall] at this
      simp at this
    | aborted =>
      have := (hab rfl).1
      rw [hno] at this
      simp at this

/-- Witness of C15: a `Data` packet and a shutdown packet queued, `ServerTerminated()` always
`FALSE`: the thread returns right after popping the shutdown packet. -/
theorem BusinessThread_leaves_loop_witness :
      ∃ evs p,
        ([LogicEvent.PopPacket (samplePacket ePacketType.SFPACKET_DATA 0),
          LogicEvent.ProcessPacket (samplePacket ePacketType.SFPACKET_DATA 0),
          LogicEvent.ReleasePacket (samplePacket ePacketType.SFPACKET_DATA 0),
          LogicEvent.PopPacket (samplePacket ePacketType.SFPACKET_SERVERSHUTDOWN 1),
          LogicEvent.ProcessPacket (samplePacket ePacketType.SFPACKET_SERVERSHUTDOWN 1)]
            : List (LogicEvent SFPacketBody))
          = evs ++ [LogicEvent.PopPacket p, LogicEvent.ProcessPacket p]
        ∧ p.GetPacketType = ePacketType.SFPACKET_SERVERSHUTDOWN :=
  (BusinessThread_leaves_loop (sampleLogicEnv false) 5 0
    (sampleLogic [samplePacket ePacketType.SFPACKET_DATA 0,
      samplePacket ePacketType.SFPACKET_SERVERSHUTDOWN 1])
    ThreadStop.shutdown
    { gateway := { packets := [] }, logic := 2,
      events := [LogicEvent.PopPacket (samplePacket ePacketType.SFPACKET_DATA 0),
        LogicEvent.ProcessPacket (samplePacket ePacketType.SFPACKET_DATA 0),
        LogicEvent.ReleasePacket (samplePacket ePacketType.SFPACKET_DATA 0),
        LogicEvent.PopPacket (samplePacket ePacketType.SFPACKET_SERVERSHUTDOWN 1),
        LogicEvent.ProcessPacket (samplePacket ePacketType.SFPACKET_SERVERSHUTDOWN 1)] }
    (by decide)).1 rfl

/-- Counterexample to C15 as stated: with `ServerTerminated()` returning `TRUE` at the second
loop test, the thread leaves its loop after one `Data` packet; it has popped no shutdown packet,
and a packet is still queued. -/
theorem BusinessThread_leaves_loop_counterexample :
    BusinessThread stoppingLogicEnv 5 0
        (sampleLogic [samplePacket ePacketType.SFPACKET_DATA 0,
          samplePacket ePacketType.SFPACKET_DATA 1])
      = (ThreadStop.serverTerminated,
          { gateway := { packets := [samplePacket ePacketType.SFPACKET_DATA 1] }, logic := 1,
            events := [LogicEvent.PopPacket (samplePacket ePacketType.SFPACKET_DATA 0),
              LogicEvent.ProcessPacket (samplePacket ePacketType.SFPACKET_DATA 0),
              LogicEvent.ReleasePacket (samplePacket ePacketType.SFPACKET_DATA 0)] })
    ∧ (samplePacket ePacketType.SFPACKET_DATA 0).GetPacketType
        ≠ ePacketType.SFPACKET_SERVERSHUTDOWN := by
  decide

/-- C16, as amended. Shutdown scenario. Let the packets dispatched onto the empty queue be `N`
regular packets, then a shutdown packet, then any others, and let `ServerTerminated()` return
`FALSE` at the `N + 1` loop tests the thread takes. Then a single logic thread returns on the
shutdown packet, having passed the `N` regular packets and then the shutdown packet to
`ProcessPacket`, in order, and having disposed of each regular packet, once and in order, before
it popped the shutdown packet; what was dispatched behind the shutdown packet stays queued. -/
theorem shutdown_after_regular_packets (env : LogicEnv α β) (s0 : LogicState α β)
    (regs : List (BasePacket β)) (sd : BasePacket β) (more : List (BasePacket β))
    (fuel k : Nat) (hempty : s0.gateway.packets = [])
    (hreg : ∀ p ∈ regs, isRegular p = true)
    (hsd : sd.GetPacketType = ePacketType.SFPACKET_SERVERSHUTDOWN)
    (htest : ∀ i, i ≤ regs.length → env.ServerTerminated (k + i) = false)
    (hfuel : regs.length < fuel) :
    BusinessThread env fuel k ((regs ++ sd :: more).foldl Dispatch s0)
      = (ThreadStop.shutdown,
          { gateway := { packets := more }
            logic := processAll env s0.logic (regs ++ [sd])
            events := s0.events ++ regs.flatMap iterationEvents
              ++ [LogicEvent.PopPacket sd, LogicEvent.ProcessPacket sd] })
    ∧ processCalls (regs.flatMap iterationEvents
        ++ [LogicEvent.PopPacket sd, LogicEvent.ProcessPacket sd]) = regs ++ [sd]
    ∧ disposedPackets (regs.flatMap iterationEvents) = regs
    ∧ disposedPackets [LogicEvent.PopPacket sd, LogicEvent.ProcessPacket sd] = [] := by
  obtain ⟨hq, hev, hlog⟩ := foldl_Dispatch (regs ++ sd :: more) s0
  refine ⟨?_, ?_, disposedPackets_flatMap regs hreg, rfl⟩
  · rw [BusinessThread_regular_then_shutdown env sd more hsd regs fuel k _
      (by rw [hq, hempty]; rfl) hreg htest hfuel, hev, hlog]
    simp [iterationEvents_shutdown sd hsd, List.append_assoc]
  · rw [processCalls_append, processCalls_flatMap]
    rfl

/-- Witness of C16: a `Data` and a `Timer` packet, then the shutdown packet. -/
theorem shutdown_after_regular_packets_witness :
    BusinessThread (sampleLogicEnv false) 3 0
        (([samplePacket ePacketType.SFPACKET_DATA 0, samplePacket ePacketType.SFPACKET_TIMER 1]
            ++ samplePacket ePacketType.SFPACKET_SERVERSHUTDOWN 2 :: []).foldl Dispatch
          (sampleLogic []))
      = (ThreadStop.shutdown,
          { gateway := { packets := [] }
            logic := processAll (sampleLogicEnv false) (sampleLogic []).logic
              ([samplePacket ePacketType.SFPACKET_DATA 0,
                  samplePacket ePacketType.SFPACKET_TIMER 1]
                ++ [samplePacket ePacketType.SFPACKET_SERVERSHUTDOWN 2])
            events := (sampleLogic []).events
              ++ [samplePacket ePacketType.SFPACKET_DATA 0,
                  samplePacket ePacketType.SFPACKET_TIMER 1].flatMap iterationEvents
              ++ [LogicEvent.PopPacket (samplePacket ePacketType.SFPACKET_SERVERSHUTDOWN 2),
                  LogicEvent.ProcessPacket (samplePacket ePacketType.SFPACKET_SERVERSHUTDOWN 2)] }) :=
  (shutdown_after_regular_packets (sampleLogicEnv false) (sampleLogic [])
    [samplePacket ePacketType.SFPACKET_DATA 0, samplePacket ePacketType.SFPACKET_TIMER 1]
    (samplePacket ePacketType.SFPACKET_SERVERSHUTDOWN 2) [] 3 0 rfl (by decide) rfl
    (fun _ _ => rfl) (by decide)).1

/-- Counterexample to C16 as stated: two `Data` packets and then a shutdown packet are
dispatched; `ServerTerminated()` returns `TRUE` at the second loop test, and the thread
terminates having processed the first packet only. -/
theorem shutdown_after_regular_packets_counterexample :
    BusinessThread stoppingLogicEnv 5 0
        ([samplePacket ePacketType.SFPACKET_DATA 0, samplePacket ePacketType.SFPACKET_DATA 1,
          samplePacket ePacketType.SFPACKET_SERVERSHUTDOWN 2].foldl Dispatch (sampleLogic []))
      = (ThreadStop.serverTerminated,
          { gateway := { packets := [samplePacket ePacketType.SFPACKET_DATA 1,
              samplePacket ePacketType.SFPACKET_SERVERSHUTDOWN 2] }
            logic := 1
            events := [LogicEvent.PopPacket (samplePacket ePacketType.SFPACKET_DATA 0),
              LogicEvent.ProcessPacket (samplePacket ePacketType.SFPACKET_DATA 0),
              LogicEvent.ReleasePacket (samplePacket ePacketType.SFPACKET_DATA 0)] })
    ∧ processCalls [LogicEvent.PopPacket (samplePacket ePacketType.SFPACKET_DATA 0),
        LogicEvent.ProcessPacket (samplePacket ePacketType.SFPACKET_DATA 0),
        LogicEvent.ReleasePacket (samplePacket ePacketType.SFPACKET_DATA 0)]
      = [samplePacket ePacketType.SFPACKET_DATA 0] := by
  decide

/-- C17, as amended. Ordering. Let the packets `ps` be passed to `Dispatch` in order, onto the
empty queue, and a single logic thread run. Whenever the run ends, the packets passed to
`ProcessPacket`, in call order, are an initial part of `ps`, the rest of `ps` being still queued:
no packet is processed twice or out of order. When `ServerTerminated()` returns `FALSE` at every
loop test, no failed assertion ends the process and there is a unit of fuel per iteration, the
packets processed are exactly `ps` up to and including its first shutdown packet (all of `ps`
when it has none, the thread then waiting). -/
theorem ProcessPacket_in_Dispatch_order (env : LogicEnv α β) (s0 : LogicState α β)
    (ps : List (BasePacket β)) (fuel k : Nat) (hempty : s0.gateway.packets = []) :
    (∀ stop s', BusinessThread env fuel k (ps.foldl Dispatch s0) = (stop, s') →
      ∃ processed, ps = processed ++ s'.gateway.packets
        ∧ processCalls s'.events = processCalls s0.events ++ processed
        ∧ popCalls s'.events = popCalls s0.events ++ processed)
    ∧ ((∀ i, i ≤ ps.length → env.ServerTerminated (k + i) = false) →
        (env.assertAborts = false ∨ ∀ p ∈ ps, p.GetPacketType ≠ ePacketType.SFPACKET_NONE) →
        ps.length < fuel →
        ∃ stop s', BusinessThread env fuel k (ps.foldl Dispatch s0) = (stop, s')
          ∧ (stop = ThreadStop.shutdown ∨ stop = ThreadStop.waiting)
          ∧ processCalls s'.events = processCalls s0.events ++ uptoFirstShutdown ps) := by
  obtain ⟨hq, hev, _⟩ := foldl_Dispatch ps s0
  rw [hempty, List.nil_append] at hq
  constructor
  · intro stop s' h
    obtain ⟨processed, h1, h2, _⟩ := BusinessThread_run env fuel k _ stop s' h
    refine ⟨processed, by rw [← h1, hq], ?_, ?_⟩
    · rw [h2, hev, processCalls_append, processCalls_flatMap]
    · rw [h2, hev, popCalls_append, popCalls_flatMap]
  · intro htest hab hfuel
    obtain ⟨stop, s', hrun, hstop, hevs⟩ := BusinessThread_upto env ps fuel k _ hq htest hab hfuel
    exact ⟨stop, s', hrun, hstop, by
      rw [hevs, hev, processCalls_append, processCalls_flatMap]⟩

/-- Witness of C17: three `Data` packets A, B, C dispatched in this order are processed in this
order. -/
theorem ProcessPacket_in_Dispatch_order_witness :
    ∃ stop s',
      BusinessThread (sampleLogicEnv false) 4 0
          ([samplePacket ePacketType.SFPACKET_DATA 0, samplePacket ePacketType.SFPACKET_DATA 1,
            samplePacket ePacketType.SFPACKET_DATA 2].foldl Dispatch (sampleLogic []))
        = (stop, s')
      ∧ (stop = ThreadStop.shutdown ∨ stop = ThreadStop.waiting)
      ∧ processCalls s'.events
        = processCalls (sampleLogic []).events
          ++ uptoFirstShutdown [samplePacket ePacketType.SFPACKET_DATA 0,
              samplePacket ePacketType.SFPACKET_DATA 1,
              samplePacket ePacketType.SFPACKET_DATA 2] :=
  (ProcessPacket_in_Dispatch_order (sampleLogicEnv false) (sampleLogic [])
    [samplePacket ePacketType.SFPACKET_DATA 0, samplePacket ePacketType.SFPACKET_DATA 1,
      samplePacket ePacketType.SFPACKET_DATA 2] 4 0 rfl).2
    (fun _ _ => rfl) (Or.inl rfl) (by decide)

/-- Counterexample to C17 as stated: three `Data` packets A, B, C are dispatched in this order;
`ServerTerminated()` returns `TRUE` at the second loop test and the thread terminates after A:
the `ProcessPacket` calls are A alone, not the dispatched sequence A, B, C. -/
theorem ProcessPacket_in_Dispatch_order_counterexample :
    (BusinessThread stoppingLogicEnv 5 0
        ([samplePacket ePacketType.SFPACKET_DATA 0, samplePacket ePacketType.SFPACKET_DATA 1,
          samplePacket ePacketType.SFPACKET_DATA 2].foldl Dispatch (sampleLogic []))).1
      = ThreadStop.serverTerminated
    ∧ processCalls (BusinessThread stoppingLogicEnv 5 0
        ([samplePacket ePacketType.SFPACKET_DATA 0, samplePacket ePacketType.SFPACKET_DATA 1,
          samplePacket ePacketType.SFPACKET_DATA 2].foldl Dispatch (sampleLogic []))).2.events
      = [samplePacket ePacketType.SFPACKET_DATA 0]
    ∧ uptoFirstShutdown [samplePacket ePacketType.SFPACKET_DATA 0,
        samplePacket ePacketType.SFPACKET_DATA 1, samplePacket ePacketType.SFPACKET_DATA 2]
      = [samplePacket ePacketType.SFPACKET_DATA 0, samplePacket ePacketType.SFPACKET_DATA 1,
          samplePacket ePacketType.SFPACKET_DATA 2] := by
  decide

/-- C18, as amended. When the loop test has passed and the popped packet's type is none of the
seven categories, the thread passes it to `ProcessPacket` and reaches `SFASSERT(0)`; it neither
deletes nor releases the packet nor hands it to the database callback. Nothing in
`BusinessThread` stops the loop there: when the failed assertion ends the process, no further
packet is popped; when it does not, the thread goes on with the next loop test. -/
theorem BusinessThread_unrecognised (env : LogicEnv α β) (fuel k : Nat) (s : LogicState α β)
    (p : BasePacket β) (gw : LogicGateway β) (htest : env.ServerTerminated k = false)
    (hpop : s.gateway.PopPacket = some (p, gw))
    (hty : p.GetPacketType = ePacketType.SFPACKET_NONE) :
    (env.assertAborts = true →
      BusinessThread env (fuel + 1) k s
        = (ThreadStop.aborted,
            { gateway := gw, logic := (env.ProcessPacket s.logic p).2,
              events := s.events ++ [LogicEvent.PopPacket p, LogicEvent.ProcessPacket p,
                LogicEvent.SFASSERT] }))
    ∧ (env.assertAborts = false →
        BusinessThread env (fuel + 1) k s
          = BusinessThread env fuel (k + 1)
              { gateway := gw, logic := (env.ProcessPacket s.logic p).2,
                events := s.events ++ [LogicEvent.PopPacket p, LogicEvent.ProcessPacket p,
                  LogicEvent.SFASSERT] })
    ∧ disposedPackets [LogicEvent.PopPacket p, LogicEvent.ProcessPacket p,
        LogicEvent.SFASSERT] = [] := by
  have hstep := BusinessThread_step env fuel k s p gw htest hpop
  rw [if_neg (by rw [hty]; decide), iterationEvents_none p hty] at hstep
  refine ⟨?_, ?_, rfl⟩
  · intro ha
    rw [hstep, if_pos ⟨hty, ha⟩]
  · intro ha
    rw [hstep, if_neg (by rw [ha]; simp)]

/-- Witness of C18: with assertions that abort, an unrecognised packet queued before a `Data`
packet ends the run at the assertion; the `Data` packet stays queued. -/
theorem BusinessThread_unrecognised_witness :
    BusinessThread (sampleLogicEnv true) (4 + 1) 0
        (sampleLogic [samplePacket ePacketType.SFPACKET_NONE 0,
          samplePacket ePacketType.SFPACKET_DATA 1])
      = (ThreadStop.aborted,
          { gateway := { packets := [samplePacket ePacketType.SFPACKET_DATA 1] }, logic := 1,
            events := [] ++ [LogicEvent.PopPacket (samplePacket ePacketType.SFPACKET_NONE 0),
              LogicEvent.ProcessPacket (samplePacket ePacketType.SFPACKET_NONE 0),
              LogicEvent.SFASSERT] }) :=
  (BusinessThread_unrecognised (sampleLogicEnv true) 4 0
    (sampleLogic [samplePacket ePacketType.SFPACKET_NONE 0,
      samplePacket ePacketType.SFPACKET_DATA 1])
    (samplePacket ePacketType.SFPACKET_NONE 0)
    { packets := [samplePacket ePacketType.SFPACKET_DATA 1] } rfl rfl rfl).1 rfl

/-- Counterexample to C18 as stated: with assertions compiled out, the thread reaches
`SFASSERT(0)` on the unrecognised packet and then pops, processes and releases the `Data` packet
queued behind it. -/
theorem BusinessThread_unrecognised_counterexample :
    BusinessThread (sampleLogicEnv false) 5 0
        (sampleLogic [samplePacket ePacketType.SFPACKET_NONE 0,
          samplePacket ePacketType.SFPACKET_DATA 1])
      = (ThreadStop.waiting,
          { gateway := { packets := [] }, logic := 2,
            events := [LogicEvent.PopPacket (samplePacket ePacketType.SFPACKET_NONE 0),
              LogicEvent.ProcessPacket (samplePacket ePacketType.SFPACKET_NONE 0),
              LogicEvent.SFASSERT,
              LogicEvent.PopPacket (samplePacket ePacketType.SFPACKET_DATA 1),
              LogicEvent.ProcessPacket (samplePacket ePacketType.SFPACKET_DATA 1),
              LogicEvent.ReleasePacket (samplePacket ePacketType.SFPACKET_DATA 1)] }) := by
  decide

end SFCasualGameDispatcher

/-! ## Error codes and option flags -/

/-- C19. The five frame-level error codes of `SFConstant.h` are pairwise distinct and each
differs from `PACKETIO_ERROR_NONE`: the code determines the kind of failure. And whenever the
`GetPacket` call that ends the loop of `OnReceive` leaves one of these codes, `OnReceive`
returns `false`, for every strategy. -/
theorem error_codes_distinct :
    Function.Injective FrameFailure.errorCode
    ∧ (∀ kind : FrameFailure, kind.errorCode ≠ PACKETIO_ERROR_NONE)
    ∧ [PACKETIO_ERROR_NONE, PACKETIO_ERROR_HEADER, PACKETIO_ERROR_DATA, PACKETIO_ERROR_DATA_CRC,
        PACKETIO_ERROR_DATA_COMPRESS, PACKETIO_ERROR_DATA_ENCRYPTION].Nodup
    ∧ ∀ (σ β : Type) (A : Analyzer σ β) (Serial : Int) (pBuffer : List Nat) (s s1 : σ)
        (logic : LogicLayer β) (ps : List (BasePacket β)) (s' : σ) (kind : FrameFailure)
        (fuel : Nat),
        A.AddTransferredData s pBuffer = (true, s1) →
        SFPacketProtocol.GetPacketRun A s1 PACKETIO_ERROR_NONE ps s' kind.errorCode →
        ps.length < fuel →
        SFPacketProtocol.OnReceive A fuel Serial pBuffer s logic
          = Outcome.returns (false, s', logic ++ ps.map (SFPacketProtocol.tag Serial)) := by
  refine ⟨?_, ?_, by decide, ?_⟩
  · intro a b h
    cases a <;> cases b <;> first | rfl | (exact absurd h (by decide))
  · intro kind
    cases kind <;> decide
  · intro σ β A Serial pBuffer s s1 logic ps s' kind fuel hadd hrun hfuel
    rw [SFPacketProtocol.OnReceive_of_run Serial logic hadd hrun hfuel]
    have hne : kind.errorCode ≠ PACKETIO_ERROR_NONE := by cases kind <;> decide
    simp [hne]

/-- Witness of C19: the frame whose checksum does not match leaves `PACKETIO_ERROR_DATA_CRC`, and
`OnReceive` returns `false`. -/
theorem error_codes_distinct_witness :
    SFPacketProtocol.OnReceive (analyzer sampleTransforms) 2 7 badCrcFrame sampleServer []
      = Outcome.returns (false,
          { sampleServer with
            pool := { free := [(SFPacket.blank 0).setFrame
                        { packetID := 1000, packetOption := 1, dataCRC := 0, dataSize := 11 }
                        helloWorld, SFPacket.blank 1],
                      checkedOut := [],
                      calls := [PoolCall.alloc 0, PoolCall.release 0] } },
          [] ++ ([] : List SFPacket).map (SFPacketProtocol.tag 7)) :=
  error_codes_distinct.2.2.2 SFCGSFPacketProtocol SFPacketBody (analyzer sampleTransforms) 7
    badCrcFrame sampleServer (AddTransferredData sampleServer badCrcFrame).2 [] [] _
    FrameFailure.dataCrc 2 (by decide)
    (@SFPacketProtocol.GetPacketRun.null _ _ _ _ PACKETIO_ERROR_NONE
      { sampleServer with
        pool := { free := [(SFPacket.blank 0).setFrame
                    { packetID := 1000, packetOption := 1, dataCRC := 0, dataSize := 11 }
                    helloWorld, SFPacket.blank 1],
                  checkedOut := [],
                  calls := [PoolCall.alloc 0, PoolCall.release 0] } }
      FrameFailure.dataCrc.errorCode (by decide))
    (by decide)

theorem or_eq_zero (x y : Nat) : x ||| y = 0 ↔ x = 0 ∧ y = 0 := by
  constructor
  · intro h
    have hx : ∀ i, (x ||| y).testBit i = false := by intro i; rw [h]; simp
    constructor
    · apply Nat.eq_of_testBit_eq
      intro i
      have := hx i
      rw [Nat.testBit_or, Bool.or_eq_false_iff] at this
      simp [this.1]
    · apply Nat.eq_of_testBit_eq
      intro i
      have := hx i
      rw [Nat.testBit_or, Bool.or_eq_false_iff] at this
      simp [this.2]
  · rintro ⟨rfl, rfl⟩
    rfl

theorem flag_and_flag :
    ∀ a ∈ packetOptionFlags, ∀ f ∈ packetOptionFlags, (a &&& f ≠ 0 ↔ f = a) := by
  decide

/-- C20. The five option flags of `SFConstant.h` are the powers of two `2^0` to `2^4`, five
distinct single-bit values; so for every collection `S` of these flags and every flag `f`, the
bitwise OR of `S` has the bit of `f` set if and only if `f` is in `S`. -/
theorem option_flags_independent :
    packetOptionFlags = [2 ^ 0, 2 ^ 1, 2 ^ 2, 2 ^ 3, 2 ^ 4]
    ∧ packetOptionFlags.Nodup
    ∧ ∀ S : List Nat, (∀ x ∈ S, x ∈ packetOptionFlags) →
        ∀ f ∈ packetOptionFlags, (orFlags S &&& f ≠ 0 ↔ f ∈ S) := by
  refine ⟨by decide, by decide, ?_⟩
  intro S
  induction S with
  | nil =>
    intro _ f _
    simp [orFlags]
  | cons a S ih =>
    intro hS f hf
    have ha : a ∈ packetOptionFlags := hS a (List.mem_cons_self _ _)
    have ih' := ih (fun x hx => hS x (List.mem_cons_of_mem _ hx)) f hf
    have hfold : orFlags (a :: S) = a ||| orFlags S := rfl
    rw [hfold, Nat.and_distrib_right, ne_eq, or_eq_zero, not_and_or, List.mem_cons]
    exact or_congr (flag_and_flag a ha f hf) ih'

/-- Witness of C20: the option word with the checksum and encryption flags set has exactly these
two bits of the five. -/
theorem option_flags_independent_witness :
    (orFlags [PACKET_OPTION_DATACRC, PACKET_OPTION_ENCRYPTION] &&& PACKET_OPTION_COMPRESS ≠ 0
      ↔ PACKET_OPTION_COMPRESS ∈ [PACKET_OPTION_DATACRC, PACKET_OPTION_ENCRYPTION])
    ∧ (orFlags [PACKET_OPTION_DATACRC, PACKET_OPTION_ENCRYPTION] &&& PACKET_OPTION_ENCRYPTION ≠ 0
      ↔ PACKET_OPTION_ENCRYPTION ∈ [PACKET_OPTION_DATACRC, PACKET_OPTION_ENCRYPTION]) :=
  ⟨option_flags_independent.2.2 [PACKET_OPTION_DATACRC, PACKET_OPTION_ENCRYPTION] (by decide)
      PACKET_OPTION_COMPRESS (by decide),
    option_flags_independent.2.2 [PACKET_OPTION_DATACRC, PACKET_OPTION_ENCRYPTION] (by decide)
      PACKET_OPTION_ENCRYPTION (by decide)⟩

/-! ## The clamp of the two-argument constructor -/

namespace SFPacketProtocol

variable {σ β : Type}

theorem clampSizes_of_nonneg (bufferIOSize : Int) (packetDataSize : Nat)
    (hio : 0 ≤ bufferIOSize) :
    (clampSizes bufferIOSize packetDataSize).1 = min bufferIOSize MAX_IO_SIZE
    ∧ ((clampSizes bufferIOSize packetDataSize).2 : Int)
        = min (min (packetDataSize : Int) (MAX_PACKET_SIZE : Int)) (min bufferIOSize MAX_IO_SIZE) := by
  unfold clampSizes toUSHORT MAX_IO_SIZE MAX_PACKET_SIZE
  simp only
  split_ifs <;> constructor <;> omega

theorem clampSizes_within (bufferIOSize : Int) (packetDataSize : Nat)
    (h1 : (packetDataSize : Int) ≤ bufferIOSize) (h2 : bufferIOSize ≤ MAX_IO_SIZE)
    (h3 : packetDataSize ≤ MAX_PACKET_SIZE) :
    clampSizes bufferIOSize packetDataSize = (bufferIOSize, packetDataSize) := by
  unfold clampSizes
  unfold MAX_IO_SIZE at h2
  unfold MAX_PACKET_SIZE at h3
  have e1 : ¬ bufferIOSize > 16384 := by omega
  have e2 : ¬ packetDataSize > 8192 := by omega
  have e3 : ¬ (packetDataSize : Int) > bufferIOSize := by omega
  simp only [MAX_IO_SIZE, MAX_PACKET_SIZE, e1, e2, e3, if_false]

/-- C28. For every `bufferIOSize >= 0` and every `packetDataSize`, the two-argument constructor
stores `m_ioSize = min(bufferIOSize, MAX_IO_SIZE)` and
`m_packetSize = min(packetDataSize, MAX_PACKET_SIZE, m_ioSize)` and initialises the strategy with
these two values; a request with `packetDataSize <= bufferIOSize <= MAX_IO_SIZE` and
`packetDataSize <= MAX_PACKET_SIZE` is stored unchanged; and the clamp applied to the stored
values gives the stored values again. -/
theorem construct2_clamps_by_min (S : Strategy σ β) (env : σ) (bufferIOSize : Int)
    (packetDataSize : Nat) (hio : 0 ≤ bufferIOSize) :
    (construct2 S env bufferIOSize packetDataSize).m_ioSize = min bufferIOSize MAX_IO_SIZE
    ∧ ((construct2 S env bufferIOSize packetDataSize).m_packetSize : Int)
        = min (min (packetDataSize : Int) (MAX_PACKET_SIZE : Int)) (min bufferIOSize MAX_IO_SIZE)
    ∧ (construct2 S env bufferIOSize packetDataSize).m_Analyzer
        = (S.Initialize env (construct2 S env bufferIOSize packetDataSize).m_ioSize
            (construct2 S env bufferIOSize packetDataSize).m_packetSize).2
    ∧ ((packetDataSize : Int) ≤ bufferIOSize → bufferIOSize ≤ MAX_IO_SIZE →
        packetDataSize ≤ MAX_PACKET_SIZE →
        (construct2 S env bufferIOSize packetDataSize).m_ioSize = bufferIOSize
        ∧ (construct2 S env bufferIOSize packetDataSize).m_packetSize = packetDataSize)
    ∧ clampSizes (clampSizes bufferIOSize packetDataSize).1
          (clampSizes bufferIOSize packetDataSize).2
        = clampSizes bufferIOSize packetDataSize
    ∧ construct2 S env (construct2 S env bufferIOSize packetDataSize).m_ioSize
          (construct2 S env bufferIOSize packetDataSize).m_packetSize
        = construct2 S env bufferIOSize packetDataSize := by
  obtain ⟨hA, hB⟩ := clampSizes_of_nonneg bufferIOSize packetDataSize hio
  have hidem : clampSizes (clampSizes bufferIOSize packetDataSize).1
      (clampSizes bufferIOSize packetDataSize).2 = clampSizes bufferIOSize packetDataSize := by
    apply clampSizes_within
    · rw [hB, hA]; exact min_le_right _ _
    · rw [hA]; exact min_le_right _ _
    · have h : ((clampSizes bufferIOSize packetDataSize).2 : Int) ≤ (MAX_PACKET_SIZE : Int) := by
        rw [hB]; exact le_trans (min_le_left _ _) (min_le_right _ _)
      exact_mod_cast h
  refine ⟨hA, hB, rfl, ?_, hidem, ?_⟩
  · intro h1 h2 h3
    have h := clampSizes_within bufferIOSize packetDataSize h1 h2 h3
    simp only [construct2, h, and_self]
  · show construct2 S env (clampSizes bufferIOSize packetDataSize).1
      (clampSizes bufferIOSize packetDataSize).2 = construct2 S env bufferIOSize packetDataSize
    simp only [construct2, hidem]

end SFPacketProtocol

/-- Witness of C28: the request `(20000, 9000)` is stored as `(16384, 8192)`, and the request
`(100, 50)` is stored unchanged. -/
theorem construct2_clamps_by_min_witness :
    (SFPacketProtocol.construct2 (SFCGSFPacketProtocol.strategy sampleTransforms) (sampleEnv 2)
        20000 9000).m_ioSize = 16384
    ∧ ((SFPacketProtocol.construct2 (SFCGSFPacketProtocol.strategy sampleTransforms) (sampleEnv 2)
        20000 9000).m_packetSize : Int) = 8192
    ∧ (SFPacketProtocol.construct2 (SFCGSFPacketProtocol.strategy sampleTransforms) (sampleEnv 2)
        100 50).m_ioSize = 100
    ∧ (SFPacketProtocol.construct2 (SFCGSFPacketProtocol.strategy sampleTransforms) (sampleEnv 2)
        100 50).m_packetSize = 50 :=
  ⟨(SFPacketProtocol.construct2_clamps_by_min (SFCGSFPacketProtocol.strategy sampleTransforms)
      (sampleEnv 2) 20000 9000 (by decide)).1.trans (by decide),
    (SFPacketProtocol.construct2_clamps_by_min (SFCGSFPacketProtocol.strategy sampleTransforms)
      (sampleEnv 2) 20000 9000 (by decide)).2.1.trans (by decide),
    ((SFPacketProtocol.construct2_clamps_by_min (SFCGSFPacketProtocol.strategy sampleTransforms)
      (sampleEnv 2) 100 50 (by decide)).2.2.2.1 (by decide) (by decide) (by decide)).1,
    ((SFPacketProtocol.construct2_clamps_by_min (SFCGSFPacketProtocol.strategy sampleTransforms)
      (sampleEnv 2) 100 50 (by decide)).2.2.2.1 (by decide) (by decide) (by decide)).2⟩

/-! ## A failing frame behind well-formed ones -/

namespace SFPacketProtocol

variable {σ β : Type}

/-- With at most as much fuel as packets are returned before the first `NULL`, the loop is cut
short: each of these calls, and the one that returns `NULL`, takes a unit of fuel. -/
theorem receiveLoop_short_of_run {A : Analyzer σ β} (Serial : Int) {s : σ} {e : Int}
    {ps : List (BasePacket β)} {s' : σ} {e' : Int} (h : GetPacketRun A s e ps s' e') :
    ∀ (fuel : Nat) (logic : LogicLayer β), fuel ≤ ps.length →
      receiveLoop A Serial fuel s e logic = Outcome.outOfFuel := by
  induction h with
  | null h =>
    intro fuel logic hf
    have h0 : fuel = 0 := by simpa using hf
    subst h0
    simp [receiveLoop]
  | packet h _ ih =>
    intro fuel logic hf
    cases fuel with
    | zero => simp [receiveLoop]
    | succ n =>
      simp only [receiveLoop, h]
      exact ih n _ (by simpa using hf)

/-- C29. For every strategy: when `AddTransferredData` succeeds, the successive `GetPacket` calls
return the `k` packets `ps` and then `NULL`, and the error code this last call leaves is not
`PACKETIO_ERROR_NONE`, then `OnReceive` returns `false`, has handed exactly the `k` packets to
`SendLogicLayer`, tagged and in order, behind what the logic layer held, and leaves the strategy
in the state the failing call left; it makes exactly `k + 1` calls of `GetPacket` (it returns with
`k + 1` units of fuel and with any larger amount, and does not with fewer), so none after the
failing one. -/
theorem OnReceive_failure_keeps_earlier_packets (A : Analyzer σ β) (Serial : Int)
    (pBuffer : List Nat) (s s1 s' : σ) (logic : LogicLayer β) (ps : List (BasePacket β))
    (e' : Int) (hadd : A.AddTransferredData s pBuffer = (true, s1))
    (hrun : GetPacketRun A s1 PACKETIO_ERROR_NONE ps s' e')
    (herr : e' ≠ PACKETIO_ERROR_NONE) :
    (∀ fuel, ps.length < fuel →
      OnReceive A fuel Serial pBuffer s logic
        = Outcome.returns (false, s', logic ++ ps.map (tag Serial)))
    ∧ (∀ fuel, fuel ≤ ps.length →
      OnReceive A fuel Serial pBuffer s logic = Outcome.outOfFuel) := by
  constructor
  · intro fuel hf
    rw [OnReceive_of_run Serial logic hadd hrun hf]
    simp [herr]
  · intro fuel hf
    simp only [OnReceive, hadd, receiveLoop_short_of_run Serial hrun fuel logic hf]

end SFPacketProtocol

/-- Witness of C29: the adapter of `ProtocolServer.cpp` receives, on connection 7, the "hello
world" frame followed by the same frame with the checksum flag set and a checksum that does not
match: the first packet is forwarded, the call returns `false` after two `GetPacket` calls. -/
theorem OnReceive_failure_keeps_earlier_packets_witness :
    SFPacketProtocol.OnReceive (SFCGSFPacketProtocol.analyzer sampleTransforms) 2 7
        (helloFrame ++ badCrcFrame) sampleServer []
      = Outcome.returns (false, sampleServerAfterBadCrc,
          [] ++ [helloPacket].map (SFPacketProtocol.tag 7))
    ∧ SFPacketProtocol.OnReceive (SFCGSFPacketProtocol.analyzer sampleTransforms) 1 7
        (helloFrame ++ badCrcFrame) sampleServer [] = Outcome.outOfFuel :=
  ⟨(SFPacketProtocol.OnReceive_failure_keeps_earlier_packets
      (SFCGSFPacketProtocol.analyzer sampleTransforms) 7 (helloFrame ++ badCrcFrame) sampleServer
      (SFCGSFPacketProtocol.AddTransferredData sampleServer (helloFrame ++ badCrcFrame)).2
      sampleServerAfterBadCrc [] [helloPacket] PACKETIO_ERROR_DATA_CRC (by decide)
      (@SFPacketProtocol.GetPacketRun.packet _ _ _ _ _ helloPacket sampleServerBadCrcLeft
        PACKETIO_ERROR_NONE [] _ _ (by decide)
        (@SFPacketProtocol.GetPacketRun.null _ _ _ sampleServerBadCrcLeft PACKETIO_ERROR_NONE
          sampleServerAfterBadCrc PACKETIO_ERROR_DATA_CRC (by decide)))
      (by decide)).1 2 (by decide),
    (SFPacketProtocol.OnReceive_failure_keeps_earlier_packets
      (SFCGSFPacketProtocol.analyzer sampleTransforms) 7 (helloFrame ++ badCrcFrame) sampleServer
      (SFCGSFPacketProtocol.AddTransferredData sampleServer (helloFrame ++ badCrcFrame)).2
      sampleServerAfterBadCrc [] [helloPacket] PACKETIO_ERROR_DATA_CRC (by decide)
      (@SFPacketProtocol.GetPacketRun.packet _ _ _ _ _ helloPacket sampleServerBadCrcLeft
        PACKETIO_ERROR_NONE [] _ _ (by decide)
        (@SFPacketProtocol.GetPacketRun.null _ _ _ sampleServerBadCrcLeft PACKETIO_ERROR_NONE
          sampleServerAfterBadCrc PACKETIO_ERROR_DATA_CRC (by decide)))
      (by decide)).2 1 (by decide)⟩

/-! ## Database responses re-injected into the dispatch queue -/

namespace SFCasualGameDispatcher

variable {α β : Type}

/-- With regular packets only in the queue and `ServerTerminated()` reading `FALSE` at the loop
tests it takes, the thread runs one whole iteration per packet and then waits in `PopPacket` on
the empty queue. -/
theorem BusinessThread_regular_then_waiting (env : LogicEnv α β) :
    ∀ (regs : List (BasePacket β)) (fuel k : Nat) (s : LogicState α β),
      s.gateway.packets = regs → (∀ p ∈ regs, isRegular p = true) →
      (∀ i, i ≤ regs.length → env.ServerTerminated (k + i) = false) → regs.length < fuel →
      BusinessThread env fuel k s
        = (ThreadStop.waiting,
            { gateway := { packets := [] }
              logic := processAll env s.logic regs
              events := s.events ++ regs.flatMap iterationEvents }) := by
  intro regs
  induction regs with
  | nil =>
    intro fuel k s hq _ htest hfuel
    cases fuel with
    | zero => simp at hfuel
    | succ n =>
      rw [BusinessThread_waiting env n k s (by simpa using htest 0) hq]
      cases s with
      | mk gateway logic events =>
        cases gateway with
        | mk packets =>
          simp only at hq
          subst hq
          simp [processAll]
  | cons p regs ih =>
    intro fuel k s hq hreg htest hfuel
    cases fuel with
    | zero => simp at hfuel
    | succ n =>
      have hp := hreg p (List.mem_cons_self _ _)
      unfold isRegular at hp
      simp only [bne_iff_ne, ne_eq, Bool.and_eq_true] at hp
      rw [BusinessThread_step env n k s p { packets := regs }
        (by simpa using htest 0 (Nat.zero_le _)) (PopPacket_cons (by simpa using hq)),
        if_neg hp.1, if_neg (fun h => hp.2 h.1),
        ih n (k + 1) _ rfl (fun q hq => hreg q (List.mem_cons_of_mem _ hq))
          (fun i hi => by
            have := htest (i + 1) (by simpa using hi)
            rw [← this]; congr 1; omega)
          (by simpa using hfuel)]
      simp [processAll, List.append_assoc]

end SFCasualGameDispatcher

namespace SFSendDBRequest

variable {α β : Type}

/-- C22. `SendToLogic` does what `Dispatch` does with the packet whose type has been set to
`SFPACKET_DB`: it puts exactly that one packet behind the packets of the dispatch queue the logic
thread pops from and changes nothing else; the packet pushed has type `SFPACKET_DB` whatever its
type was, and is otherwise the packet given. When the packets queued before it are regular ones
and `ServerTerminated()` reads `FALSE` at the loop tests, the logic thread works through them,
pops the packet, passes it to `ProcessPacket` and then to `SFDatabase::RecallDBMsg`, and waits
on the empty queue: the packet is neither deleted nor passed to `ReleasePacket`. -/
theorem SendToLogic_reinjects_as_DB (env : LogicEnv α β) (s : LogicState α β)
    (pMessage : BasePacket β) (fuel k : Nat)
    (hreg : ∀ p ∈ s.gateway.packets, isRegular p = true)
    (htest : ∀ i, i ≤ s.gateway.packets.length + 1 → env.ServerTerminated (k + i) = false)
    (hfuel : s.gateway.packets.length + 1 < fuel) :
    SendToLogic s pMessage
        = SFCasualGameDispatcher.Dispatch s (pMessage.SetPacketType ePacketType.SFPACKET_DB)
    ∧ (SendToLogic s pMessage).gateway.packets
        = s.gateway.packets ++ [pMessage.SetPacketType ePacketType.SFPACKET_DB]
    ∧ (SendToLogic s pMessage).logic = s.logic
    ∧ (SendToLogic s pMessage).events = s.events
    ∧ (pMessage.SetPacketType ePacketType.SFPACKET_DB).GetPacketType = ePacketType.SFPACKET_DB
    ∧ (pMessage.SetPacketType ePacketType.SFPACKET_DB).GetOwnerSerial = pMessage.GetOwnerSerial
    ∧ (pMessage.SetPacketType ePacketType.SFPACKET_DB).body = pMessage.body
    ∧ SFCasualGameDispatcher.BusinessThread env fuel k (SendToLogic s pMessage)
        = (ThreadStop.waiting,
            { gateway := { packets := [] }
              logic := processAll env s.logic
                (s.gateway.packets ++ [pMessage.SetPacketType ePacketType.SFPACKET_DB])
              events := s.events ++ s.gateway.packets.flatMap iterationEvents
                ++ [LogicEvent.PopPacket (pMessage.SetPacketType ePacketType.SFPACKET_DB),
                    LogicEvent.ProcessPacket (pMessage.SetPacketType ePacketType.SFPACKET_DB),
                    LogicEvent.RecallDBMsg (pMessage.SetPacketType ePacketType.SFPACKET_DB)] }) := by
  have hq : (SendToLogic s pMessage).gateway.packets
      = s.gateway.packets ++ [pMessage.SetPacketType ePacketType.SFPACKET_DB] := rfl
  refine ⟨rfl, hq, rfl, rfl, rfl, rfl, rfl, ?_⟩
  rw [SFCasualGameDispatcher.BusinessThread_regular_then_waiting env
    (s.gateway.packets ++ [pMessage.SetPacketType ePacketType.SFPACKET_DB]) fuel k
    (SendToLogic s pMessage) hq
    (by
      intro p hp
      rcases List.mem_append.1 hp with h | h
      · exact hreg p h
      · rw [List.mem_singleton.1 h]; rfl)
    (by
      intro i hi
      exact htest i (by simpa using hi))
    (by simpa using hfuel)]
  have hev : iterationEvents (pMessage.SetPacketType ePacketType.SFPACKET_DB)
      = [LogicEvent.PopPacket (pMessage.SetPacketType ePacketType.SFPACKET_DB),
          LogicEvent.ProcessPacket (pMessage.SetPacketType ePacketType.SFPACKET_DB),
          LogicEvent.RecallDBMsg (pMessage.SetPacketType ePacketType.SFPACKET_DB)] := rfl
  simp only [List.flatMap_append, List.flatMap_cons, List.flatMap_nil, List.append_nil, hev,
    List.append_assoc]
  rfl

end SFSendDBRequest

/-- Witness of C22: a timer packet is queued; a packet that arrives as a data packet is given to
`SendToLogic`; the logic thread deletes the timer packet and hands the other packet, now of type
`SFPACKET_DB`, to `RecallDBMsg`. -/
theorem SendToLogic_reinjects_as_DB_witness :
    SFCasualGameDispatcher.BusinessThread (sampleLogicEnv false) 3 0
        (SFSendDBRequest.SendToLogic (sampleLogic [samplePacket ePacketType.SFPACKET_TIMER 0])
          (samplePacket ePacketType.SFPACKET_DATA 1))
      = (ThreadStop.waiting,
          { gateway := { packets := [] }
            logic := 2
            events :=
              [LogicEvent.PopPacket (samplePacket ePacketType.SFPACKET_TIMER 0),
               LogicEvent.ProcessPacket (samplePacket ePacketType.SFPACKET_TIMER 0),
               LogicEvent.deletePacket (samplePacket ePacketType.SFPACKET_TIMER 0),
               LogicEvent.PopPacket (samplePacket ePacketType.SFPACKET_DB 1),
               LogicEvent.ProcessPacket (samplePacket ePacketType.SFPACKET_DB 1),
               LogicEvent.RecallDBMsg (samplePacket ePacketType.SFPACKET_DB 1)] }) :=
  (SFSendDBRequest.SendToLogic_reinjects_as_DB (sampleLogicEnv false)
    (sampleLogic [samplePacket ePacketType.SFPACKET_TIMER 0])
    (samplePacket ePacketType.SFPACKET_DATA 1) 3 0 (by decide) (fun _ _ => rfl)
    (by decide)).2.2.2.2.2.2.2.trans (by decide)

/-! ## The session map of the receivers -/

theorem SessionMap.find_erase_self (m : SessionMap) (key : Int) :
    SessionMap.find (SessionMap.erase m key) key = none := by
  induction m with
  | nil => rfl
  | cons e m ih =>
    obtain ⟨k, d⟩ := e
    by_cases hk : k = key
    · have : SessionMap.erase ((k, d) :: m) key = SessionMap.erase m key := by
        simp [SessionMap.erase, hk]
      rw [this]; exact ih
    · have : SessionMap.erase ((k, d) :: m) key = (k, d) :: SessionMap.erase m key := by
        simp [SessionMap.erase, hk]
      rw [this]
      simp only [SessionMap.find, hk, if_false]
      exact ih

theorem SessionMap.find_erase_of_ne (m : SessionMap) {key k : Int} (h : k ≠ key) :
    SessionMap.find (SessionMap.erase m key) k = SessionMap.find m k := by
  induction m with
  | nil => rfl
  | cons e m ih =>
    obtain ⟨j, d⟩ := e
    by_cases hj : j = key
    · have h1 : SessionMap.erase ((j, d) :: m) key = SessionMap.erase m key := by
        simp [SessionMap.erase, hj]
      have h2 : ¬ j = k := fun hjk => h (hjk ▸ hj)
      rw [h1, ih]
      simp only [SessionMap.find, h2, if_false]
    · have h1 : SessionMap.erase ((j, d) :: m) key = (j, d) :: SessionMap.erase m key := by
        simp [SessionMap.erase, hj]
      rw [h1]
      simp only [SessionMap.find, ih]

theorem SessionMap.mem_erase (m : SessionMap) (key : Int) (e : Int × ASSOCKDESCEX) :
    e ∈ SessionMap.erase m key ↔ e ∈ m ∧ e.1 ≠ key := by
  simp [SessionMap.erase]

theorem SessionMap.find_eq_none (m : SessionMap) (key : Int) :
    SessionMap.find m key = none ↔ ∀ e ∈ m, e.1 ≠ key := by
  induction m with
  | nil => simp [SessionMap.find]
  | cons e m ih =>
    obtain ⟨k, d⟩ := e
    by_cases hk : k = key
    · simp [SessionMap.find, hk]
    · simp [SessionMap.find, hk, ih]

theorem SessionMap.erase_of_find_none (m : SessionMap) (key : Int)
    (h : SessionMap.find m key = none) : SessionMap.erase m key = m := by
  rw [SessionMap.find_eq_none] at h
  unfold SessionMap.erase
  rw [List.filter_eq_self]
  intro e he
  simpa using h e he

theorem MGClientReceiver.notifyMessage_eq :
    MGClientReceiver.notifyMessage = MGServerReceiver.notifyMessage := rfl

theorem MGClientReceiver.Disconnect_eq :
    MGClientReceiver.Disconnect = MGServerReceiver.Disconnect := rfl

theorem MGClientReceiver.SendInternal_eq :
    MGClientReceiver.SendInternal = MGServerReceiver.SendInternal := rfl

theorem MGServerReceiver.Disconnect_absent (r : MGReceiver) (Serial : Int)
    (h : SessionMap.find r.m_SessionMap Serial = none) :
    MGServerReceiver.Disconnect r Serial = (false, r) := by
  simp [MGServerReceiver.Disconnect, h]

theorem MGServerReceiver.Disconnect_present (r : MGReceiver) (Serial : Int)
    (desc : ASSOCKDESCEX) (h : SessionMap.find r.m_SessionMap Serial = some desc) :
    MGServerReceiver.Disconnect r Serial
      = (true, { m_SessionMap := SessionMap.erase r.m_SessionMap Serial
                 released := r.released ++ [(desc.psender, Serial)]
                 posted := r.posted }) := by
  simp [MGServerReceiver.Disconnect, h]

theorem MGServerReceiver.find_after_Disconnect (r : MGReceiver) (Serial : Int) :
    SessionMap.find (MGServerReceiver.Disconnect r Serial).2.m_SessionMap Serial = none := by
  cases h : SessionMap.find r.m_SessionMap Serial with
  | none => rw [MGServerReceiver.Disconnect_absent r Serial h]; exact h
  | some desc =>
    rw [MGServerReceiver.Disconnect_present r Serial desc h]
    exact SessionMap.find_erase_self _ _

/-- C23. For the server receiver and for the client receiver: when `ISession::OnReceive` has
returned `false`, `notifyMessage` erases the id of that socket from the session map, so that the
id has no entry afterwards while every other id has the entry it had and the entries left are
exactly the earlier ones of other ids, asks the socket's sender once to release that id, and
posts nothing; when `OnReceive` has returned `true` it changes nothing. -/
theorem notifyMessage_closes_failing_connection_only (r : MGReceiver)
    (sockdesc : ASSOCKDESCEX) :
    (SessionMap.find (MGServerReceiver.notifyMessage false r sockdesc).m_SessionMap
        sockdesc.assockUid = none
      ∧ (∀ k, k ≠ sockdesc.assockUid →
          SessionMap.find (MGServerReceiver.notifyMessage false r sockdesc).m_SessionMap k
            = SessionMap.find r.m_SessionMap k)
      ∧ (∀ e, e ∈ (MGServerReceiver.notifyMessage false r sockdesc).m_SessionMap
          ↔ e ∈ r.m_SessionMap ∧ e.1 ≠ sockdesc.assockUid)
      ∧ (MGServerReceiver.notifyMessage false r sockdesc).released
          = r.released ++ [(sockdesc.psender, sockdesc.assockUid)]
      ∧ (MGServerReceiver.notifyMessage false r sockdesc).posted = r.posted
      ∧ MGServerReceiver.notifyMessage true r sockdesc = r)
    ∧ (SessionMap.find (MGClientReceiver.notifyMessage false r sockdesc).m_SessionMap
        sockdesc.assockUid = none
      ∧ (∀ k, k ≠ sockdesc.assockUid →
          SessionMap.find (MGClientReceiver.notifyMessage false r sockdesc).m_SessionMap k
            = SessionMap.find r.m_SessionMap k)
      ∧ (∀ e, e ∈ (MGClientReceiver.notifyMessage false r sockdesc).m_SessionMap
          ↔ e ∈ r.m_SessionMap ∧ e.1 ≠ sockdesc.assockUid)
      ∧ (MGClientReceiver.notifyMessage false r sockdesc).released
          = r.released ++ [(sockdesc.psender, sockdesc.assockUid)]
      ∧ (MGClientReceiver.notifyMessage false r sockdesc).posted = r.posted
      ∧ MGClientReceiver.notifyMessage true r sockdesc = r) := by
  have hs : SessionMap.find (MGServerReceiver.notifyMessage false r sockdesc).m_SessionMap
        sockdesc.assockUid = none
      ∧ (∀ k, k ≠ sockdesc.assockUid →
          SessionMap.find (MGServerReceiver.notifyMessage false r sockdesc).m_SessionMap k
            = SessionMap.find r.m_SessionMap k)
      ∧ (∀ e, e ∈ (MGServerReceiver.notifyMessage false r sockdesc).m_SessionMap
          ↔ e ∈ r.m_SessionMap ∧ e.1 ≠ sockdesc.assockUid)
      ∧ (MGServerReceiver.notifyMessage false r sockdesc).released
          = r.released ++ [(sockdesc.psender, sockdesc.assockUid)]
      ∧ (MGServerReceiver.notifyMessage false r sockdesc).posted = r.posted
      ∧ MGServerReceiver.notifyMessage true r sockdesc = r :=
    ⟨SessionMap.find_erase_self _ _, fun k hk => SessionMap.find_erase_of_ne _ hk,
      fun e => SessionMap.mem_erase _ _ e, rfl, rfl, rfl⟩
  refine ⟨hs, ?_⟩
  rw [MGClientReceiver.notifyMessage_eq]
  exact hs

/-- Witness of C23: of the sessions 1, 2 and 3, a failing message on socket 2 leaves 1 and 3. -/
theorem notifyMessage_closes_failing_connection_only_witness :
    SessionMap.find (MGServerReceiver.notifyMessage false sampleSessions
        { assockUid := 2, psender := 10 }).m_SessionMap 2 = none
    ∧ SessionMap.find (MGServerReceiver.notifyMessage false sampleSessions
        { assockUid := 2, psender := 10 }).m_SessionMap 3 = some { assockUid := 3, psender := 11 }
    ∧ (MGClientReceiver.notifyMessage false sampleSessions
        { assockUid := 2, psender := 10 }).released = [(10, 2)] :=
  ⟨(notifyMessage_closes_failing_connection_only sampleSessions
      { assockUid := 2, psender := 10 }).1.1,
    ((notifyMessage_closes_failing_connection_only sampleSessions
      { assockUid := 2, psender := 10 }).1.2.1 3 (by decide)).trans (by decide),
    (notifyMessage_closes_failing_connection_only sampleSessions
      { assockUid := 2, psender := 10 }).2.2.2.2.1.trans (by decide)⟩

/-- C30. For the server receiver and for the client receiver: `Disconnect(Serial)` returns
`false` exactly when the serial has no entry in the session map, and then changes nothing;
when the serial has an entry it returns `true`, asks the entry's sender to release the serial and
erases the serial, so that the serial has no entry afterwards while every other serial has the
entry it had. After a `Disconnect(Serial)`, a second `Disconnect(Serial)` returns `false` and
changes nothing, and `SendInternal` to that serial changes nothing: it posts no send. -/
theorem Disconnect_removes_serial_only (r : MGReceiver) (Serial : Int) :
    (((MGServerReceiver.Disconnect r Serial).1 = false
          ↔ SessionMap.find r.m_SessionMap Serial = none)
      ∧ (SessionMap.find r.m_SessionMap Serial = none →
          MGServerReceiver.Disconnect r Serial = (false, r))
      ∧ (∀ desc, SessionMap.find r.m_SessionMap Serial = some desc →
          (MGServerReceiver.Disconnect r Serial).1 = true
          ∧ (MGServerReceiver.Disconnect r Serial).2.m_SessionMap ≠ r.m_SessionMap
          ∧ (∀ k, k ≠ Serial →
              SessionMap.find (MGServerReceiver.Disconnect r Serial).2.m_SessionMap k
                = SessionMap.find r.m_SessionMap k)
          ∧ (∀ e, e ∈ (MGServerReceiver.Disconnect r Serial).2.m_SessionMap
              ↔ e ∈ r.m_SessionMap ∧ e.1 ≠ Serial)
          ∧ (MGServerReceiver.Disconnect r Serial).2.released
              = r.released ++ [(desc.psender, Serial)]
          ∧ (MGServerReceiver.Disconnect r Serial).2.posted = r.posted)
      ∧ SessionMap.find (MGServerReceiver.Disconnect r Serial).2.m_SessionMap Serial = none
      ∧ MGServerReceiver.Disconnect (MGServerReceiver.Disconnect r Serial).2 Serial
          = (false, (MGServerReceiver.Disconnect r Serial).2)
      ∧ ∀ pBuffer BufferSize,
          MGServerReceiver.SendInternal (MGServerReceiver.Disconnect r Serial).2 pBuffer
              BufferSize Serial
            = (MGServerReceiver.Disconnect r Serial).2)
    ∧ (((MGClientReceiver.Disconnect r Serial).1 = false
          ↔ SessionMap.find r.m_SessionMap Serial = none)
      ∧ (SessionMap.find r.m_SessionMap Serial = none →
          MGClientReceiver.Disconnect r Serial = (false, r))
      ∧ (∀ desc, SessionMap.find r.m_SessionMap Serial = some desc →
          (MGClientReceiver.Disconnect r Serial).1 = true
          ∧ (MGClientReceiver.Disconnect r Serial).2.m_SessionMap ≠ r.m_SessionMap
          ∧ (∀ k, k ≠ Serial →
              SessionMap.find (MGClientReceiver.Disconnect r Serial).2.m_SessionMap k
                = SessionMap.find r.m_SessionMap k)
          ∧ (∀ e, e ∈ (MGClientReceiver.Disconnect r Serial).2.m_SessionMap
              ↔ e ∈ r.m_SessionMap ∧ e.1 ≠ Serial)
          ∧ (MGClientReceiver.Disconnect r Serial).2.released
              = r.released ++ [(desc.psender, Serial)]
          ∧ (MGClientReceiver.Disconnect r Serial).2.posted = r.posted)
      ∧ SessionMap.find (MGClientReceiver.Disconnect r Serial).2.m_SessionMap Serial = none
      ∧ MGClientReceiver.Disconnect (MGClientReceiver.Disconnect r Serial).2 Serial
          = (false, (MGClientReceiver.Disconnect r Serial).2)
      ∧ ∀ pBuffer BufferSize,
          MGClientReceiver.SendInternal (MGClientReceiver.Disconnect r Serial).2 pBuffer
              BufferSize Serial
            = (MGClientReceiver.Disconnect r Serial).2) := by
  have hs : ((MGServerReceiver.Disconnect r Serial).1 = false
          ↔ SessionMap.find r.m_SessionMap Serial = none)
      ∧ (SessionMap.find r.m_SessionMap Serial = none →
          MGServerReceiver.Disconnect r Serial = (false, r))
      ∧ (∀ desc, SessionMap.find r.m_SessionMap Serial = some desc →
          (MGServerReceiver.Disconnect r Serial).1 = true
          ∧ (MGServerReceiver.Disconnect r Serial).2.m_SessionMap ≠ r.m_SessionMap
          ∧ (∀ k, k ≠ Serial →
              SessionMap.find (MGServerReceiver.Disconnect r Serial).2.m_SessionMap k
                = SessionMap.find r.m_SessionMap k)
          ∧ (∀ e, e ∈ (MGServerReceiver.Disconnect r Serial).2.m_SessionMap
              ↔ e ∈ r.m_SessionMap ∧ e.1 ≠ Serial)
          ∧ (MGServerReceiver.Disconnect r Serial).2.released
              = r.released ++ [(desc.psender, Serial)]
          ∧ (MGServerReceiver.Disconnect r Serial).2.posted = r.posted)
      ∧ SessionMap.find (MGServerReceiver.Disconnect r Serial).2.m_SessionMap Serial = none
      ∧ MGServerReceiver.Disconnect (MGServerReceiver.Disconnect r Serial).2 Serial
          = (false, (MGServerReceiver.Disconnect r Serial).2)
      ∧ ∀ pBuffer BufferSize,
          MGServerReceiver.SendInternal (MGServerReceiver.Disconnect r Serial).2 pBuffer
              BufferSize Serial
            = (MGServerReceiver.Disconnect r Serial).2 := by
    have hafter := MGServerReceiver.find_after_Disconnect r Serial
    refine ⟨?_, MGServerReceiver.Disconnect_absent r Serial, ?_, hafter,
      MGServerReceiver.Disconnect_absent _ Serial hafter, ?_⟩
    · cases h : SessionMap.find r.m_SessionMap Serial with
      | none => simp [MGServerReceiver.Disconnect_absent r Serial h]
      | some desc => simp [MGServerReceiver.Disconnect_present r Serial desc h]
    · intro desc h
      rw [MGServerReceiver.Disconnect_present r Serial desc h]
      refine ⟨rfl, ?_, fun k hk => SessionMap.find_erase_of_ne _ hk,
        fun e => SessionMap.mem_erase _ _ e, rfl, rfl⟩
      intro heq
      have h1 := SessionMap.find_erase_self r.m_SessionMap Serial
      simp only at heq
      rw [heq, h] at h1
      exact Option.noConfusion h1
    · intro pBuffer BufferSize
      simp [MGServerReceiver.SendInternal, hafter]
  refine ⟨hs, ?_⟩
  rw [MGClientReceiver.Disconnect_eq, MGClientReceiver.SendInternal_eq]
  exact hs

/-- Witness of C30: of the sessions 1, 2 and 3, `Disconnect(2)` returns `true` and leaves 1 and
3; `Disconnect(5)` returns `false`. -/
theorem Disconnect_removes_serial_only_witness :
    (MGServerReceiver.Disconnect sampleSessions 2).1 = true
    ∧ SessionMap.find (MGServerReceiver.Disconnect sampleSessions 2).2.m_SessionMap 1
        = some { assockUid := 1, psender := 10 }
    ∧ MGClientReceiver.Disconnect sampleSessions 5 = (false, sampleSessions) :=
  ⟨((Disconnect_removes_serial_only sampleSessions 2).1.2.2.1
      { assockUid := 2, psender := 10 } (by decide)).1,
    (((Disconnect_removes_serial_only sampleSessions 2).1.2.2.1
      { assockUid := 2, psender := 10 } (by decide)).2.2.1 1 (by decide)).trans (by decide),
    (Disconnect_removes_serial_only sampleSessions 5).2.2.1 (by decide)⟩

/-! ## The send path -/

theorem Encode_dataSize_eq (T : PacketTransforms) (packetOption : Nat) (p : SFPacket) :
    (SFPacket.Encode T packetOption p).body.header.dataSize
      = (SFPacket.Encode T packetOption p).body.data.length := rfl

theorem frameBytes_of_Encode (T : PacketTransforms) (packetOption : Nat) (p : SFPacket) :
    (SFPacket.Encode T packetOption p).frameBytes
      = (SFPacket.Encode T packetOption p).body.header.toBytes
          ++ (SFPacket.Encode T packetOption p).body.data := by
  unfold SFPacket.frameBytes SFPacket.GetPacketSize
  rw [Encode_dataSize_eq, ← toBytes_length (SFPacket.Encode T packetOption p).body.header,
    ← List.length_append]
  exact List.take_length _

/-- C25. The adapter's `SendRequest` returns what the strategy's `SendRequest` returns and has no
effect but the strategy's. `SFCGSFPacketProtocol::SendRequest` returns `TRUE`, leaves the packet
as one `Encode()` makes it, and appends exactly one entry to what the transport was handed: the
owner serial of the packet, with the bytes that start at the packet header, the header followed
by the payload, as they stand after encoding, `HEADER_SIZE + dataSize` bytes in all, which is
`GetPacketSize()` of the encoded packet. Nothing else of the strategy's state changes. -/
theorem SendRequest_encodes_once_and_sends (T : PacketTransforms)
    (this : Adapter SFCGSFPacketProtocol) (st : SFCGSFPacketProtocol) (pPacket : SFPacket) :
    SFPacketProtocol.SendRequest (SFCGSFPacketProtocol.strategy T) this pPacket
      = ((SFCGSFPacketProtocol.SendRequest T this.m_Analyzer pPacket).1,
          (SFCGSFPacketProtocol.SendRequest T this.m_Analyzer pPacket).2.1,
          { m_ioSize := this.m_ioSize, m_packetSize := this.m_packetSize,
            m_Analyzer := (SFCGSFPacketProtocol.SendRequest T this.m_Analyzer pPacket).2.2 })
    ∧ (SFCGSFPacketProtocol.SendRequest T st pPacket).1 = true
    ∧ (SFCGSFPacketProtocol.SendRequest T st pPacket).2.1
        = SFPacket.Encode T st.packetOption pPacket
    ∧ (SFCGSFPacketProtocol.SendRequest T st pPacket).2.2.transport
        = st.transport ++ [(pPacket.GetOwnerSerial,
            (SFPacket.Encode T st.packetOption pPacket).body.header.toBytes
              ++ (SFPacket.Encode T st.packetOption pPacket).body.data)]
    ∧ ((SFPacket.Encode T st.packetOption pPacket).body.header.toBytes
          ++ (SFPacket.Encode T st.packetOption pPacket).body.data).length
        = HEADER_SIZE + (SFPacket.Encode T st.packetOption pPacket).body.header.dataSize
    ∧ HEADER_SIZE + (SFPacket.Encode T st.packetOption pPacket).body.header.dataSize
        = (SFPacket.Encode T st.packetOption pPacket).GetPacketSize
    ∧ (SFCGSFPacketProtocol.SendRequest T st pPacket).2.2.m_pPacketIOBuffer
        = st.m_pPacketIOBuffer
    ∧ (SFCGSFPacketProtocol.SendRequest T st pPacket).2.2.pool = st.pool
    ∧ (SFCGSFPacketProtocol.SendRequest T st pPacket).2.2.maxPacketSize = st.maxPacketSize
    ∧ (SFCGSFPacketProtocol.SendRequest T st pPacket).2.2.packetOption = st.packetOption := by
  refine ⟨rfl, rfl, rfl, ?_, ?_, rfl, rfl, rfl, rfl, rfl⟩
  · show st.transport ++ [((SFPacket.Encode T st.packetOption pPacket).GetOwnerSerial,
        (SFPacket.Encode T st.packetOption pPacket).frameBytes)] = _
    rw [frameBytes_of_Encode]
    rfl
  · rw [List.length_append, toBytes_length, Encode_dataSize_eq]

/-- Witness of C25: the adapter of `ProtocolServer.cpp` sends the "hello world" packet owned by
connection 7: the transport is handed the 23 bytes of the frame, for connection 7. -/
theorem SendRequest_encodes_once_and_sends_witness :
    (SFCGSFPacketProtocol.SendRequest sampleTransforms sampleAdapter.m_Analyzer
        (helloPacket.SetOwnerSerial 7)).2.2.transport = [(7, helloFrame)] :=
  (SendRequest_encodes_once_and_sends sampleTransforms sampleAdapter sampleAdapter.m_Analyzer
    (helloPacket.SetOwnerSerial 7)).2.2.2.1.trans (by decide)

/-! ## Disposal by the strategy -/

/-- C24, as amended. The adapter's `DisposePacket` returns what the strategy's `DisposePacket`
returns and has no effect but the strategy's. `SFCGSFPacketProtocol::DisposePacket` passes every
packet to the `Release` of the packet pool, whatever its category, returns what `Release`
returns and does nothing else: the call made on the pool, the returned value and the instances
checked out afterwards are the same for every category the packet may have. -/
theorem DisposePacket_releases_to_pool (T : PacketTransforms)
    (this : Adapter SFCGSFPacketProtocol) (st : SFCGSFPacketProtocol) (pPacket : SFPacket) :
    SFPacketProtocol.DisposePacket (SFCGSFPacketProtocol.strategy T) this pPacket
      = ((SFCGSFPacketProtocol.DisposePacket this.m_Analyzer pPacket).1,
          { m_ioSize := this.m_ioSize, m_packetSize := this.m_packetSize,
            m_Analyzer := (SFCGSFPacketProtocol.DisposePacket this.m_Analyzer pPacket).2 })
    ∧ (SFCGSFPacketProtocol.DisposePacket st pPacket).1 = (st.pool.Release pPacket).1
    ∧ (SFCGSFPacketProtocol.DisposePacket st pPacket).2
        = { st with pool := (st.pool.Release pPacket).2 }
    ∧ (SFCGSFPacketProtocol.DisposePacket st pPacket).2.pool.calls
        = st.pool.calls ++ [PoolCall.release pPacket.body.addr]
    ∧ ∀ t : ePacketType,
        (SFCGSFPacketProtocol.DisposePacket st (pPacket.SetPacketType t)).1
          = (SFCGSFPacketProtocol.DisposePacket st pPacket).1
        ∧ (SFCGSFPacketProtocol.DisposePacket st (pPacket.SetPacketType t)).2.pool.calls
          = (SFCGSFPacketProtocol.DisposePacket st pPacket).2.pool.calls
        ∧ (SFCGSFPacketProtocol.DisposePacket st (pPacket.SetPacketType t)).2.pool.checkedOut
          = (SFCGSFPacketProtocol.DisposePacket st pPacket).2.pool.checkedOut
        ∧ (SFCGSFPacketProtocol.DisposePacket st (pPacket.SetPacketType t)).2.pool.free.length
          = (SFCGSFPacketProtocol.DisposePacket st pPacket).2.pool.free.length := by
  have hcalls : ∀ q : SFPacket, (SFCGSFPacketProtocol.DisposePacket st q).2.pool.calls
      = st.pool.calls ++ [PoolCall.release q.body.addr] := by
    intro q
    simp only [SFCGSFPacketProtocol.DisposePacket, PacketPool.Release]
    split <;> rfl
  refine ⟨rfl, rfl, rfl, hcalls pPacket, ?_⟩
  intro t
  have haddr : (pPacket.SetPacketType t).body.addr = pPacket.body.addr := rfl
  refine ⟨?_, ?_, ?_, ?_⟩
  · simp only [SFCGSFPacketProtocol.DisposePacket, PacketPool.Release, haddr]
    split <;> rfl
  · rw [hcalls, hcalls, haddr]
  · simp only [SFCGSFPacketProtocol.DisposePacket, PacketPool.Release, haddr]
    split <;> rfl
  · simp only [SFCGSFPacketProtocol.DisposePacket, PacketPool.Release, haddr]
    split <;> rfl

/-- Witness of C24: with the first instance of the pool checked out, the "hello world" packet
held in that instance, tagged as a data packet of connection 7, is disposed of: `Release` takes
it back, and the pool has seen the one `Alloc` and the one `Release`. -/
theorem DisposePacket_releases_to_pool_witness :
    (SFCGSFPacketProtocol.DisposePacket sampleServerHelloOut
        (SFPacketProtocol.tag 7 helloPacket)).1 = true
    ∧ (SFCGSFPacketProtocol.DisposePacket sampleServerHelloOut
        (SFPacketProtocol.tag 7 helloPacket)).2.pool.calls
        = [PoolCall.alloc 0, PoolCall.release 0] :=
  ⟨(DisposePacket_releases_to_pool sampleTransforms sampleAdapter sampleServerHelloOut
      (SFPacketProtocol.tag 7 helloPacket)).2.1.trans (by decide),
    (DisposePacket_releases_to_pool sampleTransforms sampleAdapter sampleServerHelloOut
      (SFPacketProtocol.tag 7 helloPacket)).2.2.2.1.trans (by decide)⟩

/-- Counterexample to C24 as stated: with the first instance of the pool checked out, a packet of
category `Connect` held in that instance is given to `DisposePacket`: it is passed to the pool's
`Release` and ends up among the free instances of the pool; a `Timer` packet that is not an
instance of the pool is passed to the pool's `Release` just the same. -/
theorem DisposePacket_releases_to_pool_counterexample :
    (samplePacket ePacketType.SFPACKET_CONNECT 0).GetPacketType = ePacketType.SFPACKET_CONNECT
    ∧ (SFCGSFPacketProtocol.DisposePacket sampleServerHelloOut
        (samplePacket ePacketType.SFPACKET_CONNECT 0)).1 = true
    ∧ (SFCGSFPacketProtocol.DisposePacket sampleServerHelloOut
        (samplePacket ePacketType.SFPACKET_CONNECT 0)).2.pool.free
        = [samplePacket ePacketType.SFPACKET_CONNECT 0, SFPacket.blank 1]
    ∧ (SFCGSFPacketProtocol.DisposePacket sampleServerHelloOut
        (samplePacket ePacketType.SFPACKET_CONNECT 0)).2.pool.calls
        = [PoolCall.alloc 0, PoolCall.release 0]
    ∧ (SFCGSFPacketProtocol.DisposePacket sampleServerHelloOut
        (samplePacket ePacketType.SFPACKET_TIMER 5)).2.pool.calls
        = [PoolCall.alloc 0, PoolCall.release 5] := by
  decide

/-! ## GetPacketData -/

namespace SFCGSFPacketProtocol

theorem specOps_size_ne_zero (T : PacketTransforms) (packetOption : Nat) (p : SFPacket) :
    (specOps T packetOption).GetPacketSize p ≠ 0 := by
  show HEADER_SIZE + p.body.header.dataSize ≠ 0
  unfold HEADER_SIZE
  omega

theorem GetPacketData_of_zero (ops : SFPacketOps) (pPacket : SFPacket) (buffer : List Nat)
    (bufferSize : Int) (h : ops.GetPacketSize pPacket = 0) :
    GetPacketData ops pPacket buffer bufferSize
      = { ret := true, pPacket := pPacket, buffer := buffer, writtenSize := 0, copied := 0 } := by
  unfold GetPacketData
  rw [if_pos h]

theorem GetPacketData_of_large (ops : SFPacketOps) (pPacket : SFPacket) (buffer : List Nat)
    (bufferSize : Int) (h0 : ops.GetPacketSize pPacket ≠ 0)
    (h : (ops.GetPacketSize pPacket : Int) > bufferSize) :
    GetPacketData ops pPacket buffer bufferSize
      = { ret := false, pPacket := pPacket, buffer := buffer, writtenSize := 0, copied := 0 } := by
  unfold GetPacketData
  rw [if_neg h0, if_pos h]

theorem GetPacketData_of_fits (ops : SFPacketOps) (pPacket : SFPacket) (buffer : List Nat)
    (bufferSize : Int) (h0 : ops.GetPacketSize pPacket ≠ 0)
    (h : ¬ (ops.GetPacketSize pPacket : Int) > bufferSize) :
    GetPacketData ops pPacket buffer bufferSize
      = { ret := true, pPacket := ops.Encode pPacket,
          buffer := memcpy buffer
            ((ops.Encode pPacket).memoryAt (ops.GetPacketSize (ops.Encode pPacket))),
          writtenSize := ops.GetPacketSize (ops.Encode pPacket),
          copied := ops.GetPacketSize (ops.Encode pPacket) } := by
  unfold GetPacketData
  rw [if_neg h0, if_neg h]

/-- C27. `GetPacketData` on a packet whose size is 0 returns `true`, and on a packet whose size
is not 0 and exceeds `bufferSize` it returns `false`; in both cases `writtenSize` is 0, the
buffer is as it was, nothing was copied, and the packet is as it was: `Encode()` was not called.
With `GetPacketSize()` as the specification has it, header plus payload, the size is never 0, and
the call returns `false` in this way whenever the size exceeds `bufferSize`. -/
theorem GetPacketData_early_exits (ops : SFPacketOps) (T : PacketTransforms)
    (packetOption : Nat) (pPacket : SFPacket) (buffer : List Nat) (bufferSize : Int) :
    (ops.GetPacketSize pPacket = 0 →
      GetPacketData ops pPacket buffer bufferSize
        = { ret := true, pPacket := pPacket, buffer := buffer, writtenSize := 0, copied := 0 })
    ∧ (ops.GetPacketSize pPacket ≠ 0 → (ops.GetPacketSize pPacket : Int) > bufferSize →
      GetPacketData ops pPacket buffer bufferSize
        = { ret := false, pPacket := pPacket, buffer := buffer, writtenSize := 0, copied := 0 })
    ∧ ((pPacket.GetPacketSize : Int) > bufferSize →
      GetPacketData (specOps T packetOption) pPacket buffer bufferSize
        = { ret := false, pPacket := pPacket, buffer := buffer, writtenSize := 0, copied := 0 }) :=
  ⟨GetPacketData_of_zero ops pPacket buffer bufferSize,
    GetPacketData_of_large ops pPacket buffer bufferSize,
    GetPacketData_of_large (specOps T packetOption) pPacket buffer bufferSize
      (specOps_size_ne_zero T packetOption pPacket)⟩

/-- When `GetPacketData` returns `true`, the reported `writtenSize` is the number of bytes copied
into the buffer, and it is at most `bufferSize` when `bufferSize` is not negative and the packet
size after `Encode()` is at most `bufferSize`. -/
theorem GetPacketData_within_buffer (ops : SFPacketOps) (pPacket : SFPacket)
    (buffer : List Nat) (bufferSize : Int)
    (hret : (GetPacketData ops pPacket buffer bufferSize).ret = true) :
    (GetPacketData ops pPacket buffer bufferSize).writtenSize
        = (GetPacketData ops pPacket buffer bufferSize).copied
    ∧ (0 ≤ bufferSize → (ops.GetPacketSize (ops.Encode pPacket) : Int) ≤ bufferSize →
        ((GetPacketData ops pPacket buffer bufferSize).writtenSize : Int) ≤ bufferSize) := by
  by_cases h0 : ops.GetPacketSize pPacket = 0
  · rw [GetPacketData_of_zero ops pPacket buffer bufferSize h0]
    exact ⟨rfl, fun hb _ => by simpa using hb⟩
  · by_cases hbig : (ops.GetPacketSize pPacket : Int) > bufferSize
    · rw [GetPacketData_of_large ops pPacket buffer bufferSize h0 hbig] at hret
      simp at hret
    · rw [GetPacketData_of_fits ops pPacket buffer bufferSize h0 hbig]
      exact ⟨rfl, fun _ h => h⟩

end SFCGSFPacketProtocol

/-- Witness of C27: a packet without payload whose size counts the payload only leaves through
the first exit; the "hello world" packet, 23 bytes, with a buffer of 10 bytes leaves through the
second. -/
theorem GetPacketData_early_exits_witness :
    SFCGSFPacketProtocol.GetPacketData payloadOps (SFPacket.blank 0) (List.replicate 10 0) 10
      = { ret := true, pPacket := SFPacket.blank 0, buffer := List.replicate 10 0,
          writtenSize := 0, copied := 0 }
    ∧ SFCGSFPacketProtocol.GetPacketData (SFCGSFPacketProtocol.specOps sampleTransforms 0)
        helloPacket (List.replicate 10 0) 10
      = { ret := false, pPacket := helloPacket, buffer := List.replicate 10 0,
          writtenSize := 0, copied := 0 } :=
  ⟨(SFCGSFPacketProtocol.GetPacketData_early_exits payloadOps sampleTransforms 0
      (SFPacket.blank 0) (List.replicate 10 0) 10).1 (by decide),
    (SFCGSFPacketProtocol.GetPacketData_early_exits
      (SFCGSFPacketProtocol.specOps sampleTransforms 0) sampleTransforms 0
      helloPacket (List.replicate 10 0) 10).2.2 (by decide)⟩

/-- C21, as amended. `Clone()` returns a newly default-constructed adapter and reads nothing of
the adapter it is called on: whatever that adapter is, the clone is the same. For the binary
strategy the clone has an I/O buffer of its own with no bytes buffered, and its strategy is
initialised with `base`, the values the members `m_ioSize` and `m_packetSize` of the new object
hold when the default constructor runs: the buffer capacity is the first and the maximum packet
size the second. When these are the clamped sizes of the two-argument constructor, the clone is
what that constructor builds. -/
theorem Clone_is_default_constructed (T : PacketTransforms)
    (this : Adapter SFCGSFPacketProtocol) (env : SFCGSFPacketProtocol) (base : Int × Nat) :
    SFPacketProtocol.Clone (SFCGSFPacketProtocol.strategy T) this env base
      = SFPacketProtocol.construct0 (SFCGSFPacketProtocol.strategy T) env base
    ∧ (∀ other : Adapter SFCGSFPacketProtocol,
        SFPacketProtocol.Clone (SFCGSFPacketProtocol.strategy T) other env base
          = SFPacketProtocol.Clone (SFCGSFPacketProtocol.strategy T) this env base)
    ∧ (SFPacketProtocol.Clone (SFCGSFPacketProtocol.strategy T) this env
        base).m_Analyzer.m_pPacketIOBuffer.buffered = []
    ∧ (SFPacketProtocol.Clone (SFCGSFPacketProtocol.strategy T) this env
        base).m_Analyzer.m_pPacketIOBuffer.m_iBufSize = base.1.toNat
    ∧ (SFPacketProtocol.Clone (SFCGSFPacketProtocol.strategy T) this env
        base).m_Analyzer.maxPacketSize = base.2
    ∧ (SFPacketProtocol.Clone (SFCGSFPacketProtocol.strategy T) this env base).m_ioSize = base.1
    ∧ (SFPacketProtocol.Clone (SFCGSFPacketProtocol.strategy T) this env base).m_packetSize
        = base.2
    ∧ ∀ (bufferIOSize : Int) (packetDataSize : Nat),
        base = SFPacketProtocol.clampSizes bufferIOSize packetDataSize →
        SFPacketProtocol.Clone (SFCGSFPacketProtocol.strategy T)
            (SFPacketProtocol.construct2 (SFCGSFPacketProtocol.strategy T) env bufferIOSize
              packetDataSize) env base
          = SFPacketProtocol.construct2 (SFCGSFPacketProtocol.strategy T) env bufferIOSize
              packetDataSize := by
  refine ⟨rfl, fun _ => rfl, rfl, rfl, rfl, rfl, rfl, ?_⟩
  intro bufferIOSize packetDataSize hbase
  subst hbase
  rfl

/-- Witness of C21: the clone of the adapter built with `(100, 50)`, taken while the members of
a new object hold `(100, 50)`, is that adapter as built. -/
theorem Clone_is_default_constructed_witness :
    SFPacketProtocol.Clone (SFCGSFPacketProtocol.strategy sampleTransforms) smallAdapter
        (sampleEnv 2) (100, 50) = smallAdapter :=
  (Clone_is_default_constructed sampleTransforms smallAdapter (sampleEnv 2) (100, 50)).2.2.2.2.2.2.2
    100 50 (by decide)

/-- Counterexample to C21 as stated: the adapters built with `(100, 50)` and with `(200, 60)` have
I/O buffers of 100 and of 200 bytes; whatever the members of a new object hold at a time, the
clone's strategy is initialised with that, whichever of the two adapters `Clone()` is called on,
so at no time do the clones of the two both have the I/O buffer size of their original. -/
theorem Clone_is_default_constructed_counterexample :
    smallAdapter.m_Analyzer.m_pPacketIOBuffer.m_iBufSize = 100
    ∧ largeAdapter.m_Analyzer.m_pPacketIOBuffer.m_iBufSize = 200
    ∧ ¬ ∃ base : Int × Nat,
        (SFPacketProtocol.Clone (SFCGSFPacketProtocol.strategy sampleTransforms) smallAdapter
            (sampleEnv 2) base).m_Analyzer.m_pPacketIOBuffer.m_iBufSize
          = smallAdapter.m_Analyzer.m_pPacketIOBuffer.m_iBufSize
        ∧ (SFPacketProtocol.Clone (SFCGSFPacketProtocol.strategy sampleTransforms) largeAdapter
            (sampleEnv 2) base).m_Analyzer.m_pPacketIOBuffer.m_iBufSize
          = largeAdapter.m_Analyzer.m_pPacketIOBuffer.m_iBufSize := by
  have hs : smallAdapter.m_Analyzer.m_pPacketIOBuffer.m_iBufSize = 100 := by decide
  have hl : largeAdapter.m_Analyzer.m_pPacketIOBuffer.m_iBufSize = 200 := by decide
  refine ⟨hs, hl, ?_⟩
  rintro ⟨base, h1, h2⟩
  rw [hs] at h1
  rw [hl] at h2
  have e1 : (SFPacketProtocol.Clone (SFCGSFPacketProtocol.strategy sampleTransforms) smallAdapter
      (sampleEnv 2) base).m_Analyzer.m_pPacketIOBuffer.m_iBufSize = base.1.toNat := rfl
  have e2 : (SFPacketProtocol.Clone (SFCGSFPacketProtocol.strategy sampleTransforms) largeAdapter
      (sampleEnv 2) base).m_Analyzer.m_pPacketIOBuffer.m_iBufSize = base.1.toNat := rfl
  rw [e1] at h1
  rw [e2] at h2
  omega

end CGSF
